import Mathlib

/-!
# FlashFvbDxe: firmware-volume block store over SPI flash

Shallow embedding of `Silicon/Hisilicon/Drivers/FlashFvbDxe/FlashFvbDxe.c`.

* Machine integers are natural numbers; every C operation that can wrap is
  written with an explicit `% 2 ^ 64` (UINTN, EFI_LBA) or `% 2 ^ 32` (UINT32).
* Memory is a map from byte address to byte; multi-byte fields are little-endian.
* The SPI flash protocol (`mFlash`) is an arbitrary device: three operations on an
  abstract device state plus the memory-mapped view of that state.
* Every call of a device primitive is recorded in a trace, together with three
  markers (hook invoked, validation pass, header install entered).
* `ASSERT` is compiled out; a division by a zero block size is a fault.
* Status codes, attribute bits, GUID values, structure layouts and the BaseLib
  checksum routines are those of the UEFI headers the driver includes (MdePkg,
  MdeModulePkg); the platform configuration (PCD) values are parameters.
* A function that can re-enter itself through the instance hook takes a fuel
  argument; the lemmas of the section on fuel show which amount gives the result.
-/

namespace FlashFvbDxe

/-! ## Status codes (UEFI, 64-bit) -/

abbrev EFI_STATUS := Nat

abbrev MAX_BIT : Nat := 0x8000000000000000
abbrev EFI_SUCCESS : EFI_STATUS := 0
abbrev EFI_INVALID_PARAMETER : EFI_STATUS := 0x8000000000000002
abbrev EFI_UNSUPPORTED : EFI_STATUS := 0x8000000000000003
abbrev EFI_BAD_BUFFER_SIZE : EFI_STATUS := 0x8000000000000004
abbrev EFI_DEVICE_ERROR : EFI_STATUS := 0x8000000000000007
abbrev EFI_WRITE_PROTECTED : EFI_STATUS := 0x8000000000000008
abbrev EFI_NOT_FOUND : EFI_STATUS := 0x800000000000000E
abbrev EFI_ACCESS_DENIED : EFI_STATUS := 0x800000000000000F

/-- The macro `EFI_ERROR`: the status, read as a signed 64-bit value, is negative. -/
def EFI_ERROR (Status : EFI_STATUS) : Bool := decide (MAX_BIT ≤ Status % 2 ^ 64)

abbrev EFI_LBA_LIST_TERMINATOR : Nat := 0xFFFFFFFFFFFFFFFF

/-! ## Bytes, buffers and memory -/

/-- Byte-addressed memory (the CPU view, flash window included). -/
abbrev Memory := Nat → Nat

def ReadUint8 (Mem : Memory) (Address : Nat) : Nat := Mem Address % 256

def ReadUint16 (Mem : Memory) (Address : Nat) : Nat :=
  ReadUint8 Mem Address + 256 * ReadUint8 Mem (Address + 1)

def ReadUint32 (Mem : Memory) (Address : Nat) : Nat :=
  ReadUint16 Mem Address + 65536 * ReadUint16 Mem (Address + 2)

def ReadUint64 (Mem : Memory) (Address : Nat) : Nat :=
  ReadUint32 Mem Address + 4294967296 * ReadUint32 Mem (Address + 4)

def Uint8Bytes (v : Nat) : List Nat := [v % 256]

def Uint16Bytes (v : Nat) : List Nat := [v % 256, v / 256 % 256]

def Uint32Bytes (v : Nat) : List Nat :=
  [v % 256, v / 256 % 256, v / 65536 % 256, v / 16777216 % 256]

def Uint64Bytes (v : Nat) : List Nat :=
  Uint32Bytes (v % 4294967296) ++ Uint32Bytes (v / 4294967296)

/-- The pool buffer seen as memory, the buffer starting at address 0. -/
def BufferMemory (Buffer : List Nat) : Memory := fun a => Buffer.getD a 0

/-- Memory in which `Buffer` occupies the addresses from `Base` on. -/
def PlaceAt (Mem : Memory) (Base : Nat) (Buffer : List Nat) : Memory :=
  fun a => if Base ≤ a ∧ a < Base + Buffer.length then Buffer.getD (a - Base) 0 else Mem a

/-- Memory with bit `Bit` of the byte at `Address` inverted. -/
def FlipBit (Mem : Memory) (Address Bit : Nat) : Memory :=
  fun a => if a = Address then ReadUint8 Mem a ^^^ 2 ^ Bit else Mem a

structure EFI_GUID where
  Data1 : Nat
  Data2 : Nat
  Data3 : Nat
  Data4 : List Nat
deriving DecidableEq

def GuidBytes (g : EFI_GUID) : List Nat :=
  Uint32Bytes g.Data1 ++ Uint16Bytes g.Data2 ++ Uint16Bytes g.Data3 ++
    (List.range 8).map (fun i => g.Data4.getD i 0 % 256)

/-- BaseMemoryLib `CompareGuid` of the 16 bytes at `Address` with a known GUID. -/
def CompareGuid (Mem : Memory) (Address : Nat) (g : EFI_GUID) : Bool :=
  decide ((List.range 16).map (fun i => ReadUint8 Mem (Address + i)) = GuidBytes g)

/-- Loop of the BaseLib routine `CalculateSum16`: `Count` words from `Address`. -/
def Sum16Loop (Mem : Memory) (Address : Nat) : Nat → Nat → Nat
  | 0, Sum => Sum
  | Count + 1, Sum => Sum16Loop Mem (Address + 2) Count ((Sum + ReadUint16 Mem Address) % 65536)

/-- BaseLib `CalculateSum16`: 16-bit sum of the `Length / 2` words from `Address`. -/
def CalculateSum16 (Mem : Memory) (Address Length : Nat) : Nat :=
  Sum16Loop Mem Address (Length / 2) 0

/-- BaseLib `CalculateCheckSum16`: two's complement of the 16-bit sum. -/
def CalculateCheckSum16 (Mem : Memory) (Address Length : Nat) : Nat :=
  (0x10000 - CalculateSum16 Mem Address Length) % 65536

/-! ## Constants and on-media layout (UEFI PI firmware volume, variable store) -/

abbrev EFI_FVH_SIGNATURE : Nat := 0x4856465F
abbrev EFI_FVH_REVISION : Nat := 0x02
abbrev VARIABLE_STORE_FORMATTED : Nat := 0x5a
abbrev VARIABLE_STORE_HEALTHY : Nat := 0xfe

abbrev EFI_FVB2_READ_ENABLED_CAP : Nat := 0x00000002
abbrev EFI_FVB2_READ_STATUS : Nat := 0x00000004
abbrev EFI_FVB2_WRITE_ENABLED_CAP : Nat := 0x00000010
abbrev EFI_FVB2_WRITE_STATUS : Nat := 0x00000020
abbrev EFI_FVB2_STICKY_WRITE : Nat := 0x00000200
abbrev EFI_FVB2_MEMORY_MAPPED : Nat := 0x00000400
abbrev EFI_FVB2_ERASE_POLARITY : Nat := 0x00000800

def gEfiSystemNvDataFvGuid : EFI_GUID :=
  ⟨0xFFF12B8D, 0x7696, 0x4C8B, [0xA9, 0x85, 0x27, 0x47, 0x07, 0x5B, 0x4F, 0x50]⟩

def gEfiVariableGuid : EFI_GUID :=
  ⟨0xddcf3616, 0x3275, 0x4164, [0x98, 0xb6, 0xfe, 0x85, 0x70, 0x7f, 0xfd, 0xe0]⟩

/-! Field offsets of EFI_FIRMWARE_VOLUME_HEADER (packed): ZeroVector[16], FileSystemGuid,
FvLength (8), Signature (4), Attributes (4), HeaderLength (2), Checksum (2),
ExtHeaderOffset (2), Reserved (1), Revision (1), BlockMap[]. -/
abbrev FvZeroVector : Nat := 0
abbrev FvFileSystemGuid : Nat := 16
abbrev FvFvLength : Nat := 32
abbrev FvSignature : Nat := 40
abbrev FvAttributes : Nat := 44
abbrev FvHeaderLength : Nat := 48
abbrev FvChecksum : Nat := 50
abbrev FvExtHeaderOffset : Nat := 52
abbrev FvReserved : Nat := 54
abbrev FvRevision : Nat := 55
abbrev FvBlockMap : Nat := 56
abbrev SizeofFvHeader : Nat := 64
abbrev SizeofBlockMapEntry : Nat := 8

/-! Field offsets of VARIABLE_STORE_HEADER (packed): Signature (16), Size (4), Format (1),
State (1), Reserved (2), Reserved1 (4). -/
abbrev VsSignature : Nat := 0
abbrev VsSize : Nat := 16
abbrev VsFormat : Nat := 20
abbrev VsState : Nat := 21
abbrev SizeofVariableStoreHeader : Nat := 28

/-! ## Platform configuration and instance -/

/-- The platform configuration database entries the driver reads. -/
structure PCD where
  PcdFlashNvStorageVariableBase64 : Nat
  PcdFlashNvStorageVariableSize : Nat
  PcdFlashNvStorageFtwWorkingBase64 : Nat
  PcdFlashNvStorageFtwWorkingSize : Nat
  PcdFlashNvStorageFtwSpareBase64 : Nat
  PcdFlashNvStorageFtwSpareSize : Nat
deriving DecidableEq

def PcdGet32 (v : Nat) : Nat := v % 2 ^ 32

def PcdGet64 (v : Nat) : Nat := v % 2 ^ 64

structure EFI_BLOCK_IO_MEDIA where
  MediaId : Nat
  ReadOnly : Bool
  BlockSize : Nat
  LastBlock : Nat
deriving DecidableEq

/-- FLASH_INSTANCE; `Initialize` tells whether the hook is non-NULL (the only
function ever stored in it is `FvbInitialize`). -/
structure FLASH_INSTANCE where
  Initialized : Bool
  Initialize : Bool
  DeviceBaseAddress : Nat
  RegionBaseAddress : Nat
  Size : Nat
  StartLba : Nat
  Media : EFI_BLOCK_IO_MEDIA
  SupportFvb : Bool
deriving DecidableEq

/-! ## Header construction and validation -/

structure EFI_FV_BLOCK_MAP_ENTRY where
  NumBlocks : Nat
  Length : Nat
deriving DecidableEq

/-- EFI_FIRMWARE_VOLUME_HEADER followed by one more block-map entry, as it lies in
the pool buffer of InitializeFvAndVariableStoreHeaders. -/
structure EFI_FIRMWARE_VOLUME_HEADER where
  ZeroVector : List Nat
  FileSystemGuid : EFI_GUID
  FvLength : Nat
  Signature : Nat
  Attributes : Nat
  HeaderLength : Nat
  Checksum : Nat
  ExtHeaderOffset : Nat
  Reserved : Nat
  Revision : Nat
  BlockMap0 : EFI_FV_BLOCK_MAP_ENTRY
  BlockMap1 : EFI_FV_BLOCK_MAP_ENTRY
deriving DecidableEq

structure VARIABLE_STORE_HEADER where
  Signature : EFI_GUID
  Size : Nat
  Format : Nat
  State : Nat
  Reserved : Nat
  Reserved1 : Nat
deriving DecidableEq

def ZeroGuid : EFI_GUID := ⟨0, 0, 0, [0, 0, 0, 0, 0, 0, 0, 0]⟩

/-- The header structures in a pool obtained from AllocateZeroPool. -/
def ZeroFvHeader : EFI_FIRMWARE_VOLUME_HEADER :=
  ⟨List.replicate 16 0, ZeroGuid, 0, 0, 0, 0, 0, 0, 0, 0, ⟨0, 0⟩, ⟨0, 0⟩⟩

def ZeroVariableStoreHeader : VARIABLE_STORE_HEADER := ⟨ZeroGuid, 0, 0, 0, 0, 0⟩

/-- Bytes of the firmware volume header in memory (packed, little-endian). -/
def FvHeaderBytes (h : EFI_FIRMWARE_VOLUME_HEADER) : List Nat :=
  (List.range 16).map (fun i => h.ZeroVector.getD i 0 % 256) ++
  GuidBytes h.FileSystemGuid ++ Uint64Bytes h.FvLength ++ Uint32Bytes h.Signature ++
  Uint32Bytes h.Attributes ++ Uint16Bytes h.HeaderLength ++ Uint16Bytes h.Checksum ++
  Uint16Bytes h.ExtHeaderOffset ++ Uint8Bytes h.Reserved ++ Uint8Bytes h.Revision ++
  Uint32Bytes h.BlockMap0.NumBlocks ++ Uint32Bytes h.BlockMap0.Length ++
  Uint32Bytes h.BlockMap1.NumBlocks ++ Uint32Bytes h.BlockMap1.Length

/-- Bytes of the variable store header in memory (packed, little-endian). -/
def VariableStoreHeaderBytes (h : VARIABLE_STORE_HEADER) : List Nat :=
  GuidBytes h.Signature ++ Uint32Bytes h.Size ++ Uint8Bytes h.Format ++ Uint8Bytes h.State ++
  Uint16Bytes h.Reserved ++ Uint32Bytes h.Reserved1

/-- The attribute mask stored in the installed header (lines 165-173). -/
def HeaderAttributes : Nat :=
  EFI_FVB2_READ_ENABLED_CAP ||| EFI_FVB2_READ_STATUS ||| EFI_FVB2_STICKY_WRITE |||
    EFI_FVB2_MEMORY_MAPPED ||| EFI_FVB2_ERASE_POLARITY ||| EFI_FVB2_WRITE_STATUS |||
    EFI_FVB2_WRITE_ENABLED_CAP

/-- The firmware volume header of InitializeFvAndVariableStoreHeaders before its
checksum is stored (lines 158-179). -/
def BuildFvHeader (Pcd : PCD) (Instance : FLASH_INSTANCE) : EFI_FIRMWARE_VOLUME_HEADER :=
  { ZeroFvHeader with
    FileSystemGuid := gEfiSystemNvDataFvGuid
    FvLength := (PcdGet32 Pcd.PcdFlashNvStorageVariableSize +
      PcdGet32 Pcd.PcdFlashNvStorageFtwWorkingSize +
      PcdGet32 Pcd.PcdFlashNvStorageFtwSpareSize) % 2 ^ 32
    Signature := EFI_FVH_SIGNATURE
    Attributes := HeaderAttributes
    HeaderLength := (SizeofFvHeader + SizeofBlockMapEntry) % 2 ^ 16
    Revision := EFI_FVH_REVISION
    BlockMap0 := ⟨(Instance.Media.LastBlock + 1) % 2 ^ 32, Instance.Media.BlockSize⟩
    BlockMap1 := ⟨0, 0⟩ }

/-- The buffer `Headers` that InitializeFvAndVariableStoreHeaders builds before it
hands it to FvbWrite (lines 138-189): the firmware volume header with its checksum,
then, at offset HeaderLength, the variable store header. -/
def BuildHeaders (Pcd : PCD) (Instance : FLASH_INSTANCE) : List Nat :=
  let FirmwareVolumeHeader := BuildFvHeader Pcd Instance
  let FirmwareVolumeHeader := { FirmwareVolumeHeader with
    Checksum := CalculateCheckSum16 (BufferMemory (FvHeaderBytes FirmwareVolumeHeader)) 0
      FirmwareVolumeHeader.HeaderLength }
  let VariableStoreHeader : VARIABLE_STORE_HEADER :=
    { ZeroVariableStoreHeader with
      Signature := gEfiVariableGuid
      Size := (PcdGet32 Pcd.PcdFlashNvStorageVariableSize + 2 ^ 32 -
        FirmwareVolumeHeader.HeaderLength) % 2 ^ 32
      Format := VARIABLE_STORE_FORMATTED
      State := VARIABLE_STORE_HEALTHY }
  FvHeaderBytes FirmwareVolumeHeader ++ VariableStoreHeaderBytes VariableStoreHeader

/-- ValidateFvHeader (FlashFvbDxe.c lines 207-269) on the memory-mapped contents. -/
def ValidateFvHeader (Pcd : PCD) (Instance : FLASH_INSTANCE) (Mem : Memory) : EFI_STATUS :=
  let FwVolHeader := Instance.RegionBaseAddress
  let FvLength := (PcdGet32 Pcd.PcdFlashNvStorageVariableSize +
    PcdGet32 Pcd.PcdFlashNvStorageFtwWorkingSize +
    PcdGet32 Pcd.PcdFlashNvStorageFtwSpareSize) % 2 ^ 32
  if ReadUint8 Mem (FwVolHeader + FvRevision) ≠ EFI_FVH_REVISION
      ∨ ReadUint32 Mem (FwVolHeader + FvSignature) ≠ EFI_FVH_SIGNATURE
      ∨ ReadUint64 Mem (FwVolHeader + FvFvLength) ≠ FvLength then
    EFI_NOT_FOUND
  else if CompareGuid Mem (FwVolHeader + FvFileSystemGuid) gEfiSystemNvDataFvGuid = false then
    EFI_NOT_FOUND
  else
    let HeaderLength := ReadUint16 Mem (FwVolHeader + FvHeaderLength)
    let Checksum := CalculateSum16 Mem FwVolHeader HeaderLength
    if Checksum ≠ 0 then
      EFI_NOT_FOUND
    else
      let VariableStoreHeader := FwVolHeader + HeaderLength
      if CompareGuid Mem (VariableStoreHeader + VsSignature) gEfiVariableGuid = false then
        EFI_NOT_FOUND
      else
        let VariableStoreLength :=
          (PcdGet32 Pcd.PcdFlashNvStorageVariableSize + 2 ^ 32 - HeaderLength) % 2 ^ 32
        if ReadUint32 Mem (VariableStoreHeader + VsSize) ≠ VariableStoreLength then
          EFI_NOT_FOUND
        else
          EFI_SUCCESS

/-! ## The flash device and the driver state -/

/-- Calls made to the SPI flash protocol, and three markers: the instance hook was
invoked, ValidateFvHeader ran, InitializeFvAndVariableStoreHeaders was entered. -/
inductive Event where
  | Erase (Offset Length : Nat)
  | Write (Offset : Nat) (Buffer : List Nat) (Length : Nat)
  | Read (Offset Length : Nat)
  | Hook
  | Validate
  | Install
deriving DecidableEq

/-- HISI_SPI_FLASH_PROTOCOL over an abstract device state, with the memory-mapped
view of the flash the CPU has in that state. -/
structure HISI_SPI_FLASH_PROTOCOL (σ : Type) where
  Erase : σ → Nat → Nat → EFI_STATUS × σ
  Write : σ → Nat → List Nat → Nat → EFI_STATUS × σ
  Read : σ → Nat → Nat → EFI_STATUS × List Nat × σ
  Mapped : σ → Memory

/-- What the driver takes from its environment. FLASH_ERASE_RETRY is a constant of
FlashFvbDxe.h, which is not among the sources, and is left open. -/
structure Platform (σ : Type) where
  mFlash : HISI_SPI_FLASH_PROTOCOL σ
  Pcd : PCD
  FLASH_ERASE_RETRY : Nat
  EfiAtRuntime : Bool

/-- The mutable state: the instance, the module global, the device, the trace. -/
structure Driver (σ : Type) where
  Instance : FLASH_INSTANCE
  mFlashNvStorageVariableBase : Nat
  Flash : σ
  Trace : List Event

inductive Fault where
  | OutOfFuel
  | DivideByZero
deriving DecidableEq

/-- Outcome of a call: a value, or no return at all. -/
inductive Run (α : Type) where
  | ok (a : α)
  | fault (f : Fault)

/-- Modelled from the spec: the macro GET_BLOCK_ADDRESS of FlashFvbDxe.h, which is not
among the sources; sections 4.6 and 4.7 give the address of a block as
`regionBase + lba * blockSize`. The arithmetic is that of UINTN. -/
def GET_BLOCK_ADDRESS (BaseAddr Lba LbaSize : Nat) : Nat :=
  (BaseAddr + Lba * LbaSize % 2 ^ 64) % 2 ^ 64

variable {σ : Type}

def Driver.log (D : Driver σ) (e : Event) : Driver σ := { D with Trace := D.Trace ++ [e] }

def DeviceErase (P : Platform σ) (D : Driver σ) (Offset Length : Nat) : EFI_STATUS × Driver σ :=
  let r := P.mFlash.Erase D.Flash Offset Length
  (r.1, { D with Flash := r.2, Trace := D.Trace ++ [Event.Erase Offset Length] })

def DeviceWrite (P : Platform σ) (D : Driver σ) (Offset : Nat) (Buffer : List Nat)
    (Length : Nat) : EFI_STATUS × Driver σ :=
  let r := P.mFlash.Write D.Flash Offset Buffer Length
  (r.1, { D with Flash := r.2, Trace := D.Trace ++ [Event.Write Offset Buffer Length] })

def DeviceRead (P : Platform σ) (D : Driver σ) (Offset Length : Nat) :
    EFI_STATUS × List Nat × Driver σ :=
  let r := P.mFlash.Read D.Flash Offset Length
  (r.1, r.2.1, { D with Flash := r.2.2, Trace := D.Trace ++ [Event.Read Offset Length] })

/-! ## Erase -/

def FlashUnlockSingleBlockIfNecessary (_Instance : FLASH_INSTANCE) (_BlockAddress : Nat) :
    EFI_STATUS := EFI_SUCCESS

/-- FlashEraseSingleBlock (lines 987-1007). -/
def FlashEraseSingleBlock (P : Platform σ) (D : Driver σ) (BlockAddress : Nat) :
    EFI_STATUS × Driver σ :=
  let EraseAddress := (BlockAddress + (2 ^ 64 - D.Instance.DeviceBaseAddress % 2 ^ 64)) % 2 ^ 64
  let r := DeviceErase P D (EraseAddress % 2 ^ 32) D.Instance.Media.BlockSize
  if EFI_SUCCESS ≠ r.1 then (r.1, r.2) else (EFI_SUCCESS, r.2)

/-- The do-while loop of FlashUnlockAndEraseSingleBlock; `Budget` bounds the number of
further iterations and is never exhausted when it starts at FLASH_ERASE_RETRY. -/
def UnlockAndEraseLoop (P : Platform σ) (BlockAddress : Nat) :
    Nat → Nat → Driver σ → EFI_STATUS × Driver σ
  | 0, _, D =>
    let Status := FlashUnlockSingleBlockIfNecessary D.Instance BlockAddress
    if !EFI_ERROR Status then FlashEraseSingleBlock P D BlockAddress else (Status, D)
  | Budget + 1, Index, D =>
    let Status := FlashUnlockSingleBlockIfNecessary D.Instance BlockAddress
    let r := if !EFI_ERROR Status then FlashEraseSingleBlock P D BlockAddress else (Status, D)
    let Index := (Index + 1) % 2 ^ 64
    if Index < P.FLASH_ERASE_RETRY ∧ r.1 = EFI_WRITE_PROTECTED then
      UnlockAndEraseLoop P BlockAddress Budget Index r.2
    else
      r

/-- FlashUnlockAndEraseSingleBlock (lines 1012-1041). -/
def FlashUnlockAndEraseSingleBlock (P : Platform σ) (D : Driver σ) (BlockAddress : Nat) :
    EFI_STATUS × Driver σ :=
  UnlockAndEraseLoop P BlockAddress P.FLASH_ERASE_RETRY 0 D

/-- First pass of FvbEraseBlocks over the argument list (lines 763-788); a pair is
(StartingLba, NumOfLba), the list ends at its end or at the first terminator. -/
def EraseArgsValid (Instance : FLASH_INSTANCE) : List (Nat × Nat) → Bool
  | [] => true
  | (StartingLba, Num) :: Args =>
    if StartingLba = EFI_LBA_LIST_TERMINATOR then true
    else
      let NumOfLba := Num % 2 ^ 32
      if NumOfLba = 0 ∨
          (Instance.StartLba + StartingLba + NumOfLba + 2 ^ 64 - 1) % 2 ^ 64 >
            Instance.Media.LastBlock then false
      else EraseArgsValid Instance Args

/-- The inner while loop of the second pass (lines 810-833); the Boolean tells that the
loop left through `goto EXIT`. -/
def EraseRange (P : Platform σ) : Nat → Nat → EFI_STATUS → Driver σ → EFI_STATUS × Bool × Driver σ
  | 0, _, Status, D => (Status, false, D)
  | NumOfLba + 1, StartingLba, _, D =>
    let BlockAddress := GET_BLOCK_ADDRESS D.Instance.RegionBaseAddress
      ((D.Instance.StartLba + StartingLba) % 2 ^ 64) D.Instance.Media.BlockSize
    let r := FlashUnlockAndEraseSingleBlock P D BlockAddress
    if EFI_ERROR r.1 then (EFI_DEVICE_ERROR, true, r.2)
    else EraseRange P NumOfLba ((StartingLba + 1) % 2 ^ 64) r.1 r.2

/-- Second pass of FvbEraseBlocks over the argument list (lines 793-836). -/
def EraseArgs (P : Platform σ) : List (Nat × Nat) → EFI_STATUS → Driver σ → EFI_STATUS × Driver σ
  | [], Status, D => (Status, D)
  | (StartingLba, Num) :: Args, Status, D =>
    if StartingLba = EFI_LBA_LIST_TERMINATOR then (Status, D)
    else
      let r := EraseRange P (Num % 2 ^ 32) StartingLba Status D
      if r.2.1 then (r.1, r.2.2) else EraseArgs P Args r.1 r.2.2

/-- FvbEraseBlocks (lines 737-840). -/
def FvbEraseBlocks (P : Platform σ) (D : Driver σ) (Args : List (Nat × Nat)) :
    EFI_STATUS × Driver σ :=
  if D.Instance.Media.ReadOnly = true then (EFI_ACCESS_DENIED, D)
  else if EraseArgsValid D.Instance Args = false then (EFI_INVALID_PARAMETER, D)
  else EraseArgs P Args EFI_SUCCESS D

/-! ## Lazy initialization, write and read -/

/-- FvbWrite after the lazy-initialization guard (lines 650-692). -/
def FvbWriteBody (P : Platform σ) (D : Driver σ) (Lba Offset NumBytes : Nat)
    (Buffer : List Nat) : EFI_STATUS × Driver σ :=
  if D.Instance.Media.ReadOnly = true then (EFI_ACCESS_DENIED, D)
  else
    let BlockSize := D.Instance.Media.BlockSize
    if Offset ≥ BlockSize ∨ NumBytes > BlockSize ∨ (Offset + NumBytes) % 2 ^ 64 > BlockSize then
      (EFI_BAD_BUFFER_SIZE, D)
    else if NumBytes = 0 then (EFI_BAD_BUFFER_SIZE, D)
    else
      let BlockAddress := GET_BLOCK_ADDRESS D.Instance.RegionBaseAddress Lba BlockSize
      let WriteAddress :=
        (BlockAddress + (2 ^ 64 - D.Instance.DeviceBaseAddress % 2 ^ 64) + Offset) % 2 ^ 64
      let r := DeviceWrite P D (WriteAddress % 2 ^ 32) Buffer NumBytes
      if EFI_SUCCESS ≠ r.1 then (r.1, r.2) else (r.1, r.2)

/-- FvbRead after the lazy-initialization guard (lines 523-561); the result carries
the caller's buffer. -/
def FvbReadBody (P : Platform σ) (D : Driver σ) (Lba Offset NumBytes : Nat)
    (Buffer : List Nat) : EFI_STATUS × List Nat × Driver σ :=
  let BlockSize := D.Instance.Media.BlockSize
  if Offset ≥ BlockSize ∨ NumBytes > BlockSize ∨ (Offset + NumBytes) % 2 ^ 64 > BlockSize then
    (EFI_BAD_BUFFER_SIZE, Buffer, D)
  else if NumBytes = 0 then (EFI_BAD_BUFFER_SIZE, Buffer, D)
  else
    let StartAddress := GET_BLOCK_ADDRESS D.Instance.RegionBaseAddress Lba BlockSize
    let ReadAddress :=
      (StartAddress + (2 ^ 64 - D.Instance.DeviceBaseAddress % 2 ^ 64) + Offset) % 2 ^ 64
    let r := DeviceRead P D (ReadAddress % 2 ^ 32) NumBytes
    if EFI_SUCCESS ≠ r.1 then (EFI_DEVICE_ERROR, r.2.1, r.2.2) else (r.1, r.2.1, r.2.2)

/-- Sequencing of calls that may not return. -/
def Run.bind {α β : Type} : Run α → (α → Run β) → Run β
  | .ok a, f => f a
  | .fault e, _ => .fault e

/-- The state in which FvbInitialize calls ValidateFvHeader (lines 851-858): the flag
is set, the module global and StartLba are assigned; the validation pass is marked. -/
def InitPrologue (P : Platform σ) (D : Driver σ) : Driver σ :=
  { D with
    Instance := { D.Instance with
      Initialized := true
      StartLba := (PcdGet64 P.Pcd.PcdFlashNvStorageVariableBase64 +
        (2 ^ 64 - D.Instance.RegionBaseAddress % 2 ^ 64)) % 2 ^ 64 / D.Instance.Media.BlockSize }
    mFlashNvStorageVariableBase := PcdGet64 P.Pcd.PcdFlashNvStorageVariableBase64
    Trace := D.Trace ++ [Event.Validate] }

mutual

/-- FvbInitialize (lines 842-878); the division of line 855 faults on a zero block
size. Both returns after the header install return its status. -/
def FvbInitialize (P : Platform σ) : Nat → Driver σ → Run (EFI_STATUS × Driver σ)
  | 0, _ => .fault .OutOfFuel
  | fuel + 1, D =>
    if D.Instance.Media.BlockSize = 0 then .fault .DivideByZero
    else
      let D := InitPrologue P D
      let Status := ValidateFvHeader P.Pcd D.Instance (P.mFlash.Mapped D.Flash)
      if EFI_ERROR Status then
        let FvbNumLba := (PcdGet32 P.Pcd.PcdFlashNvStorageVariableSize +
          PcdGet32 P.Pcd.PcdFlashNvStorageFtwWorkingSize +
          PcdGet32 P.Pcd.PcdFlashNvStorageFtwSpareSize) % 2 ^ 32 / D.Instance.Media.BlockSize
        let r := FvbEraseBlocks P D [(0, FvbNumLba)]
        if EFI_ERROR r.1 then .ok r
        else InitializeFvAndVariableStoreHeaders P fuel r.2
      else .ok (Status, D)

/-- InitializeFvAndVariableStoreHeaders (lines 122-196); the result of the hook is
dropped. -/
def InitializeFvAndVariableStoreHeaders (P : Platform σ) :
    Nat → Driver σ → Run (EFI_STATUS × Driver σ)
  | 0, _ => .fault .OutOfFuel
  | fuel + 1, D =>
    let D := D.log Event.Install
    let HeadersLength := SizeofFvHeader + SizeofBlockMapEntry + SizeofVariableStoreHeader
    if !D.Instance.Initialized && D.Instance.Initialize then
      (FvbInitialize P fuel (D.log Event.Hook)).bind fun r =>
        FvbWrite P fuel r.2 0 0 HeadersLength (BuildHeaders P.Pcd r.2.Instance)
    else FvbWrite P fuel D 0 0 HeadersLength (BuildHeaders P.Pcd D.Instance)

/-- FvbWrite (lines 617-692): the lazy-initialization guard, in which the result of
the hook is dropped, then FvbWriteBody. -/
def FvbWrite (P : Platform σ) :
    Nat → Driver σ → Nat → Nat → Nat → List Nat → Run (EFI_STATUS × Driver σ)
  | 0, _, _, _, _, _ => .fault .OutOfFuel
  | fuel + 1, D, Lba, Offset, NumBytes, Buffer =>
    if !D.Instance.Initialized && D.Instance.Initialize then
      if P.EfiAtRuntime then .ok (EFI_UNSUPPORTED, D)
      else
        (FvbInitialize P fuel (D.log Event.Hook)).bind fun r =>
          .ok (FvbWriteBody P r.2 Lba Offset NumBytes Buffer)
    else .ok (FvbWriteBody P D Lba Offset NumBytes Buffer)

end

/-- FvbRead (lines 494-561): the lazy-initialization guard, in which the result of
the hook is dropped, then FvbReadBody. -/
def FvbRead (P : Platform σ) (fuel : Nat) (D : Driver σ) (Lba Offset NumBytes : Nat)
    (Buffer : List Nat) : Run (EFI_STATUS × List Nat × Driver σ) :=
  if !D.Instance.Initialized && D.Instance.Initialize then
    if P.EfiAtRuntime then .ok (EFI_UNSUPPORTED, Buffer, D)
    else
      (FvbInitialize P fuel (D.log Event.Hook)).bind fun r =>
        .ok (FvbReadBody P r.2 Lba Offset NumBytes Buffer)
  else .ok (FvbReadBody P D Lba Offset NumBytes Buffer)

/-! ## Observations on traces and flat descriptions used in the statements -/

def IsErase : Event → Bool
  | .Erase _ _ => true
  | _ => false

def IsWrite : Event → Bool
  | .Write _ _ _ => true
  | _ => false

def IsRead : Event → Bool
  | .Read _ _ => true
  | _ => false

/-- Number of device erase calls in a trace. -/
def DeviceErases (t : List Event) : Nat := t.countP IsErase

/-- Number of device write calls in a trace. -/
def DeviceWrites (t : List Event) : Nat := t.countP IsWrite

/-- Number of device read calls in a trace. -/
def DeviceReads (t : List Event) : Nat := t.countP IsRead

/-- Number of ValidateFvHeader passes in a trace. -/
def Validations (t : List Event) : Nat := t.count Event.Validate

/-- Number of entries into InitializeFvAndVariableStoreHeaders in a trace. -/
def Installs (t : List Event) : Nat := t.count Event.Install

/-- Number of invocations of the instance hook in a trace. -/
def HookCalls (t : List Event) : Nat := t.count Event.Hook

/-- FvbInitialize without recursion: what a call with enough fuel returns when the
block size is not zero. -/
def FvbInitializeFlat (P : Platform σ) (D : Driver σ) : EFI_STATUS × Driver σ :=
  let D := InitPrologue P D
  let Status := ValidateFvHeader P.Pcd D.Instance (P.mFlash.Mapped D.Flash)
  if EFI_ERROR Status then
    let FvbNumLba := (PcdGet32 P.Pcd.PcdFlashNvStorageVariableSize +
      PcdGet32 P.Pcd.PcdFlashNvStorageFtwWorkingSize +
      PcdGet32 P.Pcd.PcdFlashNvStorageFtwSpareSize) % 2 ^ 32 / D.Instance.Media.BlockSize
    let r := FvbEraseBlocks P D [(0, FvbNumLba)]
    if EFI_ERROR r.1 then r
    else FvbWriteBody P (r.2.log Event.Install) 0 0 100 (BuildHeaders P.Pcd r.2.Instance)
  else (Status, D)

/-- A read or a write through the firmware volume block protocol. -/
inductive Access where
  | Read (Lba Offset NumBytes : Nat) (Buffer : List Nat)
  | Write (Lba Offset NumBytes : Nat) (Buffer : List Nat)

/-- Perform an access; the data read is dropped from the result. -/
def Access.run (P : Platform σ) (fuel : Nat) (D : Driver σ) : Access → Run (EFI_STATUS × Driver σ)
  | .Read Lba Offset NumBytes Buffer =>
    (FvbRead P fuel D Lba Offset NumBytes Buffer).bind fun r => .ok (r.1, r.2.2)
  | .Write Lba Offset NumBytes Buffer => FvbWrite P fuel D Lba Offset NumBytes Buffer

/-- Status of a finished call, if it returned. -/
def Run.status {α : Type} : Run (EFI_STATUS × α) → Option EFI_STATUS
  | .ok r => some r.1
  | .fault _ => none

/-- Driver state after a call, if it returned. -/
def Run.driver : Run (EFI_STATUS × Driver σ) → Option (Driver σ)
  | .ok r => some r.2
  | .fault _ => none

/-- Trace after a call, empty if it did not return. -/
def Run.trace : Run (EFI_STATUS × Driver σ) → List Event
  | .ok r => r.2.Trace
  | .fault _ => []

/-- The device offset FvbRead and FvbWrite compute (lines 545-551, 680-683), in the
arithmetic of UINTN and with the cast to UINT32. -/
def TransferAddress (I : FLASH_INSTANCE) (Lba Offset : Nat) : Nat :=
  (GET_BLOCK_ADDRESS I.RegionBaseAddress Lba I.Media.BlockSize +
    (2 ^ 64 - I.DeviceBaseAddress % 2 ^ 64) + Offset) % 2 ^ 64 % 2 ^ 32

/-! ## Sample platforms for the concrete evaluations -/

/-- A device on which every operation succeeds; erased flash reads as 0xFF. -/
def GoodFlash : HISI_SPI_FLASH_PROTOCOL Unit :=
  ⟨fun _ _ _ => (EFI_SUCCESS, ()), fun _ _ _ _ => (EFI_SUCCESS, ()),
    fun _ _ _ => (EFI_SUCCESS, [], ()), fun _ _ => 0xFF⟩

/-- A device whose erase fails while reads and writes succeed. -/
def EraseFailsFlash : HISI_SPI_FLASH_PROTOCOL Unit :=
  ⟨fun _ _ _ => (EFI_DEVICE_ERROR, ()), fun _ _ _ _ => (EFI_SUCCESS, ()),
    fun _ _ _ => (EFI_SUCCESS, [], ()), fun _ _ => 0xFF⟩

def SamplePcd : PCD := ⟨0x2000, 0x10000, 0x12000, 0x10000, 0x22000, 0x10000⟩

def GoodPlatform : Platform Unit := ⟨GoodFlash, SamplePcd, 10, false⟩

def EraseFailsPlatform : Platform Unit := ⟨EraseFailsFlash, SamplePcd, 10, false⟩

/-- Geometry of testable property 5: device base 0x1000, region base 0x2000, three
blocks of 0x10000 bytes. -/
def SampleMedia : EFI_BLOCK_IO_MEDIA := ⟨0, false, 0x10000, 2⟩

/-- An instance on which lazy initialization has not run yet. -/
def FreshInstance : FLASH_INSTANCE := ⟨false, true, 0x1000, 0x2000, 0x30000, 0, SampleMedia, true⟩

/-- An initialized writable instance. -/
def ReadyInstance : FLASH_INSTANCE := { FreshInstance with Initialized := true }

/-- An instance on a write-protected medium. -/
def ReadOnlyInstance : FLASH_INSTANCE :=
  { FreshInstance with Media := { SampleMedia with ReadOnly := true } }

def FreshDriver : Driver Unit := ⟨FreshInstance, 0, (), []⟩

def ReadyDriver : Driver Unit := ⟨ReadyInstance, 0, (), []⟩

def ReadOnlyDriver : Driver Unit := ⟨ReadOnlyInstance, 0, (), []⟩

/-- A store on which the headers have been installed; the rest of the flash is erased. -/
def FormattedMemory : Memory :=
  PlaceAt (fun _ => 0xFF) 0x2000 (BuildHeaders SamplePcd FreshInstance)

/-- A device on which every operation succeeds and whose flash holds valid headers. -/
def FormattedFlash : HISI_SPI_FLASH_PROTOCOL Unit :=
  ⟨fun _ _ _ => (EFI_SUCCESS, ()), fun _ _ _ _ => (EFI_SUCCESS, ()),
    fun _ _ _ => (EFI_SUCCESS, [], ()), fun _ => FormattedMemory⟩

def FormattedPlatform : Platform Unit := ⟨FormattedFlash, SamplePcd, 10, false⟩

/-- Store contents behind the installed headers (offset 100 of the region): four data
bytes, then, at offset 104, the 16 bytes of the variable GUID and the size
0x10000 - 104. -/
def TailData : List Nat :=
  [0x0D, 0xDD, 0x00, 0x00] ++ GuidBytes gEfiVariableGuid ++ Uint32Bytes 0xFF98

/-- The installed headers followed by TailData. -/
def StoreWithTail : Memory :=
  PlaceAt (PlaceAt (fun _ => 0xFF) (0x2000 + 100) TailData) 0x2000
    (BuildHeaders SamplePcd FreshInstance)

/-! ## Auxiliary definitions for the header proofs -/

/-- Unreduced sum of `Count` little-endian words from `Address`. -/
def WordSum (Mem : Memory) (Address : Nat) : Nat → Nat
  | 0 => 0
  | Count + 1 => ReadUint16 Mem Address + WordSum Mem (Address + 2) Count

/-- Unreduced sum of the 35 header words other than the checksum word, for
FvLength `v`, block count `nb` and block size `bs`. -/
def HeaderWordSum (v nb bs : Nat) : Nat :=
  (0x2B8D + 0xFFF1 + 0x7696 + 0x4C8B + 0x85A9 + 0x4727 + 0x5B07 + 0x504F)
  + (v % 256 + 256 * (v / 256 % 256)) + (v / 65536 % 256 + 256 * (v / 16777216 % 256))
  + (0x465F + 0x4856) + 0x0E36 + 72 + 0x0200
  + (nb % 256 + 256 * (nb / 256 % 256)) + (nb / 65536 % 256 + 256 * (nb / 16777216 % 256))
  + (bs % 256 + 256 * (bs / 256 % 256)) + (bs / 65536 % 256 + 256 * (bs / 16777216 % 256))

/-- The 100 bytes of the installed headers, field by field. -/
def HeaderBytes (v nb bs c sz : Nat) : List Nat :=
  [0, 0, 0, 0, 0, 0, 0, 0, 0, 0, 0, 0, 0, 0, 0, 0,
   0x8D, 0x2B, 0xF1, 0xFF, 0x96, 0x76, 0x8B, 0x4C, 0xA9, 0x85, 0x27, 0x47, 0x07, 0x5B, 0x4F, 0x50,
   v % 256, v / 256 % 256, v / 65536 % 256, v / 16777216 % 256, 0, 0, 0, 0,
   0x5F, 0x46, 0x56, 0x48,
   0x36, 0x0E, 0x00, 0x00,
   72, 0,
   c % 256, c / 256 % 256,
   0, 0, 0, 2,
   nb % 256, nb / 256 % 256, nb / 65536 % 256, nb / 16777216 % 256,
   bs % 256, bs / 256 % 256, bs / 65536 % 256, bs / 16777216 % 256,
   0, 0, 0, 0, 0, 0, 0, 0,
   0x16, 0x36, 0xcf, 0xdd, 0x75, 0x32, 0x64, 0x41, 0x98, 0xb6, 0xfe, 0x85, 0x70, 0x7f, 0xfd, 0xe0,
   sz % 256, sz / 256 % 256, sz / 65536 % 256, sz / 16777216 % 256,
   0x5a, 0xfe, 0, 0, 0, 0, 0, 0]

/-- FvLength as both the installer and the validator compute it. -/
def ConfiguredFvLength (Pcd : PCD) : Nat :=
  (PcdGet32 Pcd.PcdFlashNvStorageVariableSize + PcdGet32 Pcd.PcdFlashNvStorageFtwWorkingSize +
    PcdGet32 Pcd.PcdFlashNvStorageFtwSpareSize) % 2 ^ 32

/-- The checksum InitializeFvAndVariableStoreHeaders stores. -/
def InstalledChecksum (Pcd : PCD) (Instance : FLASH_INSTANCE) : Nat :=
  CalculateCheckSum16 (BufferMemory (FvHeaderBytes (BuildFvHeader Pcd Instance))) 0
    (BuildFvHeader Pcd Instance).HeaderLength

/-- The second state has the instance and the module global of the first. -/
def SameConfig (D D' : Driver σ) : Prop :=
  D'.Instance = D.Instance ∧ D'.mFlashNvStorageVariableBase = D.mFlashNvStorageVariableBase

/-- The lazy-initialization guard `!Instance->Initialized && Instance->Initialize`. -/
def GuardFires (I : FLASH_INSTANCE) : Bool := !I.Initialized && I.Initialize

/-! ## The query operations of the protocol -/

/-- FvbGetAttributes (lines 284-318); the result carries the attributes and the state. -/
def FvbGetAttributes (D : Driver σ) : EFI_STATUS × Nat × Driver σ :=
  let FlashFvbAttributes := EFI_FVB2_READ_ENABLED_CAP ||| EFI_FVB2_READ_STATUS |||
    EFI_FVB2_STICKY_WRITE ||| EFI_FVB2_MEMORY_MAPPED ||| EFI_FVB2_ERASE_POLARITY
  let FlashFvbAttributes :=
    if D.Instance.Media.ReadOnly ≠ true then
      FlashFvbAttributes ||| EFI_FVB2_WRITE_STATUS ||| EFI_FVB2_WRITE_ENABLED_CAP
    else FlashFvbAttributes
  (EFI_SUCCESS, FlashFvbAttributes, D)

/-- FvbSetAttributes (lines 339-348). -/
def FvbSetAttributes (D : Driver σ) (_Attributes : Nat) : EFI_STATUS × Driver σ :=
  (EFI_UNSUPPORTED, D)

/-- FvbGetPhysicalAddress (lines 367-382). `Address` is `none` for a NULL pointer and
otherwise holds what the caller's variable contains; the result holds what it contains
afterwards. -/
def FvbGetPhysicalAddress (D : Driver σ) (Address : Option Nat) :
    EFI_STATUS × Option Nat × Driver σ :=
  match Address with
  | none => (EFI_UNSUPPORTED, none, D)
  | some _ => (EFI_SUCCESS, some D.mFlashNvStorageVariableBase, D)

/-- FvbGetBlockSize (lines 410-439); the second component is `none` when the two output
variables are not written, else their new contents (BlockSize, NumberOfBlocks). -/
def FvbGetBlockSize (D : Driver σ) (Lba : Nat) : EFI_STATUS × Option (Nat × Nat) × Driver σ :=
  if Lba > D.Instance.Media.LastBlock then (EFI_INVALID_PARAMETER, none, D)
  else
    (EFI_SUCCESS,
      some (D.Instance.Media.BlockSize % 2 ^ 64,
        ((D.Instance.Media.LastBlock + (2 ^ 64 - Lba % 2 ^ 64)) % 2 ^ 64 + 1) % 2 ^ 64),
      D)

/-! ## Further sample platforms -/

/-- A device on which every operation returns the given status. -/
def StatusFlash (Status : EFI_STATUS) : HISI_SPI_FLASH_PROTOCOL Unit :=
  ⟨fun _ _ _ => (Status, ()), fun _ _ _ _ => (Status, ()), fun _ _ _ => (Status, [], ()),
    fun _ _ => 0xFF⟩

def StatusPlatform (Status : EFI_STATUS) : Platform Unit :=
  ⟨StatusFlash Status, SamplePcd, 10, false⟩

/-- The sample platform after the system has left boot-time context. -/
def RuntimePlatform : Platform Unit := ⟨GoodFlash, SamplePcd, 10, true⟩

/-- A device whose state counts the erase calls made: the first two succeed, every
later one reports write-protected. -/
def CountingFlash : HISI_SPI_FLASH_PROTOCOL Nat :=
  ⟨fun s _ _ => (if s < 2 then EFI_SUCCESS else EFI_WRITE_PROTECTED, s + 1),
    fun s _ _ _ => (EFI_SUCCESS, s), fun s _ _ => (EFI_SUCCESS, [], s), fun _ _ => 0xFF⟩

def CountingPlatform : Platform Nat := ⟨CountingFlash, SamplePcd, 3, false⟩

def CountingDriver : Driver Nat := ⟨ReadyInstance, 0, 0, []⟩

/-! ## Reference description of the erase pass -/

/-- Device state after `n` erase calls with the same arguments. -/
def FlashAfterErases (P : Platform σ) (Offset Length : Nat) : Nat → σ → σ
  | 0, s => s
  | n + 1, s => FlashAfterErases P Offset Length n (P.mFlash.Erase s Offset Length).2

/-- Status of call number `k`, counted from 0, in a run of erase calls with the same
arguments that starts in device state `s`. -/
def EraseAttemptStatus (P : Platform σ) (Offset Length k : Nat) (s : σ) : EFI_STATUS :=
  (P.mFlash.Erase (FlashAfterErases P Offset Length k s) Offset Length).1

/-- The device offset FlashEraseSingleBlock passes for a block address (lines 998-1000),
in the arithmetic of UINTN and with the cast to UINT32. -/
def BlockEraseOffset (I : FLASH_INSTANCE) (BlockAddress : Nat) : Nat :=
  (BlockAddress + (2 ^ 64 - I.DeviceBaseAddress % 2 ^ 64)) % 2 ^ 64 % 2 ^ 32

/-- The block address FvbEraseBlocks computes for an LBA of its argument list (lines
813-817). -/
def EraseBlockAddress (I : FLASH_INSTANCE) (Lba : Nat) : Nat :=
  GET_BLOCK_ADDRESS I.RegionBaseAddress ((I.StartLba + Lba) % 2 ^ 64) I.Media.BlockSize

/-- The LBAs the inner loop of the second pass visits: `n` of them from `s`, stepping
with the 64-bit increment of line 830. -/
def RangeBlocks : Nat → Nat → List Nat
  | 0, _ => []
  | n + 1, s => s :: RangeBlocks n ((s + 1) % 2 ^ 64)

/-- The LBAs the second pass visits for an argument list, in order. -/
def BlockList : List (Nat × Nat) → List Nat
  | [] => []
  | (StartingLba, Num) :: Args =>
    if StartingLba = EFI_LBA_LIST_TERMINATOR then []
    else RangeBlocks (Num % 2 ^ 32) StartingLba ++ BlockList Args

/-- Erase the blocks of a list of LBAs one after the other with
FlashUnlockAndEraseSingleBlock, stopping with device error at the first block whose
erase reports an error; the Boolean tells that this happened. -/
def EraseSeq (P : Platform σ) : List Nat → EFI_STATUS → Driver σ → EFI_STATUS × Bool × Driver σ
  | [], Status, D => (Status, false, D)
  | Lba :: Blocks, _, D =>
    let r := FlashUnlockAndEraseSingleBlock P D (EraseBlockAddress D.Instance Lba)
    if EFI_ERROR r.1 then (EFI_DEVICE_ERROR, true, r.2) else EraseSeq P Blocks r.1 r.2

/-- The erase call the driver makes for an LBA of an erase request. -/
def EraseEvent (I : FLASH_INSTANCE) (Lba : Nat) : Event :=
  Event.Erase (BlockEraseOffset I (EraseBlockAddress I Lba)) I.Media.BlockSize

/-- The erase call section 4.6 of the specification describes for an LBA: physical
address regionBase + (startLba + lba) * blockSize - deviceBase, length blockSize. -/
def SpecEraseEvent (I : FLASH_INSTANCE) (Lba : Nat) : Event :=
  Event.Erase (I.RegionBaseAddress + (I.StartLba + Lba) * I.Media.BlockSize - I.DeviceBaseAddress)
    I.Media.BlockSize

/-- The blocks of a range list as section 4.6 of the specification lists them: range by
range, by ascending LBA within each range. -/
def SpecBlocks : List (Nat × Nat) → List Nat
  | [] => []
  | (StartingLba, Num) :: Args => List.range' StartingLba Num ++ SpecBlocks Args

/-- An initialized writable instance of 0x10001 blocks of 0x10000 bytes, so that its last
block lies more than 4 GiB above the device base. -/
def LargeInstance : FLASH_INSTANCE :=
  { ReadyInstance with Media := { SampleMedia with LastBlock := 0x10000 } }

def LargeDriver : Driver Unit := ⟨LargeInstance, 0, (), []⟩

/-- A configuration of three areas of 64 bytes each. -/
def SmallPcd : PCD := ⟨0x2000, 0x40, 0x2040, 0x40, 0x2080, 0x40⟩

/-- An instance of three blocks of 64 bytes on which lazy initialization has not run. -/
def SmallInstance : FLASH_INSTANCE := ⟨false, true, 0x1000, 0x2000, 0xC0, 0, ⟨0, false, 64, 2⟩, true⟩

def SmallPlatform : Platform Unit := ⟨GoodFlash, SmallPcd, 10, false⟩

def SmallDriver : Driver Unit := ⟨SmallInstance, 0, (), []⟩

/-- The region of SmallInstance with the headers the driver installs for SmallPcd. -/
def SmallMemory : Memory := PlaceAt (fun _ => 0xFF) 0x2000 (BuildHeaders SmallPcd SmallInstance)

/-- A configuration whose three areas together are smaller than one block of 0x10000
bytes. -/
def TinyPcd : PCD := ⟨0x2000, 0x4000, 0x6000, 0x4000, 0xA000, 0x4000⟩

def TinyPlatform : Platform Unit := ⟨GoodFlash, TinyPcd, 10, false⟩

/-! ## Instance creation, the block transfers, and the operations as one type -/

abbrev SIZE_64KB : Nat := 0x10000

/-- The fields of mFlashInstanceTemplate (lines 36-101) that the model keeps. -/
def mFlashInstanceTemplate : FLASH_INSTANCE :=
  ⟨false, false, 0, 0, 0, 0, ⟨0, false, SIZE_64KB, 0⟩, false⟩

/-- FlashCreateInstance (lines 899-975). `FlashInstanceIsNull` tells that the output
pointer is NULL, `AllocateFails` that AllocateRuntimeCopyPool returns NULL,
`InstallStatus` is what InstallMultipleProtocolInterfaces returns. The result holds
the instance stored through the output pointer, if one is stored. The division of line
933 faults on a zero block size. -/
def FlashCreateInstance (FlashDeviceBase FlashRegionBase FlashSize MediaId BlockSize : Nat)
    (SupportFvb FlashInstanceIsNull AllocateFails : Bool) (InstallStatus : EFI_STATUS) :
    Run (EFI_STATUS × Option FLASH_INSTANCE) :=
  if FlashInstanceIsNull then .ok (EFI_INVALID_PARAMETER, none)
  else if AllocateFails then .ok (EFI_INVALID_PARAMETER, none)
  else if BlockSize = 0 then .fault .DivideByZero
  else
    let Instance : FLASH_INSTANCE := { mFlashInstanceTemplate with
      DeviceBaseAddress := FlashDeviceBase
      RegionBaseAddress := FlashRegionBase
      Size := FlashSize
      Media := { mFlashInstanceTemplate.Media with
        MediaId := MediaId
        BlockSize := BlockSize
        LastBlock := (FlashSize / BlockSize + (2 ^ 64 - 1)) % 2 ^ 64 } }
    if SupportFvb then
      let Instance := { Instance with SupportFvb := true, Initialize := true }
      if EFI_ERROR InstallStatus then .ok (InstallStatus, none)
      else .ok (InstallStatus, some Instance)
    else
      let Instance := { Instance with Initialized := true }
      if EFI_ERROR InstallStatus then .ok (InstallStatus, none)
      else .ok (InstallStatus, some Instance)

/-- FlashWriteBlocks (lines 1043-1099); `Buffer` is `none` for a NULL pointer. The
remainder of line 1074 faults on a zero block size. -/
def FlashWriteBlocks (P : Platform σ) (D : Driver σ) (Lba BufferSizeInBytes : Nat)
    (Buffer : Option (List Nat)) : Run (EFI_STATUS × Driver σ) :=
  match Buffer with
  | none => .ok (EFI_INVALID_PARAMETER, D)
  | some Buffer =>
    if D.Instance.Media.ReadOnly = true then .ok (EFI_WRITE_PROTECTED, D)
    else if BufferSizeInBytes = 0 then .ok (EFI_BAD_BUFFER_SIZE, D)
    else if D.Instance.Media.BlockSize = 0 then .fault .DivideByZero
    else if BufferSizeInBytes % D.Instance.Media.BlockSize ≠ 0 then .ok (EFI_BAD_BUFFER_SIZE, D)
    else
      let NumBlocks := BufferSizeInBytes % 2 ^ 32 / D.Instance.Media.BlockSize
      if (Lba + NumBlocks) % 2 ^ 64 > (D.Instance.Media.LastBlock + 1) % 2 ^ 64 then
        .ok (EFI_INVALID_PARAMETER, D)
      else
        let BlockAddress :=
          GET_BLOCK_ADDRESS D.Instance.RegionBaseAddress Lba D.Instance.Media.BlockSize
        let WriteAddress :=
          (BlockAddress + (2 ^ 64 - D.Instance.DeviceBaseAddress % 2 ^ 64)) % 2 ^ 64
        let r := DeviceWrite P D (WriteAddress % 2 ^ 32) Buffer BufferSizeInBytes
        if EFI_SUCCESS ≠ r.1 then .ok (r.1, r.2) else .ok (r.1, r.2)

/-- FlashReadBlocks (lines 1101-1157); `BufferIsNull` tells that the buffer pointer is
NULL, the result carries the data read. -/
def FlashReadBlocks (P : Platform σ) (D : Driver σ) (Lba BufferSizeInBytes : Nat)
    (BufferIsNull : Bool) : Run (EFI_STATUS × List Nat × Driver σ) :=
  if BufferIsNull then .ok (EFI_INVALID_PARAMETER, [], D)
  else if BufferSizeInBytes = 0 then .ok (EFI_BAD_BUFFER_SIZE, [], D)
  else if D.Instance.Media.BlockSize = 0 then .fault .DivideByZero
  else if BufferSizeInBytes % D.Instance.Media.BlockSize ≠ 0 then .ok (EFI_BAD_BUFFER_SIZE, [], D)
  else
    let NumBlocks := BufferSizeInBytes % 2 ^ 32 / D.Instance.Media.BlockSize
    if (Lba + NumBlocks) % 2 ^ 64 > (D.Instance.Media.LastBlock + 1) % 2 ^ 64 then
      .ok (EFI_INVALID_PARAMETER, [], D)
    else
      let StartAddress :=
        GET_BLOCK_ADDRESS D.Instance.RegionBaseAddress Lba D.Instance.Media.BlockSize
      let ReadAddress :=
        (StartAddress + (2 ^ 64 - D.Instance.DeviceBaseAddress % 2 ^ 64)) % 2 ^ 64
      let r := DeviceRead P D (ReadAddress % 2 ^ 32) BufferSizeInBytes
      if EFI_SUCCESS ≠ r.1 then .ok (r.1, r.2.1, r.2.2) else .ok (EFI_SUCCESS, r.2.1, r.2.2)

/-- The operations of the driver on an instance: the seven members of the firmware
volume block protocol, the hook FvbInitialize, and the header install. -/
inductive FvbCall where
  | GetAttributes
  | SetAttributes (Attributes : Nat)
  | GetPhysicalAddress (Address : Option Nat)
  | GetBlockSize (Lba : Nat)
  | Read (Lba Offset NumBytes : Nat) (Buffer : List Nat)
  | Write (Lba Offset NumBytes : Nat) (Buffer : List Nat)
  | EraseBlocks (Args : List (Nat × Nat))
  | Initialize
  | InstallHeaders

/-- Perform an operation; output values are dropped from the result. -/
def FvbCall.run (P : Platform σ) (fuel : Nat) (D : Driver σ) :
    FvbCall → Run (EFI_STATUS × Driver σ)
  | .GetAttributes => .ok ((FvbGetAttributes D).1, (FvbGetAttributes D).2.2)
  | .SetAttributes Attributes => .ok (FvbSetAttributes D Attributes)
  | .GetPhysicalAddress Address =>
    .ok ((FvbGetPhysicalAddress D Address).1, (FvbGetPhysicalAddress D Address).2.2)
  | .GetBlockSize Lba => .ok ((FvbGetBlockSize D Lba).1, (FvbGetBlockSize D Lba).2.2)
  | .Read Lba Offset NumBytes Buffer => (Access.Read Lba Offset NumBytes Buffer).run P fuel D
  | .Write Lba Offset NumBytes Buffer => (Access.Write Lba Offset NumBytes Buffer).run P fuel D
  | .EraseBlocks Args => .ok (FvbEraseBlocks P D Args)
  | .Initialize => FvbInitialize P fuel D
  | .InstallHeaders => InitializeFvAndVariableStoreHeaders P fuel D

/-- The members of the firmware volume block protocol and the lazy initialization. -/
def FvbCall.IsProtocolOrInitialize : FvbCall → Bool
  | .InstallHeaders => false
  | _ => true

/-- The second instance has the geometry of the first: media (identifier, read-only flag,
block size, last block), region base and device base. -/
def SameGeometry (I I' : FLASH_INSTANCE) : Prop :=
  I'.Media = I.Media ∧ I'.RegionBaseAddress = I.RegionBaseAddress ∧
    I'.DeviceBaseAddress = I.DeviceBaseAddress

/-- Modelled from the spec: the type FLASH_DESCRIPTION of FlashFvbDxe.h, which is not
among the sources; section 3 gives a region descriptor as device base address, region
base address, size, block size and GUID, in this order, and lines 1204-1213 read these
fields. The GUID is left out. -/
structure FLASH_DESCRIPTION where
  DeviceBaseAddress : Nat
  RegionBaseAddress : Nat
  Size : Nat
  BlockSize : Nat
deriving DecidableEq

/-- The table mFlashDevices (lines 21-32): its initialiser has one entry, whose region
base is the PCD PcdFlashNvStorageVariableBase64. PcdSFCMEM0BaseAddress is a PCD that
only this table reads. The length FLASH_DEVICE_COUNT of the table is a constant of
FlashFvbDxe.h; the list holds the entry the initialiser gives. -/
def mFlashDevices (Pcd : PCD) (PcdSFCMEM0BaseAddress : Nat) : List FLASH_DESCRIPTION :=
  [⟨PcdGet64 PcdSFCMEM0BaseAddress, PcdGet64 Pcd.PcdFlashNvStorageVariableBase64, 0x20000,
    SIZE_64KB⟩]

/-- The test of lines 1204-1206 of FlashFvbInitialize: the region of the descriptor
contains the variable storage. -/
def ContainVariableStorage (Pcd : PCD) (Dev : FLASH_DESCRIPTION) : Bool :=
  decide (Dev.RegionBaseAddress ≤ PcdGet64 Pcd.PcdFlashNvStorageVariableBase64) &&
    decide ((PcdGet64 Pcd.PcdFlashNvStorageVariableBase64 +
      PcdGet32 Pcd.PcdFlashNvStorageVariableSize) % 2 ^ 64 ≤
        (Dev.RegionBaseAddress + Dev.Size) % 2 ^ 64)

/-- One pass of the loop of FlashFvbInitialize (lines 1201-1221): the call of
FlashCreateInstance for entry `Index` of the table; the block size is passed as a
UINT32. -/
def FlashFvbInitializeEntry (Pcd : PCD) (Dev : FLASH_DESCRIPTION) (Index : Nat)
    (FlashInstanceIsNull AllocateFails : Bool) (InstallStatus : EFI_STATUS) :
    Run (EFI_STATUS × Option FLASH_INSTANCE) :=
  FlashCreateInstance Dev.DeviceBaseAddress Dev.RegionBaseAddress Dev.Size (Index % 2 ^ 32)
    (Dev.BlockSize % 2 ^ 32) (ContainVariableStorage Pcd Dev) FlashInstanceIsNull AllocateFails
    InstallStatus

/-- The instance FlashFvbInitialize creates for the entry of mFlashDevices under the
sample configuration, with the device at 0x1000. -/
def TableInstance : FLASH_INSTANCE :=
  ⟨false, true, 0x1000, 0x2000, 0x20000, 0, ⟨0, false, 0x10000, 1⟩, true⟩

def TableDriver : Driver Unit := ⟨TableInstance, 0, (), []⟩

/-- TableInstance after the lazy initialization. -/
def TableReadyDriver : Driver Unit := ⟨{ TableInstance with Initialized := true }, 0x2000, (), []⟩
end FlashFvbDxe

/-!
# RpiFirmwareDxe: the mailbox client of the Raspberry Pi firmware

Shallow embedding of `Platform/RaspberryPi/Drivers/RpiFirmwareDxe/RpiFirmwareDxe.c`.

* The three mailbox registers are an arbitrary device over an abstract state: every
  read of the status register and of the read register returns what the device
  decides, so every sequence of register values is covered.
* The DMA buffer is byte memory addressed by the offset from `mDmaBuffer`; it does not
  end at the NUM_PAGES pages that are allocated, so that a write behind them is seen.
  What the firmware leaves in the buffer is decided by the device at the write of the
  mailbox register.
* Barriers and cache maintenance change neither the registers nor the buffer.
* The spin lock is a Boolean; AcquireSpinLockOrFail takes it exactly when it is free.
* Every access to a register, to the lock, and every ZeroMem is recorded in a trace.
* The constants of `IndustryStandard/RpiMbox.h` and `IndustryStandard/Bcm2836Mbox.h`,
  which are not among the sources, are parameters.
-/

namespace RpiFirmwareDxe

open FlashFvbDxe

abbrev EFI_OUT_OF_RESOURCES : EFI_STATUS := 0x8000000000000009
abbrev EFI_TIMEOUT : EFI_STATUS := 0x8000000000000012

/-- The number of statically allocated buffer pages (line 36). -/
abbrev NUM_PAGES : Nat := 1

/-- The macro `EFI_PAGES_TO_SIZE` of the UEFI base types: pages of 4 KiB. -/
def EFI_PAGES_TO_SIZE (Pages : Nat) : Nat := Pages * 4096 % 2 ^ 64

/-- Calls recorded in the trace: a read of the status register and of the read register
with the value returned, a write of the write register, an AcquireSpinLockOrFail with
its result, a ReleaseSpinLock, a ZeroMem of the DMA buffer with its length. -/
inductive MboxEvent where
  | Status (Val : Nat)
  | Read (Val : Nat)
  | Write (Val : Nat)
  | Acquire (Taken : Bool)
  | Release
  | Zero (Length : Nat)
deriving DecidableEq

/-- Constants of RpiMbox.h and Bcm2836Mbox.h and the PCD PcdDmaDeviceOffset. -/
structure RpiMbox where
  RPI_MBOX_MAX_TRIES : Nat
  BCM2836_MBOX_NUM_CHANNELS : Nat
  BCM2836_MBOX_STATUS_EMPTY : Nat
  BCM2836_MBOX_STATUS_FULL : Nat
  RPI_MBOX_VC_CHANNEL : Nat
  RPI_MBOX_RESP_SUCCESS : Nat
  RPI_MBOX_VALUE_SIZE_RESPONSE_MASK : Nat
  RPI_MBOX_POWER_STATE_ENABLE : Nat
  RPI_MBOX_POWER_STATE_WAIT : Nat
  RPI_EXP_GPIO_LED : Nat
  PcdDmaDeviceOffset : Nat
  RPI_MBOX_SET_POWER_STATE : Nat
  RPI_MBOX_GET_ARM_MEMSIZE : Nat
  RPI_MBOX_GET_MAC_ADDRESS : Nat
  RPI_MBOX_GET_BOARD_SERIAL : Nat
  RPI_MBOX_GET_BOARD_MODEL : Nat
  RPI_MBOX_GET_BOARD_REVISION : Nat
  RPI_MBOX_GET_REVISION : Nat
  RPI_MBOX_GET_FB_GEOMETRY : Nat
  RPI_MBOX_FREE_FB : Nat
  RPI_MBOX_SET_FB_PGEOM : Nat
  RPI_MBOX_SET_FB_VGEOM : Nat
  RPI_MBOX_SET_FB_DEPTH : Nat
  RPI_MBOX_ALLOC_FB : Nat
  RPI_MBOX_GET_FB_LINELENGTH : Nat
  RPI_MBOX_GET_COMMAND_LINE : Nat
  RPI_MBOX_SET_CLOCK_RATE : Nat
  RPI_MBOX_GET_CLOCK_STATE : Nat
  RPI_MBOX_GET_CLOCK_RATE : Nat
  RPI_MBOX_GET_MAX_CLOCK_RATE : Nat
  RPI_MBOX_GET_MIN_CLOCK_RATE : Nat
  RPI_MBOX_SET_CLOCK_STATE : Nat
  RPI_MBOX_SET_GPIO : Nat
  RPI_MBOX_NOTIFY_XHCI_RESET : Nat
  RPI_MBOX_GET_GPIO_CONFIG : Nat
  RPI_MBOX_SET_GPIO_CONFIG : Nat
  RPI_MBOX_GET_RTC_REG : Nat
  RPI_MBOX_SET_RTC_REG : Nat

/-- The mailbox seen from the CPU: reads of the status and of the read register, the
write of the write register, at which the device also decides the contents the DMA
buffer has afterwards; the constants; the bus address of the DMA buffer. -/
structure Board (σ : Type) where
  MmioReadStatus : σ → Nat × σ
  MmioReadRead : σ → Nat × σ
  MmioWriteWrite : σ → Nat → Memory → σ × Memory
  C : RpiMbox
  mDmaBufferBusAddress : Nat

/-- The mutable state: the device, the DMA buffer, mMailboxLock (true when held), the
trace. -/
structure Rpi (σ : Type) where
  Hw : σ
  Dma : Memory
  mMailboxLock : Bool
  Trace : List MboxEvent

variable {σ : Type}

/-- MmioRead32 of the status register. -/
def MmioRead32Status (B : Board σ) (S : Rpi σ) : Nat × Rpi σ :=
  let r := B.MmioReadStatus S.Hw
  (r.1 % 2 ^ 32, { S with Hw := r.2, Trace := S.Trace ++ [MboxEvent.Status (r.1 % 2 ^ 32)] })

/-- MmioRead32 of the read register. -/
def MmioRead32Read (B : Board σ) (S : Rpi σ) : Nat × Rpi σ :=
  let r := B.MmioReadRead S.Hw
  (r.1 % 2 ^ 32, { S with Hw := r.2, Trace := S.Trace ++ [MboxEvent.Read (r.1 % 2 ^ 32)] })

/-- MmioWrite32 of the write register. -/
def MmioWrite32Write (B : Board σ) (S : Rpi σ) (Val : Nat) : Rpi σ :=
  let r := B.MmioWriteWrite S.Hw Val S.Dma
  { S with Hw := r.1, Dma := r.2, Trace := S.Trace ++ [MboxEvent.Write Val] }

/-- SynchronizationLib `AcquireSpinLockOrFail` on mMailboxLock. -/
def AcquireSpinLockOrFail (S : Rpi σ) : Bool × Rpi σ :=
  if S.mMailboxLock then (false, { S with Trace := S.Trace ++ [MboxEvent.Acquire false] })
  else (true, { S with mMailboxLock := true, Trace := S.Trace ++ [MboxEvent.Acquire true] })

/-- SynchronizationLib `ReleaseSpinLock` on mMailboxLock. -/
def ReleaseSpinLock (S : Rpi σ) : Rpi σ :=
  { S with mMailboxLock := false, Trace := S.Trace ++ [MboxEvent.Release] }

/-- BaseMemoryLib `ZeroMem (Cmd, Length)` with `Cmd = mDmaBuffer`. -/
def ZeroMem (S : Rpi σ) (Length : Nat) : Rpi σ :=
  { S with
    Dma := fun a => if a < Length then 0 else S.Dma a
    Trace := S.Trace ++ [MboxEvent.Zero Length] }

/-- Assignment to a 32-bit field of the command at `Offset`. -/
def Store32 (S : Rpi σ) (Offset Value : Nat) : Rpi σ :=
  { S with Dma := PlaceAt S.Dma Offset (Uint32Bytes Value) }

/-- Assignments to 32-bit fields of the command, in order, as (offset, value). -/
def StoreFields (S : Rpi σ) : List (Nat × Nat) → Rpi σ
  | [] => S
  | (Offset, Value) :: Fields => StoreFields (Store32 S Offset Value) Fields

/-! ## Offsets in a command: RPI_FW_BUFFER_HEAD, RPI_FW_TAG_HEAD (lines 167-177) -/

abbrev CmdBufferSize : Nat := 0
abbrev CmdResponse : Nat := 4
abbrev CmdTagId : Nat := 8
abbrev CmdTagSize : Nat := 12
abbrev CmdTagValueSize : Nat := 16
abbrev CmdTagBody : Nat := 20

/-! ## The mailbox transaction (lines 47-165) -/

/-- The mask `1U << BCM2836_MBOX_STATUS_EMPTY`. -/
def StatusEmptyMask (B : Board σ) : Nat := 2 ^ B.C.BCM2836_MBOX_STATUS_EMPTY % 2 ^ 32

/-- The mask `1U << BCM2836_MBOX_STATUS_FULL`. -/
def StatusFullMask (B : Board σ) : Nat := 2 ^ B.C.BCM2836_MBOX_STATUS_FULL % 2 ^ 32

/-- The do-while loop of DrainMailbox (lines 59-67); `Tries` counts as in the source
and stays below RPI_MBOX_MAX_TRIES, `Budget` bounds the number of further iterations
and is never exhausted when it starts at RPI_MBOX_MAX_TRIES. -/
def DrainMailboxLoop (B : Board σ) : Nat → Nat → Rpi σ → Bool × Rpi σ
  | 0, _, S =>
    let r := MmioRead32Status B S
    if r.1 &&& StatusEmptyMask B ≠ 0 then (true, r.2)
    else (false, (MmioRead32Read B r.2).2)
  | Budget + 1, Tries, S =>
    let r := MmioRead32Status B S
    if r.1 &&& StatusEmptyMask B ≠ 0 then (true, r.2)
    else
      let S := (MmioRead32Read B r.2).2
      let Tries := Tries + 1
      if Tries < B.C.RPI_MBOX_MAX_TRIES then DrainMailboxLoop B Budget Tries S else (false, S)

/-- DrainMailbox (lines 47-70). -/
def DrainMailbox (B : Board σ) (S : Rpi σ) : Bool × Rpi σ :=
  DrainMailboxLoop B B.C.RPI_MBOX_MAX_TRIES 0 S

/-- The do-while loop of MailboxWaitForStatusCleared (lines 84-91). -/
def WaitLoop (B : Board σ) (StatusMask : Nat) : Nat → Nat → Rpi σ → Bool × Rpi σ
  | 0, _, S =>
    let r := MmioRead32Status B S
    if r.1 &&& StatusMask = 0 then (true, r.2) else (false, r.2)
  | Budget + 1, Tries, S =>
    let r := MmioRead32Status B S
    if r.1 &&& StatusMask = 0 then (true, r.2)
    else
      let Tries := Tries + 1
      if Tries < B.C.RPI_MBOX_MAX_TRIES then WaitLoop B StatusMask Budget Tries r.2
      else (false, r.2)

/-- MailboxWaitForStatusCleared (lines 72-94). -/
def MailboxWaitForStatusCleared (B : Board σ) (S : Rpi σ) (StatusMask : Nat) : Bool × Rpi σ :=
  WaitLoop B StatusMask B.C.RPI_MBOX_MAX_TRIES 0 S

/-- MailboxTransaction (lines 96-165); the second component is the value stored in
`*Result`, if one is stored. -/
def MailboxTransaction (B : Board σ) (S : Rpi σ) (_Length Channel : Nat) :
    EFI_STATUS × Option Nat × Rpi σ :=
  if Channel ≥ B.C.BCM2836_MBOX_NUM_CHANNELS then (EFI_INVALID_PARAMETER, none, S)
  else
    let d := DrainMailbox B S
    if !d.1 then (EFI_TIMEOUT, none, d.2)
    else
      let w := MailboxWaitForStatusCleared B d.2 (StatusFullMask B)
      if !w.1 then (EFI_TIMEOUT, none, w.2)
      else
        let S := MmioWrite32Write B w.2 ((B.mDmaBufferBusAddress ||| Channel) % 2 ^ 32)
        let e := MailboxWaitForStatusCleared B S (StatusEmptyMask B)
        if !e.1 then (EFI_TIMEOUT, none, e.2)
        else
          let r := MmioRead32Read B e.2
          (EFI_SUCCESS, some r.1, r.2)

/-- The test `EFI_ERROR (Status) || Cmd->BufferHead.Response != RPI_MBOX_RESP_SUCCESS`
made after a transaction. -/
def TransactionFailed (B : Board σ) (Status : EFI_STATUS) (S : Rpi σ) : Bool :=
  EFI_ERROR Status || decide (ReadUint32 S.Dma CmdResponse ≠ B.C.RPI_MBOX_RESP_SUCCESS)

/-! ## The operations of the RpiFirmware protocol

Every operation returns its status, the values it stores through its output
parameters (none when it stores nothing), and the state. -/

/-- The body that the functions which only query or set one property have in common
(for instance lines 271-302 of RpiFirmwareGetArmMemory): take the lock or return device
error; zero `Length` bytes of the command and assign its fields; run the transaction;
on an error or a response other than success release the lock and return device error;
otherwise read the outputs, release the lock and return success. -/
def MailboxQuery (B : Board σ) (S : Rpi σ) (Length : Nat) (Fields : List (Nat × Nat))
    (Outputs : Memory → List Nat) : EFI_STATUS × List Nat × Rpi σ :=
  let a := AcquireSpinLockOrFail S
  if !a.1 then (EFI_DEVICE_ERROR, [], a.2)
  else
    let S := StoreFields (ZeroMem a.2 Length) Fields
    let r := MailboxTransaction B S (ReadUint32 S.Dma CmdBufferSize) B.C.RPI_MBOX_VC_CHANNEL
    if TransactionFailed B r.1 r.2.2 then (EFI_DEVICE_ERROR, [], ReleaseSpinLock r.2.2)
    else (EFI_SUCCESS, Outputs r.2.2.Dma, ReleaseSpinLock r.2.2)

/-- RpiFirmwareSetPowerState (lines 192-243); RPI_FW_SET_POWER_STATE_CMD has 32 bytes,
DeviceId at 20, PowerState at 24, EndTag at 28. -/
def RpiFirmwareSetPowerState (B : Board σ) (S : Rpi σ) (DeviceId : Nat)
    (PowerState Wait : Bool) : EFI_STATUS × List Nat × Rpi σ :=
  let a := AcquireSpinLockOrFail S
  if !a.1 then (EFI_DEVICE_ERROR, [], a.2)
  else
    let S := StoreFields (ZeroMem a.2 32)
      [(CmdBufferSize, 32), (CmdResponse, 0), (CmdTagId, B.C.RPI_MBOX_SET_POWER_STATE),
        (CmdTagSize, 8), (CmdTagValueSize, 0), (20, DeviceId),
        (24, (if PowerState then B.C.RPI_MBOX_POWER_STATE_ENABLE else 0) |||
          (if Wait then B.C.RPI_MBOX_POWER_STATE_WAIT else 0)),
        (28, 0)]
    let r := MailboxTransaction B S (ReadUint32 S.Dma CmdBufferSize) B.C.RPI_MBOX_VC_CHANNEL
    let Status := if TransactionFailed B r.1 r.2.2 then EFI_DEVICE_ERROR else r.1
    let Status :=
      if !EFI_ERROR Status ∧
          (if PowerState then 1 else 0) ^^^
            (ReadUint32 r.2.2.Dma 24 &&& B.C.RPI_MBOX_POWER_STATE_ENABLE) ≠ 0 then
        EFI_DEVICE_ERROR
      else Status
    (Status, [], ReleaseSpinLock r.2.2)

/-- RpiFirmwareGetArmMemory (lines 259-303); Base at 20, Size at 24, EndTag at 28. -/
def RpiFirmwareGetArmMemory (B : Board σ) (S : Rpi σ) : EFI_STATUS × List Nat × Rpi σ :=
  MailboxQuery B S 32
    [(CmdBufferSize, 32), (CmdResponse, 0), (CmdTagId, B.C.RPI_MBOX_GET_ARM_MEMSIZE),
      (CmdTagSize, 8), (CmdTagValueSize, 0), (28, 0)]
    fun Dma => [ReadUint32 Dma 20, ReadUint32 Dma 24]

/-- RpiFirmwareGetMacAddress (lines 319-360); the tag body is the six bytes from 20 and
a 32-bit padding at 28, EndTag at 32; the output is the six bytes. -/
def RpiFirmwareGetMacAddress (B : Board σ) (S : Rpi σ) : EFI_STATUS × List Nat × Rpi σ :=
  MailboxQuery B S 36
    [(CmdBufferSize, 36), (CmdResponse, 0), (CmdTagId, B.C.RPI_MBOX_GET_MAC_ADDRESS),
      (CmdTagSize, 12), (CmdTagValueSize, 0), (32, 0)]
    fun Dma => (List.range 6).map fun i => ReadUint8 Dma (20 + i)

/-- BaseLib `SwapBytes64`: the eight bytes of the operand in reverse order. -/
def SwapBytes64 (Operand : Nat) : Nat :=
  (Uint64Bytes Operand).foldl (fun acc b => acc * 256 + b) 0

/-- RpiFirmwareGetSerial (lines 375-423); the 64-bit Serial lies at 24, EndTag at 32,
the command has 40 bytes. When the serial is 0 or 0x10000000 the MAC address is written
over the first six bytes of `*Serial`. -/
def RpiFirmwareGetSerial (B : Board σ) (S : Rpi σ) : EFI_STATUS × List Nat × Rpi σ :=
  let a := AcquireSpinLockOrFail S
  if !a.1 then (EFI_DEVICE_ERROR, [], a.2)
  else
    let S := StoreFields (ZeroMem a.2 40)
      [(CmdBufferSize, 40), (CmdResponse, 0), (CmdTagId, B.C.RPI_MBOX_GET_BOARD_SERIAL),
        (CmdTagSize, 8), (CmdTagValueSize, 0), (32, 0)]
    let r := MailboxTransaction B S (ReadUint32 S.Dma CmdBufferSize) B.C.RPI_MBOX_VC_CHANNEL
    if TransactionFailed B r.1 r.2.2 then (EFI_DEVICE_ERROR, [], ReleaseSpinLock r.2.2)
    else
      let Serial := ReadUint64 r.2.2.Dma 24
      let S := ReleaseSpinLock r.2.2
      if Serial = 0 ∨ Serial &&& 0xFFFFFFFF0FFFFFFF = 0 then
        let m := RpiFirmwareGetMacAddress B S
        let Serial :=
          if m.2.1 = [] then Serial
          else ReadUint64 (PlaceAt (BufferMemory (Uint64Bytes Serial)) 0 m.2.1) 0
        (m.1, [SwapBytes64 (Serial * 2 ^ 16 % 2 ^ 64)], m.2.2)
      else (r.1, [Serial], S)

/-- RpiFirmwareGetModel (lines 438-479); Model at 20, EndTag at 24. -/
def RpiFirmwareGetModel (B : Board σ) (S : Rpi σ) : EFI_STATUS × List Nat × Rpi σ :=
  MailboxQuery B S 28
    [(CmdBufferSize, 28), (CmdResponse, 0), (CmdTagId, B.C.RPI_MBOX_GET_BOARD_MODEL),
      (CmdTagSize, 4), (CmdTagValueSize, 0), (24, 0)]
    fun Dma => [ReadUint32 Dma 20]

/-- RpiFirmwareGetModelRevision (lines 494-535). -/
def RpiFirmwareGetModelRevision (B : Board σ) (S : Rpi σ) : EFI_STATUS × List Nat × Rpi σ :=
  MailboxQuery B S 28
    [(CmdBufferSize, 28), (CmdResponse, 0), (CmdTagId, B.C.RPI_MBOX_GET_BOARD_REVISION),
      (CmdTagSize, 4), (CmdTagValueSize, 0), (24, 0)]
    fun Dma => [ReadUint32 Dma 20]

/-- RpiFirmwareGetFirmwareRevision (lines 537-578). -/
def RpiFirmwareGetFirmwareRevision (B : Board σ) (S : Rpi σ) :
    EFI_STATUS × List Nat × Rpi σ :=
  MailboxQuery B S 28
    [(CmdBufferSize, 28), (CmdResponse, 0), (CmdTagId, B.C.RPI_MBOX_GET_REVISION),
      (CmdTagSize, 4), (CmdTagValueSize, 0), (24, 0)]
    fun Dma => [ReadUint32 Dma 20]

/-- RpiFirmwareGetFbSize (lines 628-671); Width at 20, Height at 24, EndTag at 28. -/
def RpiFirmwareGetFbSize (B : Board σ) (S : Rpi σ) : EFI_STATUS × List Nat × Rpi σ :=
  MailboxQuery B S 32
    [(CmdBufferSize, 32), (CmdResponse, 0), (CmdTagId, B.C.RPI_MBOX_GET_FB_GEOMETRY),
      (CmdTagSize, 8), (CmdTagValueSize, 0), (28, 0)]
    fun Dma => [ReadUint32 Dma 20, ReadUint32 Dma 24]

/-- RpiFirmwareFreeFb (lines 673-712); RPI_FW_FREE_FB_CMD has 24 bytes, EndTag at 20. -/
def RpiFirmwareFreeFb (B : Board σ) (S : Rpi σ) : EFI_STATUS × List Nat × Rpi σ :=
  MailboxQuery B S 24
    [(CmdBufferSize, 24), (CmdResponse, 0), (CmdTagId, B.C.RPI_MBOX_FREE_FB), (CmdTagSize, 0),
      (CmdTagValueSize, 0), (20, 0)]
    fun _ => []

/-- RpiFirmwareAllocFb (lines 714-779); RPI_FW_INIT_FB_CMD has 104 bytes: the tag heads
at 8, 28, 48, 64 and 84, their bodies behind them, EndTag at 100. The outputs are, in
the order of the parameters, FbBase, FbSize and Pitch. -/
def RpiFirmwareAllocFb (B : Board σ) (S : Rpi σ) (Width Height Depth : Nat) :
    EFI_STATUS × List Nat × Rpi σ :=
  MailboxQuery B S 104
    [(CmdBufferSize, 104), (CmdResponse, 0),
      (8, B.C.RPI_MBOX_SET_FB_PGEOM), (12, 8), (20, Width), (24, Height),
      (28, B.C.RPI_MBOX_SET_FB_VGEOM), (32, 8), (40, Width), (44, Height),
      (48, B.C.RPI_MBOX_SET_FB_DEPTH), (52, 4), (60, Depth),
      (64, B.C.RPI_MBOX_ALLOC_FB), (68, 8), (76, 32),
      (84, B.C.RPI_MBOX_GET_FB_LINELENGTH), (88, 4), (100, 0)]
    fun Dma =>
      [ReadUint32 Dma 76 &&& ((2 ^ 64 - 1) ^^^ (B.C.PcdDmaDeviceOffset % 2 ^ 64)),
        ReadUint32 Dma 80, ReadUint32 Dma 96]

/-- RpiFirmwareGetCommmandLine (lines 789-858); RPI_FW_GET_COMMAND_LINE_CMD has 20
bytes, the command line follows at 20. The output is what the function stores in
`CommandLine[]`. -/
def RpiFirmwareGetCommmandLine (B : Board σ) (S : Rpi σ) (BufferSize : Nat) :
    EFI_STATUS × List Nat × Rpi σ :=
  if BufferSize % 4 ≠ 0 then (EFI_INVALID_PARAMETER, [], S)
  else if (20 + BufferSize) % 2 ^ 64 > EFI_PAGES_TO_SIZE NUM_PAGES then
    (EFI_OUT_OF_RESOURCES, [], S)
  else
    let a := AcquireSpinLockOrFail S
    if !a.1 then (EFI_DEVICE_ERROR, [], a.2)
    else
      let S := ZeroMem a.2 ((20 + BufferSize + 4) % 2 ^ 64)
      let S := StoreFields S
        [(CmdBufferSize, (20 + BufferSize + 4) % 2 ^ 64), (CmdResponse, 0),
          (CmdTagId, B.C.RPI_MBOX_GET_COMMAND_LINE), (CmdTagSize, BufferSize),
          (CmdTagValueSize, 0)]
      let r := MailboxTransaction B S (ReadUint32 S.Dma CmdBufferSize) B.C.RPI_MBOX_VC_CHANNEL
      if TransactionFailed B r.1 r.2.2 then (EFI_DEVICE_ERROR, [], ReleaseSpinLock r.2.2)
      else
        let S := Store32 r.2.2 CmdTagValueSize
          (ReadUint32 r.2.2.Dma CmdTagValueSize &&&
            ((2 ^ 32 - 1) ^^^ (B.C.RPI_MBOX_VALUE_SIZE_RESPONSE_MASK % 2 ^ 32)))
        let TagValueSize := ReadUint32 S.Dma CmdTagValueSize
        if TagValueSize ≥ BufferSize ∧
            ReadUint8 S.Dma (20 + (TagValueSize + (2 ^ 32 - 1)) % 2 ^ 32) ≠ 0 then
          (EFI_OUT_OF_RESOURCES, [], ReleaseSpinLock S)
        else
          let Copied := (List.range TagValueSize).map fun i => ReadUint8 S.Dma (20 + i)
          let CommandLine :=
            if TagValueSize = 0 ∨ Copied.getD (TagValueSize - 1) 0 ≠ 0 then Copied ++ [0]
            else Copied
          (EFI_SUCCESS, CommandLine, ReleaseSpinLock S)

/-- RpiFirmwareSetClockRate (lines 875-921); ClockId at 20, ClockRate at 24, SkipTurbo
at 28, EndTag at 32. -/
def RpiFirmwareSetClockRate (B : Board σ) (S : Rpi σ) (ClockId ClockRate : Nat)
    (SkipTurbo : Bool) : EFI_STATUS × List Nat × Rpi σ :=
  MailboxQuery B S 36
    [(CmdBufferSize, 36), (CmdResponse, 0), (CmdTagId, B.C.RPI_MBOX_SET_CLOCK_RATE),
      (CmdTagSize, 12), (CmdTagValueSize, 0), (20, ClockId), (24, ClockRate),
      (28, if SkipTurbo then 1 else 0), (32, 0)]
    fun _ => []

/-- RpiFirmwareGetClockRate (lines 937-982); ClockId at 20, ClockRate at 24. -/
def RpiFirmwareGetClockRate (B : Board σ) (S : Rpi σ) (ClockId ClockKind : Nat) :
    EFI_STATUS × List Nat × Rpi σ :=
  MailboxQuery B S 32
    [(CmdBufferSize, 32), (CmdResponse, 0), (CmdTagId, ClockKind), (CmdTagSize, 8),
      (CmdTagValueSize, 0), (20, ClockId), (28, 0)]
    fun Dma => [ReadUint32 Dma 24]

/-- RpiFirmwareGetCurrentClockState (lines 984-993). -/
def RpiFirmwareGetCurrentClockState (B : Board σ) (S : Rpi σ) (ClockId : Nat) :
    EFI_STATUS × List Nat × Rpi σ :=
  RpiFirmwareGetClockRate B S ClockId B.C.RPI_MBOX_GET_CLOCK_STATE

/-- RpiFirmwareGetCurrentClockRate (lines 995-1004). -/
def RpiFirmwareGetCurrentClockRate (B : Board σ) (S : Rpi σ) (ClockId : Nat) :
    EFI_STATUS × List Nat × Rpi σ :=
  RpiFirmwareGetClockRate B S ClockId B.C.RPI_MBOX_GET_CLOCK_RATE

/-- RpiFirmwareGetMaxClockRate (lines 1006-1015). -/
def RpiFirmwareGetMaxClockRate (B : Board σ) (S : Rpi σ) (ClockId : Nat) :
    EFI_STATUS × List Nat × Rpi σ :=
  RpiFirmwareGetClockRate B S ClockId B.C.RPI_MBOX_GET_MAX_CLOCK_RATE

/-- RpiFirmwareGetMinClockRate (lines 1017-1026). -/
def RpiFirmwareGetMinClockRate (B : Board σ) (S : Rpi σ) (ClockId : Nat) :
    EFI_STATUS × List Nat × Rpi σ :=
  RpiFirmwareGetClockRate B S ClockId B.C.RPI_MBOX_GET_MIN_CLOCK_RATE

/-- RpiFirmwareSetClockState (lines 1042-1084); ClockId at 20, ClockState at 24. -/
def RpiFirmwareSetClockState (B : Board σ) (S : Rpi σ) (ClockId ClockState : Nat) :
    EFI_STATUS × List Nat × Rpi σ :=
  MailboxQuery B S 32
    [(CmdBufferSize, 32), (CmdResponse, 0), (CmdTagId, B.C.RPI_MBOX_SET_CLOCK_STATE),
      (CmdTagSize, 8), (CmdTagValueSize, 0), (20, ClockId), (24, ClockState), (28, 0)]
    fun _ => []

/-- RpiFirmwareSetGpio (lines 1100-1141), which returns nothing; Pin at 20, State at
24. -/
def RpiFirmwareSetGpio (B : Board σ) (S : Rpi σ) (Gpio : Nat) (State : Bool) : Rpi σ :=
  let a := AcquireSpinLockOrFail S
  if !a.1 then a.2
  else
    let S := StoreFields (ZeroMem a.2 32)
      [(CmdBufferSize, 32), (CmdResponse, 0), (CmdTagId, B.C.RPI_MBOX_SET_GPIO),
        (CmdTagSize, 8), (20, 128 + Gpio), (24, if State then 1 else 0),
        (CmdTagValueSize, 0), (28, 0)]
    let r := MailboxTransaction B S (ReadUint32 S.Dma CmdBufferSize) B.C.RPI_MBOX_VC_CHANNEL
    ReleaseSpinLock r.2.2

/-- RpiFirmwareSetLed (lines 1143-1151). -/
def RpiFirmwareSetLed (B : Board σ) (S : Rpi σ) (On : Bool) : Rpi σ :=
  RpiFirmwareSetGpio B S B.C.RPI_EXP_GPIO_LED On

/-- RpiFirmwareNotifyXhciReset (lines 1166-1207); DeviceAddress at 20, EndTag at 24.
The status of the transaction is returned whatever the response. -/
def RpiFirmwareNotifyXhciReset (B : Board σ) (S : Rpi σ)
    (BusNumber DeviceNumber FunctionNumber : Nat) : EFI_STATUS × List Nat × Rpi σ :=
  let a := AcquireSpinLockOrFail S
  if !a.1 then (EFI_DEVICE_ERROR, [], a.2)
  else
    let S := StoreFields (ZeroMem a.2 28)
      [(CmdBufferSize, 28), (CmdResponse, 0), (CmdTagId, B.C.RPI_MBOX_NOTIFY_XHCI_RESET),
        (CmdTagSize, 4), (CmdTagValueSize, 0),
        (20, (BusNumber * 2 ^ 20 % 2 ^ 64 ||| DeviceNumber * 2 ^ 15 % 2 ^ 64 |||
          FunctionNumber * 2 ^ 12 % 2 ^ 64)),
        (24, 0)]
    let r := MailboxTransaction B S (ReadUint32 S.Dma CmdBufferSize) B.C.RPI_MBOX_VC_CHANNEL
    (r.1, [], ReleaseSpinLock r.2.2)

/-- RpiFirmwareNotifyGpioGetCfg (lines 1227-1270); Gpio at 20, Polarity at 28, EndTag
at 40. `*Polarity` is stored whatever the outcome of the transaction. -/
def RpiFirmwareNotifyGpioGetCfg (B : Board σ) (S : Rpi σ) (Gpio : Nat) :
    EFI_STATUS × List Nat × Rpi σ :=
  let a := AcquireSpinLockOrFail S
  if !a.1 then (EFI_DEVICE_ERROR, [], a.2)
  else
    let S := StoreFields (ZeroMem a.2 44)
      [(CmdBufferSize, 44), (CmdResponse, 0), (CmdTagId, B.C.RPI_MBOX_GET_GPIO_CONFIG),
        (CmdTagSize, 20), (20, 128 + Gpio), (CmdTagValueSize, 0), (40, 0)]
    let r := MailboxTransaction B S (ReadUint32 S.Dma CmdBufferSize) B.C.RPI_MBOX_VC_CHANNEL
    (r.1, [ReadUint32 r.2.2.Dma 28], ReleaseSpinLock r.2.2)

/-- RpiFirmwareNotifyGpioSetCfg (lines 1292-1350); Gpio at 20, Direction at 24, Polarity
at 28, TermEn at 32, TermPullUp at 36, State at 40, EndTag at 44. -/
def RpiFirmwareNotifyGpioSetCfg (B : Board σ) (S : Rpi σ) (Gpio Direction State : Nat) :
    EFI_STATUS × List Nat × Rpi σ :=
  let g := RpiFirmwareNotifyGpioGetCfg B S Gpio
  let Result := if EFI_ERROR g.1 then 0 else g.2.1.getD 0 0
  let a := AcquireSpinLockOrFail g.2.2
  if !a.1 then (EFI_DEVICE_ERROR, [], a.2)
  else
    let S := StoreFields (ZeroMem a.2 48)
      [(CmdBufferSize, 48), (CmdResponse, 0), (CmdTagId, B.C.RPI_MBOX_SET_GPIO_CONFIG),
        (CmdTagSize, 24), (20, 128 + Gpio), (24, Direction), (28, Result), (32, 0), (36, 0),
        (40, State), (CmdTagValueSize, 0), (44, 0)]
    let r := MailboxTransaction B S (ReadUint32 S.Dma CmdBufferSize) B.C.RPI_MBOX_VC_CHANNEL
    let S := ReleaseSpinLock r.2.2
    (r.1, [], RpiFirmwareSetGpio B S Gpio (decide (State % 2 ^ 64 = 0)))

/-- RpiFirmwareGetRtc (lines 1367-1411); Register at 20, Value at 24, EndTag at 28. -/
def RpiFirmwareGetRtc (B : Board σ) (S : Rpi σ) (Register : Nat) :
    EFI_STATUS × List Nat × Rpi σ :=
  let a := AcquireSpinLockOrFail S
  if !a.1 then (EFI_DEVICE_ERROR, [], a.2)
  else
    let S := StoreFields (ZeroMem a.2 32)
      [(CmdBufferSize, 32), (CmdResponse, 0), (CmdTagId, B.C.RPI_MBOX_GET_RTC_REG),
        (CmdTagSize, 8), (CmdTagValueSize, 0), (20, Register), (24, 0), (28, 0)]
    let r := MailboxTransaction B S (ReadUint32 S.Dma CmdBufferSize) B.C.RPI_MBOX_VC_CHANNEL
    if TransactionFailed B r.1 r.2.2 then (EFI_DEVICE_ERROR, [], ReleaseSpinLock r.2.2)
    else (r.1, [ReadUint32 r.2.2.Dma 24], ReleaseSpinLock r.2.2)

/-- RpiFirmwareSetRtc (lines 1413-1455). -/
def RpiFirmwareSetRtc (B : Board σ) (S : Rpi σ) (Register Value : Nat) :
    EFI_STATUS × List Nat × Rpi σ :=
  let a := AcquireSpinLockOrFail S
  if !a.1 then (EFI_DEVICE_ERROR, [], a.2)
  else
    let S := StoreFields (ZeroMem a.2 32)
      [(CmdBufferSize, 32), (CmdResponse, 0), (CmdTagId, B.C.RPI_MBOX_SET_RTC_REG),
        (CmdTagSize, 8), (CmdTagValueSize, 0), (20, Register), (24, Value), (28, 0)]
    let r := MailboxTransaction B S (ReadUint32 S.Dma CmdBufferSize) B.C.RPI_MBOX_VC_CHANNEL
    if TransactionFailed B r.1 r.2.2 then (EFI_DEVICE_ERROR, [], ReleaseSpinLock r.2.2)
    else (r.1, [], ReleaseSpinLock r.2.2)

/-! ## The protocol as one type, observations on traces, sample boards -/

/-- The members of mRpiFirmwareProtocol (lines 1457-1480) with their input arguments. -/
inductive RpiCall where
  | SetPowerState (DeviceId : Nat) (PowerState Wait : Bool)
  | GetMacAddress
  | GetCommmandLine (BufferSize : Nat)
  | GetCurrentClockRate (ClockId : Nat)
  | GetMaxClockRate (ClockId : Nat)
  | GetMinClockRate (ClockId : Nat)
  | SetClockRate (ClockId ClockRate : Nat) (SkipTurbo : Bool)
  | AllocFb (Width Height Depth : Nat)
  | FreeFb
  | GetFbSize
  | SetLed (On : Bool)
  | GetSerial
  | GetModel
  | GetModelRevision
  | GetFirmwareRevision
  | GetArmMemory
  | NotifyXhciReset (BusNumber DeviceNumber FunctionNumber : Nat)
  | GetCurrentClockState (ClockId : Nat)
  | SetClockState (ClockId ClockState : Nat)
  | NotifyGpioSetCfg (Gpio Direction State : Nat)
  | GetRtc (Register : Nat)
  | SetRtc (Register Value : Nat)

/-- Perform a member of the protocol; the status is `none` for SetLed, which returns
nothing. -/
def RpiCall.run (B : Board σ) (S : Rpi σ) : RpiCall → Option EFI_STATUS × List Nat × Rpi σ
  | .SetPowerState DeviceId PowerState Wait =>
    let r := RpiFirmwareSetPowerState B S DeviceId PowerState Wait
    (some r.1, r.2)
  | .GetMacAddress => let r := RpiFirmwareGetMacAddress B S; (some r.1, r.2)
  | .GetCommmandLine BufferSize =>
    let r := RpiFirmwareGetCommmandLine B S BufferSize
    (some r.1, r.2)
  | .GetCurrentClockRate ClockId =>
    let r := RpiFirmwareGetCurrentClockRate B S ClockId
    (some r.1, r.2)
  | .GetMaxClockRate ClockId => let r := RpiFirmwareGetMaxClockRate B S ClockId; (some r.1, r.2)
  | .GetMinClockRate ClockId => let r := RpiFirmwareGetMinClockRate B S ClockId; (some r.1, r.2)
  | .SetClockRate ClockId ClockRate SkipTurbo =>
    let r := RpiFirmwareSetClockRate B S ClockId ClockRate SkipTurbo
    (some r.1, r.2)
  | .AllocFb Width Height Depth =>
    let r := RpiFirmwareAllocFb B S Width Height Depth
    (some r.1, r.2)
  | .FreeFb => let r := RpiFirmwareFreeFb B S; (some r.1, r.2)
  | .GetFbSize => let r := RpiFirmwareGetFbSize B S; (some r.1, r.2)
  | .SetLed On => (none, [], RpiFirmwareSetLed B S On)
  | .GetSerial => let r := RpiFirmwareGetSerial B S; (some r.1, r.2)
  | .GetModel => let r := RpiFirmwareGetModel B S; (some r.1, r.2)
  | .GetModelRevision => let r := RpiFirmwareGetModelRevision B S; (some r.1, r.2)
  | .GetFirmwareRevision => let r := RpiFirmwareGetFirmwareRevision B S; (some r.1, r.2)
  | .GetArmMemory => let r := RpiFirmwareGetArmMemory B S; (some r.1, r.2)
  | .NotifyXhciReset BusNumber DeviceNumber FunctionNumber =>
    let r := RpiFirmwareNotifyXhciReset B S BusNumber DeviceNumber FunctionNumber
    (some r.1, r.2)
  | .GetCurrentClockState ClockId =>
    let r := RpiFirmwareGetCurrentClockState B S ClockId
    (some r.1, r.2)
  | .SetClockState ClockId ClockState =>
    let r := RpiFirmwareSetClockState B S ClockId ClockState
    (some r.1, r.2)
  | .NotifyGpioSetCfg Gpio Direction State =>
    let r := RpiFirmwareNotifyGpioSetCfg B S Gpio Direction State
    (some r.1, r.2)
  | .GetRtc Register => let r := RpiFirmwareGetRtc B S Register; (some r.1, r.2)
  | .SetRtc Register Value => let r := RpiFirmwareSetRtc B S Register Value; (some r.1, r.2)

/-- The member returns a status: every member but SetLed. -/
def RpiCall.ReturnsStatus : RpiCall → Bool
  | .SetLed _ => false
  | _ => true

/-- The arguments pass the validation the member itself makes before it takes the
lock: RpiFirmwareGetCommmandLine checks its BufferSize (lines 801-811), no other
member checks anything. -/
def RpiCall.ArgumentsPass : RpiCall → Bool
  | .GetCommmandLine BufferSize =>
    decide (BufferSize % 4 = 0) && decide ((20 + BufferSize) % 2 ^ 64 ≤ EFI_PAGES_TO_SIZE NUM_PAGES)
  | _ => true

def IsStatus : MboxEvent → Bool
  | .Status _ => true
  | _ => false

def IsMboxWrite : MboxEvent → Bool
  | .Write _ => true
  | _ => false

/-- Number of reads of the status register in a trace. -/
def StatusReads (t : List MboxEvent) : Nat := t.countP IsStatus

/-- Number of writes of the write register in a trace. -/
def MailboxWrites (t : List MboxEvent) : Nat := t.countP IsMboxWrite

/-- The values the reads of the status register in a trace returned, in order. -/
def StatusValues : List MboxEvent → List Nat
  | [] => []
  | .Status v :: t => v :: StatusValues t
  | _ :: t => StatusValues t

/-- The wait for the outbox in a transaction that has drained the mailbox (line 120). -/
def OutboxWait (B : Board σ) (S : Rpi σ) : Bool × Rpi σ :=
  MailboxWaitForStatusCleared B (DrainMailbox B S).2 (StatusFullMask B)

/-- The state after the write of line 139 that starts the transaction. -/
def Started (B : Board σ) (S : Rpi σ) (Channel : Nat) : Rpi σ :=
  MmioWrite32Write B (OutboxWait B S).2 ((B.mDmaBufferBusAddress ||| Channel) % 2 ^ 32)

/-- The wait for the inbox in a transaction that has been started (line 147). -/
def InboxWait (B : Board σ) (S : Rpi σ) (Channel : Nat) : Bool × Rpi σ :=
  MailboxWaitForStatusCleared B (Started B S Channel) (StatusEmptyMask B)

/-- Sample constants: three polls, sixteen channels, status bits 30 and 31. -/
def SampleMbox : RpiMbox :=
  { RPI_MBOX_MAX_TRIES := 3
    BCM2836_MBOX_NUM_CHANNELS := 16
    BCM2836_MBOX_STATUS_EMPTY := 30
    BCM2836_MBOX_STATUS_FULL := 31
    RPI_MBOX_VC_CHANNEL := 8
    RPI_MBOX_RESP_SUCCESS := 0x80000000
    RPI_MBOX_VALUE_SIZE_RESPONSE_MASK := 0x80000000
    RPI_MBOX_POWER_STATE_ENABLE := 1
    RPI_MBOX_POWER_STATE_WAIT := 2
    RPI_EXP_GPIO_LED := 2
    PcdDmaDeviceOffset := 0xC0000000
    RPI_MBOX_SET_POWER_STATE := 0x00028001
    RPI_MBOX_GET_ARM_MEMSIZE := 0x00010005
    RPI_MBOX_GET_MAC_ADDRESS := 0x00010003
    RPI_MBOX_GET_BOARD_SERIAL := 0x00010004
    RPI_MBOX_GET_BOARD_MODEL := 0x00010001
    RPI_MBOX_GET_BOARD_REVISION := 0x00010002
    RPI_MBOX_GET_REVISION := 0x00000001
    RPI_MBOX_GET_FB_GEOMETRY := 0x00040003
    RPI_MBOX_FREE_FB := 0x00048001
    RPI_MBOX_SET_FB_PGEOM := 0x00048003
    RPI_MBOX_SET_FB_VGEOM := 0x00048004
    RPI_MBOX_SET_FB_DEPTH := 0x00048005
    RPI_MBOX_ALLOC_FB := 0x00040001
    RPI_MBOX_GET_FB_LINELENGTH := 0x00040008
    RPI_MBOX_GET_COMMAND_LINE := 0x00050001
    RPI_MBOX_SET_CLOCK_RATE := 0x00038002
    RPI_MBOX_GET_CLOCK_STATE := 0x00030001
    RPI_MBOX_GET_CLOCK_RATE := 0x00030002
    RPI_MBOX_GET_MAX_CLOCK_RATE := 0x00030004
    RPI_MBOX_GET_MIN_CLOCK_RATE := 0x00030007
    RPI_MBOX_SET_CLOCK_STATE := 0x00038001
    RPI_MBOX_SET_GPIO := 0x00038041
    RPI_MBOX_NOTIFY_XHCI_RESET := 0x00030058
    RPI_MBOX_GET_GPIO_CONFIG := 0x00030043
    RPI_MBOX_SET_GPIO_CONFIG := 0x00038043
    RPI_MBOX_GET_RTC_REG := 0x00030087
    RPI_MBOX_SET_RTC_REG := 0x00038087 }

/-- A mailbox whose status register always reads 0: empty bit clear, full bit clear. It
never drains, and the firmware never touches the DMA buffer. -/
def SilentBoard : Board Unit :=
  ⟨fun _ => (0, ()), fun _ => (0, ()), fun _ _ Dma => ((), Dma), SampleMbox, 0x1000⟩

/-- A mailbox that answers: its state tells whether a request is pending. The status
reads as empty until a request is written and as not empty afterwards; at the write the
firmware stores the response code for success in the buffer. -/
def AnsweringBoard : Board Bool :=
  ⟨fun s => (if s then 0 else 0x40000000, s), fun _ => (0x1008, false),
    fun _ _ Dma => (true, PlaceAt Dma CmdResponse (Uint32Bytes 0x80000000)), SampleMbox, 0x1000⟩

/-- The state before any call: lock free, buffer filled with 0xFF. -/
def SilentStart : Rpi Unit := ⟨(), fun _ => 0xFF, false, []⟩

def AnsweringStart : Rpi Bool := ⟨false, fun _ => 0xFF, false, []⟩

/-- The state in which the lock is held. -/
def AnsweringLocked : Rpi Bool := ⟨false, fun _ => 0xFF, true, []⟩


/-! ## The mailbox as the polling loops see it

What the device returns to the polls of one wait, written from the device alone: the
loops are compared with these descriptions. -/

/-- The device after `n` reads of the status register. -/
def AfterPolls (B : Board σ) : Nat → σ → σ
  | 0, s => s
  | n + 1, s => AfterPolls B n (B.MmioReadStatus s).2

/-- The 32-bit value that read number `k` (from 0) of the status register returns when
the status register is read again and again. -/
def PollValue (B : Board σ) (k : Nat) (s : σ) : Nat :=
  (B.MmioReadStatus (AfterPolls B k s)).1 % 2 ^ 32

/-- The trace of `n` reads of the status register. -/
def PollTrace (B : Board σ) : Nat → σ → List MboxEvent
  | 0, _ => []
  | n + 1, s =>
    MboxEvent.Status ((B.MmioReadStatus s).1 % 2 ^ 32) :: PollTrace B n (B.MmioReadStatus s).2

/-- The device after `n` rounds of one read of the status register followed by one read
of the read register. -/
def AfterDrains (B : Board σ) : Nat → σ → σ
  | 0, s => s
  | n + 1, s => AfterDrains B n (B.MmioReadRead (B.MmioReadStatus s).2).2

/-- The 32-bit value that read number `k` (from 0) of the status register returns when
every read of the status register is followed by a read of the read register. -/
def DrainValue (B : Board σ) (k : Nat) (s : σ) : Nat :=
  (B.MmioReadStatus (AfterDrains B k s)).1 % 2 ^ 32

/-- The trace of `n` rounds of one read of the status register followed by one read
of the read register. -/
def DrainTrace (B : Board σ) : Nat → σ → List MboxEvent
  | 0, _ => []
  | n + 1, s =>
    MboxEvent.Status ((B.MmioReadStatus s).1 % 2 ^ 32) ::
      MboxEvent.Read ((B.MmioReadRead (B.MmioReadStatus s).2).1 % 2 ^ 32) ::
      DrainTrace B n (B.MmioReadRead (B.MmioReadStatus s).2).2
end RpiFirmwareDxe

namespace FlashFvbDxe

variable {σ : Type}

/-! ## Lemmas: checksum and header bytes -/

theorem Sum16Loop_eq_WordSum (Mem : Memory) (n : Nat) :
    ∀ a acc, acc < 65536 → Sum16Loop Mem a n acc = (acc + WordSum Mem a n) % 65536 := by
  induction n with
  | zero => intro a acc h; simp [Sum16Loop, WordSum]; omega
  | succ n ih =>
    intro a acc h
    rw [Sum16Loop, ih _ _ (Nat.mod_lt _ (by norm_num)), WordSum]
    omega

theorem CalculateSum16_eq (Mem : Memory) (a L : Nat) :
    CalculateSum16 Mem a L = WordSum Mem a (L / 2) % 65536 := by
  rw [CalculateSum16, Sum16Loop_eq_WordSum _ _ _ _ (by norm_num)]; simp

theorem WordSum_congr (M N : Memory) (n : Nat) :
    ∀ a b, (∀ i, i < 2 * n → M (a + i) = N (b + i)) → WordSum M a n = WordSum N b n := by
  induction n with
  | zero => intros; rfl
  | succ n ih =>
    intro a b h
    have h0 := h 0 (by omega)
    have h1 := h 1 (by omega)
    simp only [WordSum, ReadUint16, ReadUint8]
    rw [ih (a + 2) (b + 2) (fun i hi => by
      have := h (i + 2) (by omega)
      rwa [show a + (i + 2) = a + 2 + i by omega, show b + (i + 2) = b + 2 + i by omega] at this)]
    simp only [Nat.add_zero] at h0
    rw [h0, h1]

theorem WordSum_add (M : Memory) (n k : Nat) :
    ∀ a, WordSum M a (n + k) = WordSum M a n + WordSum M (a + 2 * n) k := by
  induction n with
  | zero => intro a; simp [WordSum]
  | succ n ih =>
    intro a
    rw [show n + 1 + k = (n + k) + 1 by omega, WordSum, ih, WordSum,
      show a + 2 + 2 * n = a + 2 * (n + 1) by omega]
    omega

theorem WordSum_cons (b0 b1 : Nat) (L : List Nat) (n : Nat) :
    WordSum (BufferMemory (b0 :: b1 :: L)) 0 (n + 1) =
      (b0 % 256 + 256 * (b1 % 256)) + WordSum (BufferMemory L) 0 n := by
  rw [WordSum]
  congr 1
  apply WordSum_congr
  intro i _
  simp [BufferMemory, show 0 + 2 + i = i + 1 + 1 by omega]

theorem PlaceAt_apply (Mem : Memory) (Base : Nat) (L : List Nat) (i : Nat) (h : i < L.length) :
    PlaceAt Mem Base L (Base + i) = BufferMemory L i := by
  simp [PlaceAt, BufferMemory, h]

theorem HeaderAttributes_eq : HeaderAttributes = 0xE36 := by decide

theorem ConfiguredFvLength_lt (Pcd : PCD) : ConfiguredFvLength Pcd < 4294967296 := by
  unfold ConfiguredFvLength; omega

theorem FvHeaderBytes_BuildFvHeader (Pcd : PCD) (Instance : FLASH_INSTANCE) (c : Nat) :
    FvHeaderBytes { BuildFvHeader Pcd Instance with Checksum := c } =
      (HeaderBytes (ConfiguredFvLength Pcd) ((Instance.Media.LastBlock + 1) % 2 ^ 32)
        Instance.Media.BlockSize c 0).take 72 := by
  have hv := ConfiguredFvLength_lt Pcd
  have e : (PcdGet32 Pcd.PcdFlashNvStorageVariableSize +
      PcdGet32 Pcd.PcdFlashNvStorageFtwWorkingSize +
      PcdGet32 Pcd.PcdFlashNvStorageFtwSpareSize) % 2 ^ 32 = ConfiguredFvLength Pcd := rfl
  simp only [BuildFvHeader, e, HeaderAttributes_eq, FvHeaderBytes,
    GuidBytes, Uint64Bytes, Uint32Bytes, Uint16Bytes, Uint8Bytes, ZeroFvHeader,
    gEfiSystemNvDataFvGuid, List.range, List.range.loop, List.map,
    List.replicate, List.getD_cons_zero, List.getD_cons_succ, List.cons_append, List.nil_append,
    List.append_assoc, SizeofFvHeader, SizeofBlockMapEntry, EFI_FVH_SIGNATURE, EFI_FVH_REVISION,
    HeaderBytes, List.take_succ_cons, List.take_zero]
  simp only [Nat.reduceMod, Nat.reduceDiv, Nat.reduceAdd, Nat.reducePow, Nat.zero_mod,
    Nat.mod_mod, Nat.mod_eq_of_lt hv, Nat.div_eq_of_lt hv, Nat.zero_div]

theorem WordSum_take (L : List Nat) (n k : Nat) (h : 2 * n ≤ k) :
    WordSum (BufferMemory (L.take k)) 0 n = WordSum (BufferMemory L) 0 n := by
  apply WordSum_congr
  intro i hi
  simp only [BufferMemory, Nat.zero_add, List.getD_eq_getElem?_getD]
  rw [List.getElem?_take_of_lt (by omega)]

theorem WordSum_HeaderBytes (v nb bs c sz : Nat) (hv : v < 4294967296) :
    WordSum (BufferMemory (HeaderBytes v nb bs c sz)) 0 36 = HeaderWordSum v nb bs + c % 65536 := by
  simp only [HeaderBytes, WordSum_cons]
  simp only [WordSum, HeaderWordSum]
  omega

theorem InstalledChecksum_eq (Pcd : PCD) (Instance : FLASH_INSTANCE) :
    InstalledChecksum Pcd Instance =
      (65536 - HeaderWordSum (ConfiguredFvLength Pcd) ((Instance.Media.LastBlock + 1) % 2 ^ 32)
        Instance.Media.BlockSize % 65536) % 65536 := by
  have h := FvHeaderBytes_BuildFvHeader Pcd Instance 0
  have h2 : ({ BuildFvHeader Pcd Instance with Checksum := 0 } : EFI_FIRMWARE_VOLUME_HEADER) =
      BuildFvHeader Pcd Instance := rfl
  rw [h2] at h
  have h3 : (BuildFvHeader Pcd Instance).HeaderLength = 72 := rfl
  rw [InstalledChecksum, h3, CalculateCheckSum16, CalculateSum16_eq, h,
    WordSum_take _ _ _ (by norm_num), WordSum_HeaderBytes _ _ _ _ _ (ConfiguredFvLength_lt Pcd)]
  omega

theorem BuildHeaders_eq (Pcd : PCD) (Instance : FLASH_INSTANCE) :
    BuildHeaders Pcd Instance =
      HeaderBytes (ConfiguredFvLength Pcd) ((Instance.Media.LastBlock + 1) % 2 ^ 32)
        Instance.Media.BlockSize (InstalledChecksum Pcd Instance)
        ((PcdGet32 Pcd.PcdFlashNvStorageVariableSize + 2 ^ 32 - 72) % 2 ^ 32) := by
  have h := FvHeaderBytes_BuildFvHeader Pcd Instance (InstalledChecksum Pcd Instance)
  have h3 : (BuildFvHeader Pcd Instance).HeaderLength = 72 := rfl
  simp only [BuildHeaders]
  rw [← InstalledChecksum, h, h3]
  simp only [HeaderBytes, VariableStoreHeaderBytes, ZeroVariableStoreHeader, GuidBytes,
    Uint32Bytes, Uint16Bytes, Uint8Bytes, gEfiVariableGuid, List.range, List.range.loop, List.map,
    List.getD_cons_zero, List.getD_cons_succ, List.cons_append, List.nil_append,
    List.append_assoc, List.take_succ_cons, List.take_zero,
    VARIABLE_STORE_FORMATTED, VARIABLE_STORE_HEALTHY]

theorem ReadUint8_PlaceAt (Mem : Memory) (Base : Nat) (L : List Nat) (i : Nat)
    (h : i < L.length) : ReadUint8 (PlaceAt Mem Base L) (Base + i) = L.getD i 0 % 256 := by
  simp [ReadUint8, PlaceAt, h]

theorem HeaderBytes_length (v nb bs c sz : Nat) : (HeaderBytes v nb bs c sz).length = 100 := rfl

section Installed

variable (Mem : Memory) (Base v nb bs c sz : Nat)

theorem installed_Revision :
    ReadUint8 (PlaceAt Mem Base (HeaderBytes v nb bs c sz)) (Base + FvRevision) = EFI_FVH_REVISION := by
  rw [ReadUint8_PlaceAt _ _ _ _ (by rw [HeaderBytes_length]; norm_num)]
  simp [HeaderBytes]

theorem installed_Signature :
    ReadUint32 (PlaceAt Mem Base (HeaderBytes v nb bs c sz)) (Base + FvSignature) =
      EFI_FVH_SIGNATURE := by
  simp only [ReadUint32, ReadUint16, Nat.add_assoc, Nat.reduceAdd, FvSignature, EFI_FVH_SIGNATURE]
  repeat rw [ReadUint8_PlaceAt _ _ _ _ (by rw [HeaderBytes_length]; norm_num)]
  simp only [HeaderBytes, List.getD_cons_succ, List.getD_cons_zero]

theorem installed_FvLength (hv : v < 4294967296) :
    ReadUint64 (PlaceAt Mem Base (HeaderBytes v nb bs c sz)) (Base + FvFvLength) = v := by
  simp only [ReadUint64, ReadUint32, ReadUint16, Nat.add_assoc, Nat.reduceAdd, FvFvLength]
  repeat rw [ReadUint8_PlaceAt _ _ _ _ (by rw [HeaderBytes_length]; norm_num)]
  simp [HeaderBytes]
  omega

theorem installed_HeaderLength :
    ReadUint16 (PlaceAt Mem Base (HeaderBytes v nb bs c sz)) (Base + FvHeaderLength) = 72 := by
  simp only [ReadUint16, Nat.add_assoc, Nat.reduceAdd, FvHeaderLength]
  repeat rw [ReadUint8_PlaceAt _ _ _ _ (by rw [HeaderBytes_length]; norm_num)]
  simp [HeaderBytes]

theorem installed_Size (hsz : sz < 2 ^ 32) :
    ReadUint32 (PlaceAt Mem Base (HeaderBytes v nb bs c sz)) (Base + 72 + VsSize) = sz := by
  simp only [ReadUint32, ReadUint16, Nat.add_assoc, Nat.reduceAdd, VsSize]
  repeat rw [ReadUint8_PlaceAt _ _ _ _ (by rw [HeaderBytes_length]; norm_num)]
  simp [HeaderBytes]
  omega

theorem installed_FileSystemGuid :
    CompareGuid (PlaceAt Mem Base (HeaderBytes v nb bs c sz)) (Base + FvFileSystemGuid)
      gEfiSystemNvDataFvGuid = true := by
  simp only [CompareGuid, List.range, List.range.loop, List.map, Nat.add_assoc, Nat.reduceAdd,
    FvFileSystemGuid, Nat.add_zero]
  repeat rw [ReadUint8_PlaceAt _ _ _ _ (by rw [HeaderBytes_length]; norm_num)]
  simp only [HeaderBytes, List.getD_cons_succ, List.getD_cons_zero]
  rfl

theorem installed_VariableGuid :
    CompareGuid (PlaceAt Mem Base (HeaderBytes v nb bs c sz)) (Base + 72 + VsSignature)
      gEfiVariableGuid = true := by
  simp only [CompareGuid, List.range, List.range.loop, List.map, Nat.add_assoc, Nat.reduceAdd,
    VsSignature, Nat.add_zero]
  repeat rw [ReadUint8_PlaceAt _ _ _ _ (by rw [HeaderBytes_length]; norm_num)]
  simp only [HeaderBytes, List.getD_cons_succ, List.getD_cons_zero]
  rfl

theorem installed_WordSum (n : Nat) (hn : n ≤ 50) :
    WordSum (PlaceAt Mem Base (HeaderBytes v nb bs c sz)) Base n =
      WordSum (BufferMemory (HeaderBytes v nb bs c sz)) 0 n := by
  apply WordSum_congr
  intro i hi
  rw [PlaceAt_apply _ _ _ _ (by rw [HeaderBytes_length]; omega), Nat.zero_add]

theorem installed_Sum16 (hv : v < 4294967296)
    (hc : c = (65536 - HeaderWordSum v nb bs % 65536) % 65536) :
    CalculateSum16 (PlaceAt Mem Base (HeaderBytes v nb bs c sz)) Base 72 = 0 := by
  rw [CalculateSum16_eq, installed_WordSum _ _ _ _ _ _ _ _ (by norm_num),
    WordSum_HeaderBytes _ _ _ _ _ hv]
  omega

end Installed

/-! ## Lemmas: the driver -/

theorem ValidateFvHeader_congr (Pcd : PCD) (I J : FLASH_INSTANCE) (Mem : Memory)
    (h : I.RegionBaseAddress = J.RegionBaseAddress) :
    ValidateFvHeader Pcd I Mem = ValidateFvHeader Pcd J Mem := by
  unfold ValidateFvHeader
  rw [h]

theorem ValidateFvHeader_cases (Pcd : PCD) (I : FLASH_INSTANCE) (Mem : Memory) :
    ValidateFvHeader Pcd I Mem = EFI_SUCCESS ∨ ValidateFvHeader Pcd I Mem = EFI_NOT_FOUND := by
  unfold ValidateFvHeader
  simp only []
  split_ifs <;> simp

theorem EFI_ERROR_SUCCESS : EFI_ERROR EFI_SUCCESS = false := by decide

theorem EFI_ERROR_NOT_FOUND : EFI_ERROR EFI_NOT_FOUND = true := by decide

theorem SameConfig.refl (D : Driver σ) : SameConfig D D := ⟨rfl, rfl⟩

theorem SameConfig.trans {D D' D'' : Driver σ} (h : SameConfig D D') (h' : SameConfig D' D'') :
    SameConfig D D'' := ⟨h'.1.trans h.1, h'.2.trans h.2⟩

theorem DeviceErase_config (P : Platform σ) (D : Driver σ) (o l : Nat) :
    SameConfig D (DeviceErase P D o l).2 := ⟨rfl, rfl⟩

theorem FlashEraseSingleBlock_config (P : Platform σ) (D : Driver σ) (a : Nat) :
    SameConfig D (FlashEraseSingleBlock P D a).2 := by
  unfold FlashEraseSingleBlock
  simp only []
  split_ifs <;> exact DeviceErase_config _ _ _ _

theorem UnlockAndEraseLoop_config (P : Platform σ) (a : Nat) :
    ∀ (n i : Nat) (D : Driver σ), SameConfig D (UnlockAndEraseLoop P a n i D).2 := by
  intro n
  induction n with
  | zero =>
    intro i D
    simp only [UnlockAndEraseLoop, FlashUnlockSingleBlockIfNecessary, EFI_ERROR_SUCCESS,
      Bool.not_false, if_true]
    exact FlashEraseSingleBlock_config _ _ _
  | succ n ih =>
    intro i D
    simp only [UnlockAndEraseLoop, FlashUnlockSingleBlockIfNecessary, EFI_ERROR_SUCCESS,
      Bool.not_false, if_true]
    split_ifs
    · exact (FlashEraseSingleBlock_config P D a).trans (ih _ _)
    · exact FlashEraseSingleBlock_config _ _ _

theorem FlashUnlockAndEraseSingleBlock_config (P : Platform σ) (D : Driver σ) (a : Nat) :
    SameConfig D (FlashUnlockAndEraseSingleBlock P D a).2 :=
  UnlockAndEraseLoop_config P a _ _ D

theorem EraseRange_config (P : Platform σ) :
    ∀ (n s st : Nat) (D : Driver σ), SameConfig D (EraseRange P n s st D).2.2 := by
  intro n
  induction n with
  | zero => intro s st D; exact SameConfig.refl D
  | succ n ih =>
    intro s st D
    simp only [EraseRange]
    split_ifs
    · exact FlashUnlockAndEraseSingleBlock_config _ _ _
    · exact (FlashUnlockAndEraseSingleBlock_config P D _).trans (ih _ _ _)

theorem EraseArgs_config (P : Platform σ) :
    ∀ (Args : List (Nat × Nat)) (st : Nat) (D : Driver σ), SameConfig D (EraseArgs P Args st D).2 := by
  intro Args
  induction Args with
  | nil => intro st D; exact SameConfig.refl D
  | cons x Args ih =>
    intro st D
    obtain ⟨s, n⟩ := x
    simp only [EraseArgs]
    split_ifs
    · exact SameConfig.refl D
    · exact EraseRange_config _ _ _ _ _
    · exact (EraseRange_config P _ _ _ D).trans (ih _ _)

theorem FvbEraseBlocks_config (P : Platform σ) (D : Driver σ) (Args : List (Nat × Nat)) :
    SameConfig D (FvbEraseBlocks P D Args).2 := by
  unfold FvbEraseBlocks
  split_ifs
  · exact SameConfig.refl D
  · exact SameConfig.refl D
  · exact EraseArgs_config _ _ _ _

theorem FvbWriteBody_config (P : Platform σ) (D : Driver σ) (Lba Offset NumBytes : Nat)
    (Buffer : List Nat) : SameConfig D (FvbWriteBody P D Lba Offset NumBytes Buffer).2 := by
  unfold FvbWriteBody
  simp only []
  split_ifs <;> exact ⟨rfl, rfl⟩

theorem FvbReadBody_config (P : Platform σ) (D : Driver σ) (Lba Offset NumBytes : Nat)
    (Buffer : List Nat) : SameConfig D (FvbReadBody P D Lba Offset NumBytes Buffer).2.2 := by
  unfold FvbReadBody
  simp only []
  split_ifs <;> exact ⟨rfl, rfl⟩

/-! ### Fuel: enough fuel gives the result -/

theorem Run.bind_ok {α β : Type} (a : α) (f : α → Run β) : (Run.ok a).bind f = f a := rfl

theorem Run.bind_fault {α β : Type} (e : Fault) (f : α → Run β) :
    (Run.fault e : Run α).bind f = .fault e := rfl

theorem FvbWrite_of_guard_off (P : Platform σ) (fuel : Nat) (D : Driver σ)
    (Lba Offset NumBytes : Nat) (Buffer : List Nat) (h : GuardFires D.Instance = false) :
    FvbWrite P (fuel + 1) D Lba Offset NumBytes Buffer =
      .ok (FvbWriteBody P D Lba Offset NumBytes Buffer) := by
  unfold GuardFires at h
  rw [FvbWrite, h]
  rfl

theorem FvbRead_of_guard_off (P : Platform σ) (fuel : Nat) (D : Driver σ)
    (Lba Offset NumBytes : Nat) (Buffer : List Nat) (h : GuardFires D.Instance = false) :
    FvbRead P fuel D Lba Offset NumBytes Buffer =
      .ok (FvbReadBody P D Lba Offset NumBytes Buffer) := by
  unfold GuardFires at h
  rw [FvbRead, h]
  rfl

theorem InitializeFv_of_guard_off (P : Platform σ) (fuel : Nat) (D : Driver σ)
    (h : GuardFires D.Instance = false) :
    InitializeFvAndVariableStoreHeaders P (fuel + 2) D =
      .ok (FvbWriteBody P (D.log Event.Install) 0 0 100 (BuildHeaders P.Pcd D.Instance)) := by
  have h' : GuardFires (D.log Event.Install).Instance = false := h
  rw [InitializeFvAndVariableStoreHeaders]
  rw [show (!(D.log Event.Install).Instance.Initialized && (D.log Event.Install).Instance.Initialize)
    = false from h, if_neg (by simp)]
  exact FvbWrite_of_guard_off P fuel _ _ _ _ _ h'

theorem GuardFires_of_initialized (I : FLASH_INSTANCE) (h : I.Initialized = true) :
    GuardFires I = false := by
  simp [GuardFires, h]

theorem FvbInitialize_flat (P : Platform σ) (fuel : Nat) (D : Driver σ)
    (hB : D.Instance.Media.BlockSize ≠ 0) :
    FvbInitialize P (fuel + 3) D = .ok (FvbInitializeFlat P D) := by
  rw [FvbInitialize, if_neg hB]
  unfold FvbInitializeFlat
  simp only []
  split_ifs with hv he
  · rfl
  · have hc := (FvbEraseBlocks_config P (InitPrologue P D)
      [(0, (PcdGet32 P.Pcd.PcdFlashNvStorageVariableSize +
        PcdGet32 P.Pcd.PcdFlashNvStorageFtwWorkingSize +
        PcdGet32 P.Pcd.PcdFlashNvStorageFtwSpareSize) % 2 ^ 32 /
          (InitPrologue P D).Instance.Media.BlockSize)]).1
    rw [InitializeFv_of_guard_off _ _ _ (GuardFires_of_initialized _ (by rw [hc]; rfl))]
  · rfl

/-! ### Traces of the bodies -/

theorem FvbWriteBody_markers (P : Platform σ) (D : Driver σ) (Lba Offset NumBytes : Nat)
    (Buffer : List Nat) :
    Validations (FvbWriteBody P D Lba Offset NumBytes Buffer).2.Trace = Validations D.Trace ∧
    DeviceErases (FvbWriteBody P D Lba Offset NumBytes Buffer).2.Trace = DeviceErases D.Trace ∧
    Installs (FvbWriteBody P D Lba Offset NumBytes Buffer).2.Trace = Installs D.Trace ∧
    HookCalls (FvbWriteBody P D Lba Offset NumBytes Buffer).2.Trace = HookCalls D.Trace := by
  unfold FvbWriteBody
  simp only []
  split_ifs <;>
    simp [DeviceWrite, Validations, DeviceErases, Installs, HookCalls, IsErase, List.count_append,
      List.countP_append]

theorem FvbReadBody_markers (P : Platform σ) (D : Driver σ) (Lba Offset NumBytes : Nat)
    (Buffer : List Nat) :
    Validations (FvbReadBody P D Lba Offset NumBytes Buffer).2.2.Trace = Validations D.Trace ∧
    DeviceErases (FvbReadBody P D Lba Offset NumBytes Buffer).2.2.Trace = DeviceErases D.Trace ∧
    Installs (FvbReadBody P D Lba Offset NumBytes Buffer).2.2.Trace = Installs D.Trace ∧
    HookCalls (FvbReadBody P D Lba Offset NumBytes Buffer).2.2.Trace = HookCalls D.Trace ∧
    DeviceWrites (FvbReadBody P D Lba Offset NumBytes Buffer).2.2.Trace = DeviceWrites D.Trace := by
  unfold FvbReadBody
  simp only []
  split_ifs <;>
    simp [DeviceRead, Validations, DeviceErases, DeviceWrites, Installs, HookCalls, IsErase, IsWrite,
      List.count_append, List.countP_append]

/-- The checks of FvbWriteBody and FvbReadBody do not wrap for a 32-bit block size. -/
theorem bounds_check_exact (B Offset NumBytes : Nat) (hB : B < 2 ^ 32) (hO : Offset < 2 ^ 64)
    (hN : NumBytes < 2 ^ 64) :
    (¬ (Offset ≥ B ∨ NumBytes > B ∨ (Offset + NumBytes) % 2 ^ 64 > B) ∧ ¬ NumBytes = 0) ↔
      (0 < NumBytes ∧ Offset + NumBytes ≤ B) := by
  constructor
  · rintro ⟨h1, h2⟩
    push_neg at h1
    obtain ⟨a, b, c⟩ := h1
    have : Offset + NumBytes < 2 ^ 64 := by omega
    rw [Nat.mod_eq_of_lt this] at c
    omega
  · rintro ⟨h1, h2⟩
    have : Offset + NumBytes < 2 ^ 64 := by omega
    rw [Nat.mod_eq_of_lt this]
    omega

theorem FvbWriteBody_eq (P : Platform σ) (D : Driver σ) (Lba Offset NumBytes : Nat)
    (Buffer : List Nat) (hrw : D.Instance.Media.ReadOnly = false)
    (hB : D.Instance.Media.BlockSize < 2 ^ 32) (hO : Offset < 2 ^ 64) (hN : NumBytes < 2 ^ 64) :
    FvbWriteBody P D Lba Offset NumBytes Buffer =
      if 0 < NumBytes ∧ Offset + NumBytes ≤ D.Instance.Media.BlockSize then
        DeviceWrite P D (TransferAddress D.Instance Lba Offset) Buffer NumBytes
      else (EFI_BAD_BUFFER_SIZE, D) := by
  have key := bounds_check_exact D.Instance.Media.BlockSize Offset NumBytes hB hO hN
  unfold FvbWriteBody
  simp only [hrw, Bool.false_eq_true, if_false]
  by_cases hc : 0 < NumBytes ∧ Offset + NumBytes ≤ D.Instance.Media.BlockSize
  · obtain ⟨h1, h2⟩ := key.mpr hc
    rw [if_neg h1, if_neg h2, if_pos hc]
    simp only [TransferAddress]
    split_ifs <;> rfl
  · rw [if_neg hc]
    by_cases h1 : Offset ≥ D.Instance.Media.BlockSize ∨ NumBytes > D.Instance.Media.BlockSize ∨
        (Offset + NumBytes) % 2 ^ 64 > D.Instance.Media.BlockSize
    · rw [if_pos h1]
    · rw [if_neg h1]
      by_cases h2 : NumBytes = 0
      · rw [if_pos h2]
      · exact absurd (key.mp ⟨h1, h2⟩) hc

theorem FvbReadBody_eq (P : Platform σ) (D : Driver σ) (Lba Offset NumBytes : Nat)
    (Buffer : List Nat)
    (hB : D.Instance.Media.BlockSize < 2 ^ 32) (hO : Offset < 2 ^ 64) (hN : NumBytes < 2 ^ 64) :
    FvbReadBody P D Lba Offset NumBytes Buffer =
      if 0 < NumBytes ∧ Offset + NumBytes ≤ D.Instance.Media.BlockSize then
        (if (DeviceRead P D (TransferAddress D.Instance Lba Offset) NumBytes).1 = EFI_SUCCESS
          then EFI_SUCCESS else EFI_DEVICE_ERROR,
         (DeviceRead P D (TransferAddress D.Instance Lba Offset) NumBytes).2)
      else (EFI_BAD_BUFFER_SIZE, Buffer, D) := by
  have key := bounds_check_exact D.Instance.Media.BlockSize Offset NumBytes hB hO hN
  unfold FvbReadBody
  simp only []
  by_cases hc : 0 < NumBytes ∧ Offset + NumBytes ≤ D.Instance.Media.BlockSize
  · obtain ⟨h1, h2⟩ := key.mpr hc
    rw [if_neg h1, if_neg h2, if_pos hc]
    simp only [TransferAddress]
    split_ifs with h3 h4 h4
    · exact absurd h4.symm h3
    · rfl
    · rw [h4]
    · exact absurd (not_not.mp h3).symm h4
  · rw [if_neg hc]
    by_cases h1 : Offset ≥ D.Instance.Media.BlockSize ∨ NumBytes > D.Instance.Media.BlockSize ∨
        (Offset + NumBytes) % 2 ^ 64 > D.Instance.Media.BlockSize
    · rw [if_pos h1]
    · rw [if_neg h1]
      by_cases h2 : NumBytes = 0
      · rw [if_pos h2]
      · exact absurd (key.mp ⟨h1, h2⟩) hc

/-- Without wrap-around the device offset is the exact one. -/
theorem TransferAddress_exact (I : FLASH_INSTANCE) (Lba Offset : Nat)
    (hge : I.DeviceBaseAddress ≤ I.RegionBaseAddress + Lba * I.Media.BlockSize + Offset)
    (h32 : I.RegionBaseAddress + Lba * I.Media.BlockSize + Offset - I.DeviceBaseAddress < 2 ^ 32) :
    TransferAddress I Lba Offset =
      I.RegionBaseAddress + Lba * I.Media.BlockSize + Offset - I.DeviceBaseAddress := by
  unfold TransferAddress GET_BLOCK_ADDRESS
  generalize Lba * I.Media.BlockSize = m at *
  omega

theorem InitPrologue_trace (P : Platform σ) (D : Driver σ) :
    (InitPrologue P D).Trace = D.Trace ++ [Event.Validate] := rfl

theorem FvbInitializeFlat_valid (P : Platform σ) (D : Driver σ)
    (hv : ValidateFvHeader P.Pcd D.Instance (P.mFlash.Mapped D.Flash) = EFI_SUCCESS) :
    FvbInitializeFlat P D = (EFI_SUCCESS, InitPrologue P D) := by
  have h : ValidateFvHeader P.Pcd (InitPrologue P D).Instance (P.mFlash.Mapped (InitPrologue P D).Flash)
      = EFI_SUCCESS := by
    rw [← hv]; exact ValidateFvHeader_congr _ _ _ _ rfl
  unfold FvbInitializeFlat
  simp only [h, EFI_ERROR_SUCCESS, Bool.false_eq_true, if_false]

theorem FvbInitializeFlat_readOnly (P : Platform σ) (D : Driver σ)
    (hro : D.Instance.Media.ReadOnly = true) :
    (FvbInitializeFlat P D).2 = InitPrologue P D := by
  have h : (InitPrologue P D).Instance.Media.ReadOnly = true := hro
  unfold FvbInitializeFlat
  simp only []
  split_ifs with h1 h2
  · simp only [FvbEraseBlocks, h, if_true]
  · exfalso
    apply h2
    simp only [FvbEraseBlocks, h, if_true]
    decide
  · rfl

theorem FvbInitializeFlat_initialized (P : Platform σ) (D : Driver σ) :
    (FvbInitializeFlat P D).2.Instance = (InitPrologue P D).Instance := by
  unfold FvbInitializeFlat
  simp only []
  split_ifs
  · exact (FvbEraseBlocks_config _ _ _).1
  · exact ((FvbWriteBody_config _ _ _ _ _ _).1).trans (FvbEraseBlocks_config _ _ _).1
  · rfl

theorem FvbWriteBody_readOnly (P : Platform σ) (D : Driver σ) (Lba Offset NumBytes : Nat)
    (Buffer : List Nat) (hro : D.Instance.Media.ReadOnly = true) :
    FvbWriteBody P D Lba Offset NumBytes Buffer = (EFI_ACCESS_DENIED, D) := by
  simp only [FvbWriteBody, hro, if_true]

theorem FvbReadBody_success (P : Platform σ) (D : Driver σ) (Lba Offset NumBytes : Nat)
    (Buffer : List Nat) (hB : D.Instance.Media.BlockSize < 2 ^ 32) (hO : Offset < 2 ^ 64)
    (hN : 0 < NumBytes) (hfit : Offset + NumBytes ≤ D.Instance.Media.BlockSize)
    (hdev : (P.mFlash.Read D.Flash (TransferAddress D.Instance Lba Offset) NumBytes).1 =
      EFI_SUCCESS) :
    FvbReadBody P D Lba Offset NumBytes Buffer =
      (EFI_SUCCESS, (DeviceRead P D (TransferAddress D.Instance Lba Offset) NumBytes).2) := by
  rw [FvbReadBody_eq _ _ _ _ _ _ hB hO (by omega), if_pos ⟨hN, hfit⟩,
    show (DeviceRead P D (TransferAddress D.Instance Lba Offset) NumBytes).1 = EFI_SUCCESS
      from hdev, if_pos rfl]

theorem DeviceRead_counts (P : Platform σ) (D : Driver σ) (a n : Nat) :
    DeviceWrites (DeviceRead P D a n).2.2.Trace = DeviceWrites D.Trace ∧
    DeviceErases (DeviceRead P D a n).2.2.Trace = DeviceErases D.Trace := by
  simp [DeviceRead, DeviceWrites, DeviceErases, List.countP_append, IsWrite, IsErase]

theorem Access_run_guard_off (P : Platform σ) (fuel : Nat) (D : Driver σ) (a : Access)
    (hg : GuardFires D.Instance = false) :
    ∃ s D', a.run P (fuel + 1) D = .ok (s, D') ∧ SameConfig D D' ∧
      Validations D'.Trace = Validations D.Trace ∧ DeviceErases D'.Trace = DeviceErases D.Trace ∧
      Installs D'.Trace = Installs D.Trace ∧ HookCalls D'.Trace = HookCalls D.Trace := by
  cases a with
  | Read Lba Offset NumBytes Buffer =>
    have h := FvbReadBody_markers P D Lba Offset NumBytes Buffer
    refine ⟨(FvbReadBody P D Lba Offset NumBytes Buffer).1,
      (FvbReadBody P D Lba Offset NumBytes Buffer).2.2, ?_, FvbReadBody_config _ _ _ _ _ _,
      h.1, h.2.1, h.2.2.1, h.2.2.2.1⟩
    rw [Access.run, FvbRead_of_guard_off _ _ _ _ _ _ _ hg]
    rfl
  | Write Lba Offset NumBytes Buffer =>
    have h := FvbWriteBody_markers P D Lba Offset NumBytes Buffer
    refine ⟨(FvbWriteBody P D Lba Offset NumBytes Buffer).1,
      (FvbWriteBody P D Lba Offset NumBytes Buffer).2, ?_, FvbWriteBody_config _ _ _ _ _ _,
      h.1, h.2.1, h.2.2.1, h.2.2.2⟩
    rw [Access.run, FvbWrite_of_guard_off _ _ _ _ _ _ _ hg]

/-- An access on which the guard fires, in boot-time context, first runs FvbInitialize
and then the body of the access on the state FvbInitialize leaves. -/
theorem Access_run_guard_on (P : Platform σ) (fuel : Nat) (D : Driver σ) (a : Access)
    (hg : GuardFires D.Instance = true) (hboot : P.EfiAtRuntime = false)
    (hB0 : D.Instance.Media.BlockSize ≠ 0) :
    ∃ s D', a.run P (fuel + 4) D = .ok (s, D') ∧
      SameConfig (FvbInitializeFlat P (D.log Event.Hook)).2 D' ∧
      Validations D'.Trace = Validations (FvbInitializeFlat P (D.log Event.Hook)).2.Trace ∧
      DeviceErases D'.Trace = DeviceErases (FvbInitializeFlat P (D.log Event.Hook)).2.Trace ∧
      Installs D'.Trace = Installs (FvbInitializeFlat P (D.log Event.Hook)).2.Trace ∧
      HookCalls D'.Trace = HookCalls (FvbInitializeFlat P (D.log Event.Hook)).2.Trace := by
  have hlog : (D.log Event.Hook).Instance.Media.BlockSize ≠ 0 := hB0
  have hg' : (!D.Instance.Initialized && D.Instance.Initialize) = true := hg
  cases a with
  | Read Lba Offset NumBytes Buffer =>
    have h := FvbReadBody_markers P (FvbInitializeFlat P (D.log Event.Hook)).2 Lba Offset
      NumBytes Buffer
    refine ⟨(FvbReadBody P (FvbInitializeFlat P (D.log Event.Hook)).2 Lba Offset
        NumBytes Buffer).1, _, ?_,
      FvbReadBody_config P (FvbInitializeFlat P (D.log Event.Hook)).2 Lba Offset
      NumBytes Buffer, h.1, h.2.1, h.2.2.1, h.2.2.2.1⟩
    rw [Access.run, FvbRead, hg', if_pos rfl, hboot, if_neg (by simp),
      FvbInitialize_flat _ (fuel + 1) _ hlog, Run.bind_ok, Run.bind_ok]
  | Write Lba Offset NumBytes Buffer =>
    have h := FvbWriteBody_markers P (FvbInitializeFlat P (D.log Event.Hook)).2 Lba Offset
      NumBytes Buffer
    refine ⟨(FvbWriteBody P (FvbInitializeFlat P (D.log Event.Hook)).2 Lba Offset
        NumBytes Buffer).1, _, ?_,
      FvbWriteBody_config P (FvbInitializeFlat P (D.log Event.Hook)).2 Lba Offset
      NumBytes Buffer, h.1, h.2.1, h.2.2.1, h.2.2.2⟩
    rw [Access.run, FvbWrite, hg', if_pos rfl, hboot, if_neg (by simp),
      FvbInitialize_flat _ _ _ hlog, Run.bind_ok]

/-! ### The validation pass of FvbEraseBlocks when the sum of line 780 does not wrap -/

theorem EraseArgsValid_false (I : FLASH_INSTANCE) :
    ∀ Args : List (Nat × Nat), (∀ r ∈ Args, r.1 ≠ EFI_LBA_LIST_TERMINATOR) →
      (∃ r ∈ Args, r.2 < 2 ^ 32 ∧ I.StartLba + r.1 + r.2 ≤ 2 ^ 64 ∧
        I.StartLba + r.1 + r.2 - 1 > I.Media.LastBlock) →
      EraseArgsValid I Args = false := by
  intro Args
  induction Args with
  | nil => intro _ h; obtain ⟨r, hr, -⟩ := h; cases hr
  | cons x Args ih =>
    intro hT hbad
    obtain ⟨s, n⟩ := x
    have hs : s ≠ EFI_LBA_LIST_TERMINATOR := hT (s, n) (List.mem_cons_self _ _)
    simp only [EraseArgsValid, hs, if_false]
    split_ifs with hc
    · rfl
    · obtain ⟨r, hr, h32, hnw, hout⟩ := hbad
      rcases List.mem_cons.mp hr with rfl | hr'
      · exfalso
        apply hc
        simp only at h32 hnw hout
        rw [Nat.mod_eq_of_lt h32]
        by_cases hn0 : n = 0
        · exact Or.inl hn0
        · right
          have : (I.StartLba + s + n + 2 ^ 64 - 1) % 2 ^ 64 = I.StartLba + s + n - 1 := by omega
          rw [this]
          exact hout
      · exact ih (fun r hr => hT r (List.mem_cons_of_mem _ hr)) ⟨r, hr', h32, hnw, hout⟩

/-- Without wrap-around FvbEraseBlocks rejects a list with an out-of-range range before
it erases anything. -/
theorem FvbEraseBlocks_rejects_without_wrap (P : Platform σ) (D : Driver σ)
    (Args : List (Nat × Nat)) (hrw : D.Instance.Media.ReadOnly = false)
    (hT : ∀ r ∈ Args, r.1 ≠ EFI_LBA_LIST_TERMINATOR)
    (hbad : ∃ r ∈ Args, r.2 < 2 ^ 32 ∧ D.Instance.StartLba + r.1 + r.2 ≤ 2 ^ 64 ∧
      D.Instance.StartLba + r.1 + r.2 - 1 > D.Instance.Media.LastBlock) :
    FvbEraseBlocks P D Args = (EFI_INVALID_PARAMETER, D) := by
  simp only [FvbEraseBlocks, hrw, Bool.false_eq_true, if_false,
    EraseArgsValid_false D.Instance Args hT hbad, if_true]

/-- The list [(0,2),(lastBlock,5)] of testable property 4 on the sample instance. -/
theorem FvbEraseBlocks_sample_rejected :
    (FvbEraseBlocks GoodPlatform ReadyDriver [(0, 2), (2, 5)]).1 = EFI_INVALID_PARAMETER ∧
    (FvbEraseBlocks GoodPlatform ReadyDriver [(0, 2), (2, 5)]).2.Trace = [] := by
  decide

/-! ### Single-bit corruption of the installed header -/

set_option maxRecDepth 100000 in
theorem xor_bit_byte : ∀ b < 256, ∀ k < 8,
    (b ^^^ 2 ^ k) < 256 ∧ ((b ^^^ 2 ^ k) = b + 2 ^ k ∨ (b ^^^ 2 ^ k) + 2 ^ k = b) := by
  decide

theorem two_pow_lt_byte : ∀ k < 8, 1 ≤ 2 ^ k ∧ 2 ^ k ≤ 128 := by
  decide

theorem FlipBit_other (Mem : Memory) (x k a : Nat) (h : a ≠ x) : FlipBit Mem x k a = Mem a := by
  simp [FlipBit, h]

theorem ReadUint8_FlipBit_other (Mem : Memory) (x k a : Nat) (h : a ≠ x) :
    ReadUint8 (FlipBit Mem x k) a = ReadUint8 Mem a := by
  simp [ReadUint8, FlipBit, h]

theorem ReadUint8_FlipBit_same (Mem : Memory) (x k : Nat) (hk : k < 8) :
    ReadUint8 (FlipBit Mem x k) x = ReadUint8 Mem x ^^^ 2 ^ k := by
  have hb : ReadUint8 Mem x < 256 := Nat.mod_lt _ (by norm_num)
  have := (xor_bit_byte _ hb k hk).1
  simp only [ReadUint8, FlipBit, if_true] at *
  exact Nat.mod_eq_of_lt this

/-- Changing one byte of memory changes the unreduced word sum by the change of that
byte, weighted by its position in its word. -/
theorem WordSum_update (M M' : Memory) (x : Nat) (hne : ∀ a, a ≠ x → M' a = M a) :
    ∀ n a, a ≤ x → x < a + 2 * n →
      WordSum M' a n + (if (x - a) % 2 = 0 then 1 else 256) * ReadUint8 M x =
        WordSum M a n + (if (x - a) % 2 = 0 then 1 else 256) * ReadUint8 M' x := by
  intro n
  induction n with
  | zero => intro a h1 h2; omega
  | succ n ih =>
    intro a h1 h2
    simp only [WordSum, ReadUint16]
    by_cases hx0 : x = a
    · subst hx0
      have hrest : WordSum M' (x + 2) n = WordSum M (x + 2) n :=
        WordSum_congr _ _ _ _ _ (fun i _ => hne _ (by omega))
      have h1' : ReadUint8 M' (x + 1) = ReadUint8 M (x + 1) := by
        simp only [ReadUint8]; rw [hne _ (by omega)]
      rw [hrest, h1']
      simp only [Nat.sub_self, Nat.zero_mod, if_true]
      omega
    · by_cases hx1 : x = a + 1
      · subst hx1
        have hrest : WordSum M' (a + 2) n = WordSum M (a + 2) n :=
          WordSum_congr _ _ _ _ _ (fun i _ => hne _ (by omega))
        have h0' : ReadUint8 M' a = ReadUint8 M a := by
          simp only [ReadUint8]; rw [hne _ (by omega)]
        rw [hrest, h0']
        simp only [Nat.add_sub_cancel_left, Nat.one_mod, one_ne_zero, if_false]
        omega
      · have h0' : ReadUint8 M' a = ReadUint8 M a := by
          simp only [ReadUint8]; rw [hne _ (by omega)]
        have h1' : ReadUint8 M' (a + 1) = ReadUint8 M (a + 1) := by
          simp only [ReadUint8]; rw [hne _ (by omega)]
        have hpar : (x - (a + 2)) % 2 = (x - a) % 2 := by omega
        have := ih (a + 2) (by omega) (by omega)
        rw [hpar] at this
        rw [h0', h1']
        omega

theorem ValidateFvHeader_success (Pcd : PCD) (I : FLASH_INSTANCE) (Mem : Memory)
    (h : ValidateFvHeader Pcd I Mem = EFI_SUCCESS) :
    CalculateSum16 Mem I.RegionBaseAddress
        (ReadUint16 Mem (I.RegionBaseAddress + FvHeaderLength)) = 0 ∧
      CompareGuid Mem (I.RegionBaseAddress + ReadUint16 Mem (I.RegionBaseAddress + FvHeaderLength)
        + VsSignature) gEfiVariableGuid = true := by
  unfold ValidateFvHeader at h
  simp only [] at h
  split_ifs at h with h1 h2 h3 h4 h5
  all_goals first
    | exact absurd h (by decide)
    | exact ⟨not_not.mp h3, by simpa using h4⟩

theorem ValidateFvHeader_not_found_of (Pcd : PCD) (I : FLASH_INSTANCE) (Mem : Memory)
    (h : ¬ (CalculateSum16 Mem I.RegionBaseAddress
        (ReadUint16 Mem (I.RegionBaseAddress + FvHeaderLength)) = 0 ∧
      CompareGuid Mem (I.RegionBaseAddress + ReadUint16 Mem (I.RegionBaseAddress + FvHeaderLength)
        + VsSignature) gEfiVariableGuid = true)) :
    ValidateFvHeader Pcd I Mem = EFI_NOT_FOUND := by
  rcases ValidateFvHeader_cases Pcd I Mem with h1 | h1
  · exact absurd (ValidateFvHeader_success Pcd I Mem h1) h
  · exact h1

theorem CompareGuid_variable_head (Mem : Memory) (a : Nat) (h : ReadUint8 Mem a ≠ 0x16) :
    CompareGuid Mem a gEfiVariableGuid = false := by
  unfold CompareGuid
  rw [decide_eq_false_iff_not]
  intro heq
  have := congrArg (fun l => l.getD 0 0) heq
  simp only [List.range, List.range.loop, List.map, List.getD_cons_zero, Nat.add_zero] at this
  exact h this

theorem WordSum_HeaderBytes_32 (v nb bs c sz : Nat) (hv : v < 4294967296) :
    WordSum (BufferMemory (HeaderBytes v nb bs c sz)) 0 32 = HeaderWordSum v nb bs + c % 65536 := by
  simp only [HeaderBytes, WordSum_cons]
  simp only [WordSum, HeaderWordSum]
  omega

theorem WordSum_HeaderBytes_37 (v nb bs c sz : Nat) (hv : v < 4294967296) :
    WordSum (BufferMemory (HeaderBytes v nb bs c sz)) 0 37 =
      HeaderWordSum v nb bs + c % 65536 + 0x3616 := by
  simp only [HeaderBytes, WordSum_cons]
  simp only [WordSum, HeaderWordSum]
  omega

theorem WordSum_HeaderBytes_38 (v nb bs c sz : Nat) (hv : v < 4294967296) :
    WordSum (BufferMemory (HeaderBytes v nb bs c sz)) 0 38 =
      HeaderWordSum v nb bs + c % 65536 + 0x3616 + 0xddcf := by
  simp only [HeaderBytes, WordSum_cons]
  simp only [WordSum, HeaderWordSum]
  omega

theorem WordSum_HeaderBytes_44 (v nb bs c sz : Nat) (hv : v < 4294967296) :
    WordSum (BufferMemory (HeaderBytes v nb bs c sz)) 0 44 =
      HeaderWordSum v nb bs + c % 65536 + 0x424C1 := by
  simp only [HeaderBytes, WordSum_cons]
  simp only [WordSum, HeaderWordSum]
  omega

section Flipped

variable (Mem : Memory) (Base v nb bs c sz : Nat)

theorem flipped_byte (i k j : Nat) (hj : j < 100) (hne : j ≠ i) :
    ReadUint8 (FlipBit (PlaceAt Mem Base (HeaderBytes v nb bs c sz)) (Base + i) k) (Base + j) =
      (HeaderBytes v nb bs c sz).getD j 0 % 256 := by
  rw [ReadUint8_FlipBit_other _ _ _ _ (by omega),
    ReadUint8_PlaceAt _ _ _ _ (by rw [HeaderBytes_length]; exact hj)]

theorem flipped_WordSum (i k n : Nat) (hk : k < 8) (hi : i < 2 * n) (hn : n ≤ 50) :
    WordSum (FlipBit (PlaceAt Mem Base (HeaderBytes v nb bs c sz)) (Base + i) k) Base n +
        (if i % 2 = 0 then 1 else 256) * ((HeaderBytes v nb bs c sz).getD i 0 % 256) =
      WordSum (BufferMemory (HeaderBytes v nb bs c sz)) 0 n +
        (if i % 2 = 0 then 1 else 256) * ((HeaderBytes v nb bs c sz).getD i 0 % 256 ^^^ 2 ^ k) := by
  have h := WordSum_update (PlaceAt Mem Base (HeaderBytes v nb bs c sz))
    (FlipBit (PlaceAt Mem Base (HeaderBytes v nb bs c sz)) (Base + i) k) (Base + i)
    (fun a ha => FlipBit_other _ _ _ _ ha) n Base (by omega) (by omega)
  rw [Nat.add_sub_cancel_left, ReadUint8_FlipBit_same _ _ _ hk,
    ReadUint8_PlaceAt _ _ _ _ (by rw [HeaderBytes_length]; omega),
    installed_WordSum _ _ _ _ _ _ _ _ hn] at h
  exact h

/-- A flip outside the HeaderLength field leaves a checksum that is not zero. -/
theorem flipped_Sum16_ne_zero (i k : Nat) (hk : k < 8) (hi : i < 72) (hv : v < 4294967296)
    (hc : c = (65536 - HeaderWordSum v nb bs % 65536) % 65536) :
    WordSum (FlipBit (PlaceAt Mem Base (HeaderBytes v nb bs c sz)) (Base + i) k) Base 36 % 65536
      ≠ 0 := by
  have h := flipped_WordSum Mem Base v nb bs c sz i k 36 hk (by omega) (by norm_num)
  rw [WordSum_HeaderBytes _ _ _ _ _ hv] at h
  have hb : (HeaderBytes v nb bs c sz).getD i 0 % 256 < 256 := Nat.mod_lt _ (by norm_num)
  obtain ⟨hx1, hx2⟩ := xor_bit_byte _ hb k hk
  obtain ⟨hp1, hp2⟩ := two_pow_lt_byte k hk
  generalize (HeaderBytes v nb bs c sz).getD i 0 % 256 = old at *
  generalize old ^^^ 2 ^ k = new at *
  generalize 2 ^ k = p at *
  generalize WordSum (FlipBit (PlaceAt Mem Base (HeaderBytes v nb bs c sz)) (Base + i) k) Base 36
    = S' at *
  generalize HeaderWordSum v nb bs = S at *
  split_ifs at h <;> omega

theorem flipped_HeaderLength_other (i k : Nat) (h48 : i ≠ 48) (h49 : i ≠ 49) :
    ReadUint16 (FlipBit (PlaceAt Mem Base (HeaderBytes v nb bs c sz)) (Base + i) k)
      (Base + FvHeaderLength) = 72 := by
  simp only [ReadUint16, FvHeaderLength, Nat.add_assoc, Nat.reduceAdd]
  rw [flipped_byte _ _ _ _ _ _ _ _ _ 48 (by norm_num) (Ne.symm h48),
    flipped_byte _ _ _ _ _ _ _ _ _ 49 (by norm_num) (Ne.symm h49)]
  simp only [HeaderBytes, List.getD_cons_succ, List.getD_cons_zero]

theorem flipped_HeaderLength_low (k : Nat) (hk : k < 8) :
    ReadUint16 (FlipBit (PlaceAt Mem Base (HeaderBytes v nb bs c sz)) (Base + 48) k)
      (Base + FvHeaderLength) = 72 ^^^ 2 ^ k := by
  simp only [ReadUint16, FvHeaderLength, Nat.add_assoc, Nat.reduceAdd]
  rw [flipped_byte _ _ _ _ _ _ _ _ _ 49 (by norm_num) (by norm_num),
    ReadUint8_FlipBit_same _ _ _ hk,
    ReadUint8_PlaceAt _ _ _ _ (by rw [HeaderBytes_length]; norm_num)]
  simp only [HeaderBytes, List.getD_cons_succ, List.getD_cons_zero, Nat.reduceMod, Nat.mul_zero,
    Nat.add_zero]

/-- A flip of bit 0, 1, 2, 3 or 4 of the low byte of HeaderLength: the sum over the
altered length is not zero. -/
theorem flipped_low_Sum16_ne_zero (k n : Nat) (hk : k < 8) (hv : v < 4294967296)
    (hc : c = (65536 - HeaderWordSum v nb bs % 65536) % 65536)
    (hkn : (k = 0 ∧ n = 36) ∨ (k = 1 ∧ n = 37) ∨ (k = 2 ∧ n = 38) ∨ (k = 3 ∧ n = 32) ∨
      (k = 4 ∧ n = 44)) :
    WordSum (FlipBit (PlaceAt Mem Base (HeaderBytes v nb bs c sz)) (Base + 48) k) Base n % 65536
      ≠ 0 := by
  have h := flipped_WordSum Mem Base v nb bs c sz 48 k n hk (by omega) (by omega)
  have h48 : (HeaderBytes v nb bs c sz).getD 48 0 % 256 = 72 := by
    simp only [HeaderBytes, List.getD_cons_succ, List.getD_cons_zero]
  rw [h48] at h
  simp only [Nat.reduceMod, if_true, one_mul] at h
  rcases hkn with ⟨rfl, rfl⟩ | ⟨rfl, rfl⟩ | ⟨rfl, rfl⟩ | ⟨rfl, rfl⟩ | ⟨rfl, rfl⟩
  · rw [WordSum_HeaderBytes v nb bs c sz hv] at h
    simp only [Nat.pow_zero, Nat.reduceXor] at h
    generalize HeaderWordSum v nb bs = S at *
    omega
  · rw [WordSum_HeaderBytes_37 v nb bs c sz hv] at h
    simp only [Nat.reducePow, Nat.reduceXor] at h
    generalize HeaderWordSum v nb bs = S at *
    omega
  · rw [WordSum_HeaderBytes_38 v nb bs c sz hv] at h
    simp only [Nat.reducePow, Nat.reduceXor] at h
    generalize HeaderWordSum v nb bs = S at *
    omega
  · rw [WordSum_HeaderBytes_32 v nb bs c sz hv] at h
    simp only [Nat.reducePow, Nat.reduceXor] at h
    generalize HeaderWordSum v nb bs = S at *
    omega
  · rw [WordSum_HeaderBytes_44 v nb bs c sz hv] at h
    simp only [Nat.reducePow, Nat.reduceXor] at h
    generalize HeaderWordSum v nb bs = S at *
    omega

end Flipped

/-! ## Claims -/

/-- C1. Header round-trip: the buffer that InitializeFvAndVariableStoreHeaders builds,
placed at the region base, is accepted by ValidateFvHeader, for every instance
geometry and every configured size. -/
theorem header_round_trip (Pcd : PCD) (Instance : FLASH_INSTANCE) (Mem : Memory) :
    ValidateFvHeader Pcd Instance
      (PlaceAt Mem Instance.RegionBaseAddress (BuildHeaders Pcd Instance)) = EFI_SUCCESS := by
  have hv := ConfiguredFvLength_lt Pcd
  have e : (PcdGet32 Pcd.PcdFlashNvStorageVariableSize +
      PcdGet32 Pcd.PcdFlashNvStorageFtwWorkingSize +
      PcdGet32 Pcd.PcdFlashNvStorageFtwSpareSize) % 2 ^ 32 = ConfiguredFvLength Pcd := rfl
  rw [BuildHeaders_eq]
  unfold ValidateFvHeader
  simp only [e, installed_Revision, installed_Signature, installed_FvLength _ _ _ _ _ _ _ hv,
    installed_FileSystemGuid, installed_HeaderLength,
    installed_Sum16 _ _ _ _ _ _ _ hv (InstalledChecksum_eq Pcd Instance),
    installed_VariableGuid, installed_Size _ _ _ _ _ _ _ (Nat.mod_lt _ (by norm_num))]
  simp


/-- C2 (counterexample). Bit 5 of the low byte of HeaderLength is flipped in installed
headers that are followed by TailData: HeaderLength reads 104, the sum over 104 bytes is
zero, the 16 bytes at offset 104 are the variable GUID, and ValidateFvHeader returns
success. -/
theorem flipped_HeaderLength_accepted :
    ValidateFvHeader SamplePcd FreshInstance StoreWithTail = EFI_SUCCESS ∧
    ValidateFvHeader SamplePcd FreshInstance
      (FlipBit StoreWithTail (FreshInstance.RegionBaseAddress + FvHeaderLength) 5) = EFI_SUCCESS := by
  decide

/-- C2 (amended). For the headers InitializeFvAndVariableStoreHeaders builds, placed at
the region base, flipping any single bit `k` of any byte `i` of the first 72 bytes (the
FV header: zero vector, HeaderLength field and block map included) makes ValidateFvHeader
return not-found, provided that, when the bit is bit 5 or bit 7..15 of the HeaderLength
field, the 16 bytes at the offset the altered HeaderLength gives are not the variable
GUID. -/
theorem single_bit_flip_detected (Pcd : PCD) (Instance : FLASH_INSTANCE) (Mem : Memory)
    (i k : Nat) (hi : i < 72) (hk : k < 8)
    (hlen : (i = 48 ∧ (k = 5 ∨ k = 7)) ∨ i = 49 →
      CompareGuid
        (FlipBit (PlaceAt Mem Instance.RegionBaseAddress (BuildHeaders Pcd Instance))
          (Instance.RegionBaseAddress + i) k)
        (Instance.RegionBaseAddress +
          ReadUint16 (FlipBit (PlaceAt Mem Instance.RegionBaseAddress (BuildHeaders Pcd Instance))
            (Instance.RegionBaseAddress + i) k) (Instance.RegionBaseAddress + FvHeaderLength) +
          VsSignature) gEfiVariableGuid = false) :
    ValidateFvHeader Pcd Instance
      (FlipBit (PlaceAt Mem Instance.RegionBaseAddress (BuildHeaders Pcd Instance))
        (Instance.RegionBaseAddress + i) k) = EFI_NOT_FOUND := by
  have hv := ConfiguredFvLength_lt Pcd
  have hc := InstalledChecksum_eq Pcd Instance
  rw [BuildHeaders_eq] at hlen ⊢
  apply ValidateFvHeader_not_found_of
  rintro ⟨hsum, hguid⟩
  by_cases h49 : i = 49
  · rw [hlen (Or.inr h49)] at hguid
    exact absurd hguid (by decide)
  by_cases h48 : i = 48
  · subst h48
    rw [flipped_HeaderLength_low _ _ _ _ _ _ _ _ hk, CalculateSum16_eq] at hsum
    rw [flipped_HeaderLength_low _ _ _ _ _ _ _ _ hk] at hguid
    interval_cases k
    · exact flipped_low_Sum16_ne_zero _ _ _ _ _ _ _ 0 36 (by norm_num) hv hc (by simp) hsum
    · exact flipped_low_Sum16_ne_zero _ _ _ _ _ _ _ 1 37 (by norm_num) hv hc (by simp) hsum
    · exact flipped_low_Sum16_ne_zero _ _ _ _ _ _ _ 2 38 (by norm_num) hv hc (by simp) hsum
    · exact flipped_low_Sum16_ne_zero _ _ _ _ _ _ _ 3 32 (by norm_num) hv hc (by simp) hsum
    · exact flipped_low_Sum16_ne_zero _ _ _ _ _ _ _ 4 44 (by norm_num) hv hc (by simp) hsum
    · rw [flipped_HeaderLength_low _ _ _ _ _ _ _ _ (by norm_num)] at hlen
      rw [hlen (Or.inl ⟨rfl, Or.inl rfl⟩)] at hguid
      exact absurd hguid (by decide)
    · rw [CompareGuid_variable_head _ _ (by
        simp only [Nat.reducePow, Nat.reduceXor, VsSignature, Nat.add_assoc, Nat.reduceAdd]
        rw [flipped_byte _ _ _ _ _ _ _ _ _ 8 (by norm_num) (by norm_num)]
        simp only [HeaderBytes, List.getD_cons_succ, List.getD_cons_zero]
        decide)] at hguid
      exact absurd hguid (by decide)
    · rw [flipped_HeaderLength_low _ _ _ _ _ _ _ _ (by norm_num)] at hlen
      rw [hlen (Or.inl ⟨rfl, Or.inr rfl⟩)] at hguid
      exact absurd hguid (by decide)
  · rw [flipped_HeaderLength_other _ _ _ _ _ _ _ _ _ h48 h49, CalculateSum16_eq] at hsum
    exact flipped_Sum16_ne_zero _ _ _ _ _ _ _ i k hk hi hv hc hsum

/-- C2 (witness). Bit 5 of the low byte of HeaderLength, flipped in installed headers that
are followed by erased flash. -/
theorem single_bit_flip_detected_witness :
    ValidateFvHeader SamplePcd FreshInstance
      (FlipBit FormattedMemory (FreshInstance.RegionBaseAddress + 48) 5) = EFI_NOT_FOUND :=
  single_bit_flip_detected SamplePcd FreshInstance (fun _ => 0xFF) 48 5 (by decide) (by decide)
    (fun _ => by decide)

/-- C3 (evaluation at the failing input). With StartLba = 0 and LastBlock = 2 the range
(0xFFFFFFFFFFFFFFFE, 3) ends, in exact arithmetic, far beyond the last block; the
64-bit sum of line 780 wraps to 0, the list passes validation and FvbEraseBlocks
returns success after three device erase calls. -/
theorem FvbEraseBlocks_wrapped_range_is_erased :
    ReadyDriver.Instance.StartLba + 0xFFFFFFFFFFFFFFFE + 3 - 1 > ReadyDriver.Instance.Media.LastBlock ∧
    (0xFFFFFFFFFFFFFFFE : Nat) ≠ EFI_LBA_LIST_TERMINATOR ∧
    (FvbEraseBlocks GoodPlatform ReadyDriver [(0xFFFFFFFFFFFFFFFE, 3)]).1 = EFI_SUCCESS ∧
    (FvbEraseBlocks GoodPlatform ReadyDriver [(0xFFFFFFFFFFFFFFFE, 3)]).2.Trace =
      [Event.Erase 0xFFFE1000 0x10000, Event.Erase 0xFFFF1000 0x10000, Event.Erase 0x1000 0x10000] := by
  decide

/-- C10 (evaluation at the failing input). On an initialized writable instance with
LastBlock = 2, FvbWrite and FvbRead at Lba = 5 reach the device and return success. -/
theorem FvbWrite_FvbRead_beyond_last_block :
    ReadyDriver.Instance.Media.LastBlock < 5 ∧
    (FvbWrite GoodPlatform 1 ReadyDriver 5 0 4 [1, 2, 3, 4]).status = some EFI_SUCCESS ∧
    (FvbWrite GoodPlatform 1 ReadyDriver 5 0 4 [1, 2, 3, 4]).trace =
      [Event.Write 0x51000 [1, 2, 3, 4] 4] ∧
    (FvbRead GoodPlatform 1 ReadyDriver 5 0 4 []).status = some EFI_SUCCESS ∧
    (Access.run GoodPlatform 1 ReadyDriver (.Read 5 0 4 [])).trace = [Event.Read 0x51000 4] := by
  decide

/-- C9 (evaluation at the failing input). The header is absent and the device erase
fails: FvbInitialize returns device error, yet the FvbRead and the FvbWrite that
triggered it go on with the transfer and return success. -/
theorem FvbRead_FvbWrite_drop_initialization_error :
    (FvbInitialize EraseFailsPlatform 3 (FreshDriver.log Event.Hook)).status =
      some EFI_DEVICE_ERROR ∧
    (FvbRead EraseFailsPlatform 3 FreshDriver 0 0 4 []).status = some EFI_SUCCESS ∧
    (Access.run EraseFailsPlatform 3 FreshDriver (.Read 0 0 4 [])).trace =
      [Event.Hook, Event.Validate, Event.Erase 0x1000 0x10000, Event.Read 0x1000 4] ∧
    (FvbWrite EraseFailsPlatform 4 FreshDriver 0 0 4 [1, 2, 3, 4]).status = some EFI_SUCCESS ∧
    (FvbWrite EraseFailsPlatform 4 FreshDriver 0 0 4 [1, 2, 3, 4]).trace =
      [Event.Hook, Event.Validate, Event.Erase 0x1000 0x10000, Event.Write 0x1000 [1, 2, 3, 4] 4] := by
  decide

/-- C8 (counterexample). The header is absent and the device erase fails: FvbInitialize
returns device error and the instance is left with Initialized = true. -/
theorem FvbInitialize_failure_leaves_flag_set :
    (FvbInitialize EraseFailsPlatform 3 FreshDriver).status = some EFI_DEVICE_ERROR ∧
    (FvbInitialize EraseFailsPlatform 3 FreshDriver).driver.map (fun D => D.Instance.Initialized) =
      some true := by
  decide

/-- C5 (counterexample). With device base 0x1000, region base 0x2000 and block size
0x10000, FvbRead at Lba = 2^32, Offset = 0x10 passes the boundary checks and calls the
device at offset 0x1010, not at regionBase + lba*blockSize - deviceBase + offset. -/
theorem FvbRead_offset_truncated :
    (Access.run GoodPlatform 1 ReadyDriver (.Read 0x100000000 0x10 4 [])).trace =
      [Event.Read 0x1010 4] ∧
    0x2000 + 0x100000000 * 0x10000 - 0x1000 + 0x10 ≠ 0x1010 := by
  decide

/-- C4. Write boundary enforcement: on a writable instance whose lazy initialization
has completed, for every 32-bit block size and all 64-bit Offset and NumBytes, FvbWrite
calls the device write primitive (once, for NumBytes bytes) exactly when NumBytes > 0
and Offset + NumBytes <= BlockSize in exact arithmetic; otherwise it returns bad buffer
size and leaves device and trace untouched. -/
theorem FvbWrite_boundary (P : Platform σ) (fuel : Nat) (D : Driver σ)
    (Lba Offset NumBytes : Nat) (Buffer : List Nat)
    (hI : D.Instance.Initialized = true) (hrw : D.Instance.Media.ReadOnly = false)
    (hB : D.Instance.Media.BlockSize < 2 ^ 32) (hO : Offset < 2 ^ 64) (hN : NumBytes < 2 ^ 64) :
    FvbWrite P (fuel + 1) D Lba Offset NumBytes Buffer =
      if 0 < NumBytes ∧ Offset + NumBytes ≤ D.Instance.Media.BlockSize then
        .ok (DeviceWrite P D (TransferAddress D.Instance Lba Offset) Buffer NumBytes)
      else .ok (EFI_BAD_BUFFER_SIZE, D) := by
  rw [FvbWrite_of_guard_off _ _ _ _ _ _ _ (GuardFires_of_initialized _ hI),
    FvbWriteBody_eq _ _ _ _ _ _ hrw hB hO hN]
  split_ifs <;> rfl

/-- C4 (witness). Offset = BlockSize - 1 with NumBytes = 2 on the sample instance:
bad buffer size and an empty trace. -/
theorem FvbWrite_boundary_witness :
    (FvbWrite GoodPlatform 1 ReadyDriver 0 0xFFFF 2 [1, 2]).status = some EFI_BAD_BUFFER_SIZE ∧
    (FvbWrite GoodPlatform 1 ReadyDriver 0 0xFFFF 2 [1, 2]).trace = [] := by
  rw [FvbWrite_boundary GoodPlatform 0 ReadyDriver 0 0xFFFF 2 [1, 2] (by decide) (by decide)
    (by decide) (by decide) (by decide)]
  decide

/-- C5 (amended). On an initialized instance, for every lba, offset and numBytes that
pass the boundary checks and for which regionBase + lba*blockSize + offset - deviceBase
is non-negative and fits the 32-bit device offset, FvbRead calls the device read
primitive exactly once, for numBytes bytes at that offset, and returns success if the
device succeeds and device error for every other device status. -/
theorem FvbRead_physical_offset (P : Platform σ) (fuel : Nat) (D : Driver σ)
    (Lba Offset NumBytes : Nat) (Buffer : List Nat)
    (hI : D.Instance.Initialized = true)
    (hB : D.Instance.Media.BlockSize < 2 ^ 32) (hO : Offset < 2 ^ 64)
    (hN : 0 < NumBytes) (hfit : Offset + NumBytes ≤ D.Instance.Media.BlockSize)
    (hge : D.Instance.DeviceBaseAddress ≤
      D.Instance.RegionBaseAddress + Lba * D.Instance.Media.BlockSize + Offset)
    (h32 : D.Instance.RegionBaseAddress + Lba * D.Instance.Media.BlockSize + Offset -
      D.Instance.DeviceBaseAddress < 2 ^ 32) :
    FvbRead P fuel D Lba Offset NumBytes Buffer =
      .ok (if (P.mFlash.Read D.Flash (D.Instance.RegionBaseAddress +
              Lba * D.Instance.Media.BlockSize + Offset - D.Instance.DeviceBaseAddress)
              NumBytes).1 = EFI_SUCCESS then EFI_SUCCESS else EFI_DEVICE_ERROR,
        (P.mFlash.Read D.Flash (D.Instance.RegionBaseAddress +
          Lba * D.Instance.Media.BlockSize + Offset - D.Instance.DeviceBaseAddress) NumBytes).2.1,
        { D with
          Flash := (P.mFlash.Read D.Flash (D.Instance.RegionBaseAddress +
            Lba * D.Instance.Media.BlockSize + Offset - D.Instance.DeviceBaseAddress) NumBytes).2.2
          Trace := D.Trace ++ [Event.Read (D.Instance.RegionBaseAddress +
            Lba * D.Instance.Media.BlockSize + Offset - D.Instance.DeviceBaseAddress) NumBytes] }) := by
  rw [FvbRead_of_guard_off _ _ _ _ _ _ _ (GuardFires_of_initialized _ hI),
    FvbReadBody_eq _ _ _ _ _ _ hB hO (by omega), if_pos ⟨hN, hfit⟩,
    TransferAddress_exact _ _ _ hge h32]
  rfl

/-- C5 (witness). Device base 0x1000, region base 0x2000, block size 0x10000, lba 3,
offset 0x10: the device is read at offset 0x31010. -/
theorem FvbRead_physical_offset_witness :
    (Access.run GoodPlatform 1 ReadyDriver (.Read 3 0x10 4 [])).trace = [Event.Read 0x31010 4] ∧
    (FvbRead GoodPlatform 1 ReadyDriver 3 0x10 4 []).status = some EFI_SUCCESS := by
  rw [Access.run, FvbRead_physical_offset GoodPlatform 1 ReadyDriver 3 0x10 4 [] (by decide)
    (by decide) (by decide) (by decide) (by decide) (by decide) (by decide)]
  decide

/-- C6. Read-only enforcement: on an instance with Media.ReadOnly = true, in boot-time
context and whether or not lazy initialization has run, every FvbWrite and every
FvbEraseBlocks returns access denied with no device write and no device erase, and an
FvbRead with in-bounds offset and length returns success when the device read does. -/
theorem read_only_enforcement (P : Platform σ) (fuel : Nat) (D : Driver σ)
    (hro : D.Instance.Media.ReadOnly = true) (hboot : P.EfiAtRuntime = false)
    (hB0 : D.Instance.Media.BlockSize ≠ 0) (hB : D.Instance.Media.BlockSize < 2 ^ 32) :
    (∀ Lba Offset NumBytes Buffer, ∃ D',
      FvbWrite P (fuel + 4) D Lba Offset NumBytes Buffer = .ok (EFI_ACCESS_DENIED, D') ∧
      D'.Flash = D.Flash ∧ DeviceWrites D'.Trace = DeviceWrites D.Trace ∧
      DeviceErases D'.Trace = DeviceErases D.Trace) ∧
    (∀ Args, FvbEraseBlocks P D Args = (EFI_ACCESS_DENIED, D)) ∧
    (∀ Lba Offset NumBytes Buffer, Offset < 2 ^ 64 → 0 < NumBytes →
      Offset + NumBytes ≤ D.Instance.Media.BlockSize →
      (P.mFlash.Read D.Flash (TransferAddress D.Instance Lba Offset) NumBytes).1 = EFI_SUCCESS →
      ∃ Data D', FvbRead P (fuel + 3) D Lba Offset NumBytes Buffer = .ok (EFI_SUCCESS, Data, D') ∧
        DeviceWrites D'.Trace = DeviceWrites D.Trace ∧
        DeviceErases D'.Trace = DeviceErases D.Trace) := by
  have hlog : (D.log Event.Hook).Instance.Media.BlockSize ≠ 0 := hB0
  have hflat := FvbInitializeFlat_readOnly P (D.log Event.Hook) hro
  have hcnt : DeviceWrites (InitPrologue P (D.log Event.Hook)).Trace = DeviceWrites D.Trace ∧
      DeviceErases (InitPrologue P (D.log Event.Hook)).Trace = DeviceErases D.Trace := by
    simp [InitPrologue, Driver.log, DeviceWrites, DeviceErases, List.countP_append, IsWrite, IsErase]
  refine ⟨?_, ?_, ?_⟩
  · intro Lba Offset NumBytes Buffer
    by_cases hg : GuardFires D.Instance = false
    · refine ⟨D, ?_, rfl, rfl, rfl⟩
      rw [FvbWrite_of_guard_off _ _ _ _ _ _ _ hg, FvbWriteBody_readOnly _ _ _ _ _ _ hro]
    · refine ⟨InitPrologue P (D.log Event.Hook), ?_, rfl, hcnt.1, hcnt.2⟩
      have hg' : (!D.Instance.Initialized && D.Instance.Initialize) = true := by
        simpa [GuardFires] using hg
      rw [FvbWrite, hg', if_pos rfl, hboot, if_neg (by simp), FvbInitialize_flat _ _ _ hlog,
        Run.bind_ok, hflat, FvbWriteBody_readOnly _ _ _ _ _ _
          (show (InitPrologue P (D.log Event.Hook)).Instance.Media.ReadOnly = true from hro)]
  · intro Args
    simp only [FvbEraseBlocks, hro, if_true]
  · intro Lba Offset NumBytes Buffer hO hN hfit hdev
    by_cases hg : GuardFires D.Instance = false
    · refine ⟨(DeviceRead P D (TransferAddress D.Instance Lba Offset) NumBytes).2.1,
        (DeviceRead P D (TransferAddress D.Instance Lba Offset) NumBytes).2.2, ?_,
        (DeviceRead_counts P D _ _).1, (DeviceRead_counts P D _ _).2⟩
      rw [FvbRead_of_guard_off _ _ _ _ _ _ _ hg,
        FvbReadBody_success _ _ _ _ _ _ hB hO hN hfit hdev]
    · have hg' : (!D.Instance.Initialized && D.Instance.Initialize) = true := by
        simpa [GuardFires] using hg
      refine ⟨(DeviceRead P (InitPrologue P (D.log Event.Hook))
          (TransferAddress D.Instance Lba Offset) NumBytes).2.1,
        (DeviceRead P (InitPrologue P (D.log Event.Hook))
          (TransferAddress D.Instance Lba Offset) NumBytes).2.2, ?_,
        (DeviceRead_counts P _ _ _).1.trans hcnt.1, (DeviceRead_counts P _ _ _).2.trans hcnt.2⟩
      rw [FvbRead, hg', if_pos rfl, hboot, if_neg (by simp), FvbInitialize_flat _ _ _ hlog,
        Run.bind_ok, hflat,
        FvbReadBody_success P (InitPrologue P (D.log Event.Hook)) Lba Offset NumBytes Buffer
          hB hO hN hfit hdev]
      rfl

/-- C6 (witness). The sample read-only instance, not yet initialized: write and erase
are denied, a read succeeds. -/
theorem read_only_enforcement_witness :
    ReadOnlyDriver.Instance.Media.ReadOnly = true ∧
    (FvbWrite GoodPlatform 4 ReadOnlyDriver 0 0 4 [1, 2, 3, 4]).status = some EFI_ACCESS_DENIED ∧
    (FvbEraseBlocks GoodPlatform ReadOnlyDriver [(0, 1)]).1 = EFI_ACCESS_DENIED ∧
    (FvbRead GoodPlatform 3 ReadOnlyDriver 0 0 4 []).status = some EFI_SUCCESS := by
  have h := read_only_enforcement GoodPlatform 0 ReadOnlyDriver (by decide) (by decide)
    (by decide) (by decide)
  obtain ⟨D', hw, -⟩ := h.1 0 0 4 [1, 2, 3, 4]
  obtain ⟨Data, D'', hr, -⟩ := h.2.2 0 0 4 [] (by decide) (by decide) (by decide) (by decide)
  refine ⟨by decide, ?_, ?_, ?_⟩
  · rw [hw]; rfl
  · rw [h.2.1]
  · rw [hr]; rfl

/-- C7. Idempotent lazy initialization: on an instance that is not yet initialized, has
the hook and whose store holds a valid header, two consecutive accesses (each an FvbRead
or an FvbWrite) in boot-time context return, the trace gains exactly one ValidateFvHeader
pass in total, and the second access adds no validation, no erase, no header install and
no hook call. -/
theorem lazy_initialization_idempotent (P : Platform σ) (fuel : Nat) (D : Driver σ)
    (a1 a2 : Access)
    (hU : D.Instance.Initialized = false) (hH : D.Instance.Initialize = true)
    (hboot : P.EfiAtRuntime = false) (hB0 : D.Instance.Media.BlockSize ≠ 0)
    (hvalid : ValidateFvHeader P.Pcd D.Instance (P.mFlash.Mapped D.Flash) = EFI_SUCCESS) :
    ∃ s1 D1 s2 D2, a1.run P (fuel + 4) D = .ok (s1, D1) ∧ a2.run P (fuel + 4) D1 = .ok (s2, D2) ∧
      Validations D2.Trace = Validations D.Trace + 1 ∧
      Validations D2.Trace = Validations D1.Trace ∧
      DeviceErases D2.Trace = DeviceErases D1.Trace ∧
      Installs D2.Trace = Installs D1.Trace ∧
      HookCalls D2.Trace = HookCalls D1.Trace := by
  have hg : GuardFires D.Instance = true := by simp [GuardFires, hU, hH]
  have hflat := FvbInitializeFlat_valid P (D.log Event.Hook) hvalid
  obtain ⟨s1, D1, h1, hc1, hv1, -, -, -⟩ := Access_run_guard_on P fuel D a1 hg hboot hB0
  rw [hflat] at hc1 hv1
  have hI1 : D1.Instance.Initialized = true := by rw [hc1.1]; rfl
  obtain ⟨s2, D2, h2, -, hv2, he2, hi2, hh2⟩ :=
    Access_run_guard_off P (fuel + 3) D1 a2 (GuardFires_of_initialized _ hI1)
  refine ⟨s1, D1, s2, D2, h1, h2, ?_, hv2, he2, hi2, hh2⟩
  rw [hv2, hv1]
  simp [InitPrologue, Driver.log, Validations, List.count_append]

/-- C8 (amended). For every instance with a non-zero block size FvbInitialize returns,
and whatever its status, so also when its erase or its header write failed, the
Initialized flag is true afterwards; the lazy-initialization guard of the next FvbRead or
FvbWrite therefore does not fire and the initialization is not run again. -/
theorem FvbInitialize_sets_flag (P : Platform σ) (fuel : Nat) (D : Driver σ)
    (hB0 : D.Instance.Media.BlockSize ≠ 0) :
    ∃ s D', FvbInitialize P (fuel + 3) D = .ok (s, D') ∧ D'.Instance.Initialized = true ∧
      ∀ (a : Access) (fuel' : Nat), ∃ s2 D2, a.run P (fuel' + 1) D' = .ok (s2, D2) ∧
        HookCalls D2.Trace = HookCalls D'.Trace ∧ Validations D2.Trace = Validations D'.Trace := by
  have hI : (FvbInitializeFlat P D).2.Instance.Initialized = true := by
    rw [FvbInitializeFlat_initialized]; rfl
  refine ⟨(FvbInitializeFlat P D).1, (FvbInitializeFlat P D).2, FvbInitialize_flat P fuel D hB0,
    hI, ?_⟩
  intro a fuel'
  obtain ⟨s2, D2, h2, -, hv2, -, -, hh2⟩ :=
    Access_run_guard_off P fuel' _ a (GuardFires_of_initialized _ hI)
  exact ⟨s2, D2, h2, hh2, hv2⟩

/-- C8 (witness). The sample instance on the device whose erase fails. -/
theorem FvbInitialize_sets_flag_witness :
    ∃ s D', FvbInitialize EraseFailsPlatform 3 FreshDriver = .ok (s, D') ∧
      D'.Instance.Initialized = true := by
  obtain ⟨s, D', h, hI, -⟩ := FvbInitialize_sets_flag EraseFailsPlatform 0 FreshDriver (by decide)
  exact ⟨s, D', h, hI⟩

/-- C7 (witness). The sample instance on a store that holds valid headers: a read, then
a write. -/
theorem lazy_initialization_idempotent_witness :
    ∃ s1 D1 s2 D2,
      (Access.Read 0 0 4 []).run FormattedPlatform 4 FreshDriver = .ok (s1, D1) ∧
      (Access.Write 1 0 4 [1, 2, 3, 4]).run FormattedPlatform 4 D1 = .ok (s2, D2) ∧
      Validations D2.Trace = Validations FreshDriver.Trace + 1 ∧
      Validations D2.Trace = Validations D1.Trace ∧
      DeviceErases D2.Trace = DeviceErases D1.Trace ∧
      Installs D2.Trace = Installs D1.Trace ∧
      HookCalls D2.Trace = HookCalls D1.Trace :=
  lazy_initialization_idempotent FormattedPlatform 0 FreshDriver (.Read 0 0 4 [])
    (.Write 1 0 4 [1, 2, 3, 4]) (by decide) (by decide) (by decide) (by decide) (by decide)

/-! ## Lemmas: the erase pass -/

theorem FlashEraseSingleBlock_eq (P : Platform σ) (D : Driver σ) (BlockAddress : Nat) :
    FlashEraseSingleBlock P D BlockAddress =
      DeviceErase P D (BlockEraseOffset D.Instance BlockAddress) D.Instance.Media.BlockSize := by
  unfold FlashEraseSingleBlock BlockEraseOffset
  simp only []
  split
  · rfl
  · rename_i h
    exact Prod.ext (not_not.mp h) rfl

theorem erase_attempt_eq (P : Platform σ) (D : Driver σ) (BlockAddress : Nat) :
    (if (!EFI_ERROR (FlashUnlockSingleBlockIfNecessary D.Instance BlockAddress)) = true then
        FlashEraseSingleBlock P D BlockAddress
      else (FlashUnlockSingleBlockIfNecessary D.Instance BlockAddress, D)) =
      DeviceErase P D (BlockEraseOffset D.Instance BlockAddress) D.Instance.Media.BlockSize := by
  simp only [FlashUnlockSingleBlockIfNecessary, EFI_ERROR_SUCCESS, Bool.not_false, if_true,
    FlashEraseSingleBlock_eq]

theorem UnlockAndEraseLoop_bounded (P : Platform σ) (BlockAddress : Nat)
    (hR : P.FLASH_ERASE_RETRY < 2 ^ 64) :
    ∀ (B i : Nat) (D : Driver σ), i + B = P.FLASH_ERASE_RETRY → 0 < B →
      ∃ n, 1 ≤ n ∧ i + n ≤ P.FLASH_ERASE_RETRY ∧
        UnlockAndEraseLoop P BlockAddress B i D =
          (EraseAttemptStatus P (BlockEraseOffset D.Instance BlockAddress)
              D.Instance.Media.BlockSize (n - 1) D.Flash,
            { D with
              Flash := FlashAfterErases P (BlockEraseOffset D.Instance BlockAddress)
                D.Instance.Media.BlockSize n D.Flash
              Trace := D.Trace ++ List.replicate n
                (Event.Erase (BlockEraseOffset D.Instance BlockAddress)
                  D.Instance.Media.BlockSize) }) ∧
        (∀ k, k + 1 < n → EraseAttemptStatus P (BlockEraseOffset D.Instance BlockAddress)
          D.Instance.Media.BlockSize k D.Flash = EFI_WRITE_PROTECTED) ∧
        (i + n < P.FLASH_ERASE_RETRY →
          EraseAttemptStatus P (BlockEraseOffset D.Instance BlockAddress)
            D.Instance.Media.BlockSize (n - 1) D.Flash ≠ EFI_WRITE_PROTECTED) := by
  intro B
  induction B with
  | zero => intro i D _ h; omega
  | succ b ih =>
    intro i D hib _
    rw [UnlockAndEraseLoop]
    simp only [erase_attempt_eq]
    have hi : (i + 1) % 2 ^ 64 = i + 1 := by omega
    rw [hi]
    by_cases hc : i + 1 < P.FLASH_ERASE_RETRY ∧
        (DeviceErase P D (BlockEraseOffset D.Instance BlockAddress)
          D.Instance.Media.BlockSize).1 = EFI_WRITE_PROTECTED
    · rw [if_pos hc]
      obtain ⟨n, hn1, hn2, heq, hall, hlast⟩ := ih (i + 1)
        (DeviceErase P D (BlockEraseOffset D.Instance BlockAddress)
          D.Instance.Media.BlockSize).2 (by omega) (by omega)
      refine ⟨n + 1, by omega, by omega, ?_, ?_, ?_⟩
      · rw [heq]
        obtain ⟨m, rfl⟩ : ∃ m, n = m + 1 := ⟨n - 1, by omega⟩
        simp only [DeviceErase, EraseAttemptStatus, FlashAfterErases, Nat.add_sub_cancel,
          List.replicate_succ, List.append_assoc, List.singleton_append]
      · intro k hk
        cases k with
        | zero => exact hc.2
        | succ k =>
          have := hall k (by omega)
          simpa only [DeviceErase, EraseAttemptStatus, FlashAfterErases] using this
      · intro hlt
        obtain ⟨m, rfl⟩ : ∃ m, n = m + 1 := ⟨n - 1, by omega⟩
        have := hlast (by omega)
        simpa only [DeviceErase, EraseAttemptStatus, FlashAfterErases, Nat.add_sub_cancel]
          using this
    · rw [if_neg hc]
      refine ⟨1, le_refl 1, by omega, rfl, ?_, ?_⟩
      · intro k hk; omega
      · intro hlt h
        exact hc ⟨hlt, h⟩

theorem FlashUnlockAndEraseSingleBlock_bounded (P : Platform σ) (D : Driver σ)
    (BlockAddress : Nat) (hR0 : 0 < P.FLASH_ERASE_RETRY) (hR : P.FLASH_ERASE_RETRY < 2 ^ 64) :
    ∃ n, 1 ≤ n ∧ n ≤ P.FLASH_ERASE_RETRY ∧
      FlashUnlockAndEraseSingleBlock P D BlockAddress =
        (EraseAttemptStatus P (BlockEraseOffset D.Instance BlockAddress)
            D.Instance.Media.BlockSize (n - 1) D.Flash,
          { D with
            Flash := FlashAfterErases P (BlockEraseOffset D.Instance BlockAddress)
              D.Instance.Media.BlockSize n D.Flash
            Trace := D.Trace ++ List.replicate n
              (Event.Erase (BlockEraseOffset D.Instance BlockAddress)
                D.Instance.Media.BlockSize) }) ∧
      (∀ k, k + 1 < n → EraseAttemptStatus P (BlockEraseOffset D.Instance BlockAddress)
        D.Instance.Media.BlockSize k D.Flash = EFI_WRITE_PROTECTED) ∧
      (n < P.FLASH_ERASE_RETRY →
        EraseAttemptStatus P (BlockEraseOffset D.Instance BlockAddress)
          D.Instance.Media.BlockSize (n - 1) D.Flash ≠ EFI_WRITE_PROTECTED) := by
  obtain ⟨n, h1, h2, h3, h4, h5⟩ := UnlockAndEraseLoop_bounded P BlockAddress hR
    P.FLASH_ERASE_RETRY 0 D (by omega) hR0
  exact ⟨n, h1, by omega, h3, h4, fun h => h5 (by omega)⟩

theorem EraseRange_eq_EraseSeq (P : Platform σ) :
    ∀ (n s : Nat) (st : EFI_STATUS) (D : Driver σ),
      EraseRange P n s st D = EraseSeq P (RangeBlocks n s) st D := by
  intro n
  induction n with
  | zero => intro s st D; rfl
  | succ n ih =>
    intro s st D
    rw [EraseRange, RangeBlocks, EraseSeq]
    simp only [ih, EraseBlockAddress]

theorem EraseSeq_append (P : Platform σ) :
    ∀ (l1 l2 : List Nat) (st : EFI_STATUS) (D : Driver σ),
      EraseSeq P (l1 ++ l2) st D =
        if (EraseSeq P l1 st D).2.1 = true then EraseSeq P l1 st D
        else EraseSeq P l2 (EraseSeq P l1 st D).1 (EraseSeq P l1 st D).2.2 := by
  intro l1
  induction l1 with
  | nil => intro l2 st D; simp [EraseSeq]
  | cons b l1 ih =>
    intro l2 st D
    rw [List.cons_append, EraseSeq, EraseSeq]
    split
    · simp
    · exact ih _ _ _

theorem EraseArgs_eq_EraseSeq (P : Platform σ) :
    ∀ (Args : List (Nat × Nat)) (st : EFI_STATUS) (D : Driver σ),
      EraseArgs P Args st D =
        ((EraseSeq P (BlockList Args) st D).1, (EraseSeq P (BlockList Args) st D).2.2) := by
  intro Args
  induction Args with
  | nil => intro st D; rfl
  | cons x Args ih =>
    intro st D
    obtain ⟨s, n⟩ := x
    rw [EraseArgs, BlockList]
    by_cases hT : s = EFI_LBA_LIST_TERMINATOR
    · rw [if_pos hT, if_pos hT]; rfl
    · rw [if_neg hT, if_neg hT]
      simp only [EraseRange_eq_EraseSeq, EraseSeq_append]
      split
      · rfl
      · exact ih _ _

theorem FvbEraseBlocks_eq_EraseSeq (P : Platform σ) (D : Driver σ) (Args : List (Nat × Nat))
    (hrw : D.Instance.Media.ReadOnly = false) (hv : EraseArgsValid D.Instance Args = true) :
    FvbEraseBlocks P D Args =
      ((EraseSeq P (BlockList Args) EFI_SUCCESS D).1,
        (EraseSeq P (BlockList Args) EFI_SUCCESS D).2.2) := by
  rw [FvbEraseBlocks, if_neg (by rw [hrw]; decide), if_neg (by rw [hv]; decide)]
  exact EraseArgs_eq_EraseSeq P Args _ D

theorem EraseSeq_abort (P : Platform σ) (Pre Post : List Nat) (Lba : Nat)
    (st st1 : EFI_STATUS) (D D1 : Driver σ)
    (hpre : EraseSeq P Pre st D = (st1, false, D1))
    (hfail : EFI_ERROR
      (FlashUnlockAndEraseSingleBlock P D1 (EraseBlockAddress D1.Instance Lba)).1 = true) :
    EraseSeq P (Pre ++ Lba :: Post) st D =
      (EFI_DEVICE_ERROR, true,
        (FlashUnlockAndEraseSingleBlock P D1 (EraseBlockAddress D1.Instance Lba)).2) := by
  rw [EraseSeq_append, hpre]
  simp only [Bool.false_eq_true, if_false]
  rw [EraseSeq]
  simp only [hfail, if_true]

theorem UnlockAndEraseLoop_trace_extends (P : Platform σ) (a : Nat) :
    ∀ (B i : Nat) (D : Driver σ), D.Trace <+: (UnlockAndEraseLoop P a B i D).2.Trace := by
  intro B
  induction B with
  | zero =>
    intro i D
    rw [UnlockAndEraseLoop]
    simp only [erase_attempt_eq, DeviceErase]
    exact ⟨_, rfl⟩
  | succ B ihB =>
    intro i D
    rw [UnlockAndEraseLoop]
    simp only [erase_attempt_eq]
    split
    · refine List.IsPrefix.trans ?_ (ihB _ _)
      exact ⟨_, rfl⟩
    · exact ⟨_, rfl⟩

theorem EraseSeq_trace_extends (P : Platform σ) :
    ∀ (l : List Nat) (st : EFI_STATUS) (D : Driver σ),
      D.Trace <+: (EraseSeq P l st D).2.2.Trace := by
  intro l
  induction l with
  | nil => intro st D; exact ⟨[], List.append_nil _⟩
  | cons b l ih =>
    intro st D
    have h1 : D.Trace <+:
        (FlashUnlockAndEraseSingleBlock P D (EraseBlockAddress D.Instance b)).2.Trace :=
      UnlockAndEraseLoop_trace_extends P _ _ _ D
    rw [EraseSeq]
    split
    · exact h1
    · exact h1.trans (ih _ _)

theorem EraseSeq_config (P : Platform σ) :
    ∀ (l : List Nat) (st : EFI_STATUS) (D : Driver σ), SameConfig D (EraseSeq P l st D).2.2 := by
  intro l
  induction l with
  | nil => intro st D; exact SameConfig.refl D
  | cons b l ih =>
    intro st D
    rw [EraseSeq]
    split
    · exact FlashUnlockAndEraseSingleBlock_config _ _ _
    · exact SameConfig.trans (FlashUnlockAndEraseSingleBlock_config _ _ _) (ih _ _)

/-! ### The erase pass on a device whose erase succeeds -/

theorem FlashUnlockAndEraseSingleBlock_success (P : Platform σ) (D : Driver σ)
    (BlockAddress : Nat)
    (herase : ∀ s o l, (P.mFlash.Erase s o l).1 = EFI_SUCCESS) :
    FlashUnlockAndEraseSingleBlock P D BlockAddress =
      (EFI_SUCCESS,
        { D with
          Flash := (P.mFlash.Erase D.Flash (BlockEraseOffset D.Instance BlockAddress)
            D.Instance.Media.BlockSize).2
          Trace := D.Trace ++ [Event.Erase (BlockEraseOffset D.Instance BlockAddress)
            D.Instance.Media.BlockSize] }) := by
  have hne : ¬ (EFI_SUCCESS = EFI_WRITE_PROTECTED) := by decide
  unfold FlashUnlockAndEraseSingleBlock
  cases P.FLASH_ERASE_RETRY with
  | zero =>
    rw [UnlockAndEraseLoop]
    simp only [erase_attempt_eq, DeviceErase, herase]
  | succ B =>
    rw [UnlockAndEraseLoop]
    simp only [erase_attempt_eq, DeviceErase, herase, hne, and_false, if_false]

theorem EraseSeq_success (P : Platform σ)
    (herase : ∀ s o l, (P.mFlash.Erase s o l).1 = EFI_SUCCESS) :
    ∀ (l : List Nat) (D : Driver σ),
      ∃ D', EraseSeq P l EFI_SUCCESS D = (EFI_SUCCESS, false, D') ∧ SameConfig D D' ∧
        D'.Trace = D.Trace ++ l.map (EraseEvent D.Instance) := by
  intro l
  induction l with
  | nil => intro D; exact ⟨D, rfl, SameConfig.refl D, by simp⟩
  | cons b l ih =>
    intro D
    rw [EraseSeq]
    simp only [FlashUnlockAndEraseSingleBlock_success P D _ herase, EFI_ERROR_SUCCESS,
      Bool.false_eq_true, if_false]
    obtain ⟨D', h1, h2, h3⟩ := ih
      { D with
        Flash := (P.mFlash.Erase D.Flash
          (BlockEraseOffset D.Instance (EraseBlockAddress D.Instance b))
          D.Instance.Media.BlockSize).2
        Trace := D.Trace ++ [Event.Erase
          (BlockEraseOffset D.Instance (EraseBlockAddress D.Instance b))
          D.Instance.Media.BlockSize] }
    refine ⟨D', h1, h2, ?_⟩
    rw [h3]
    simp only [List.map_cons, List.append_assoc, List.singleton_append, EraseEvent]

theorem FvbEraseBlocks_success (P : Platform σ) (D : Driver σ) (Args : List (Nat × Nat))
    (hrw : D.Instance.Media.ReadOnly = false) (hv : EraseArgsValid D.Instance Args = true)
    (herase : ∀ s o l, (P.mFlash.Erase s o l).1 = EFI_SUCCESS) :
    ∃ D', FvbEraseBlocks P D Args = (EFI_SUCCESS, D') ∧ SameConfig D D' ∧
      D'.Trace = D.Trace ++ (BlockList Args).map (EraseEvent D.Instance) := by
  obtain ⟨D', h1, h2, h3⟩ := EraseSeq_success P herase (BlockList Args) D
  refine ⟨D', ?_, h2, h3⟩
  rw [FvbEraseBlocks_eq_EraseSeq P D Args hrw hv, h1]

/-! ### Exact arithmetic on ranges that lie within the volume -/

theorem RangeBlocks_exact : ∀ (n s : Nat), s + n ≤ 2 ^ 64 → RangeBlocks n s = List.range' s n := by
  intro n
  induction n with
  | zero => intro s _; rfl
  | succ n ih =>
    intro s h
    rw [RangeBlocks, List.range'_succ]
    cases n with
    | zero => rfl
    | succ m =>
      have e : (s + 1) % 2 ^ 64 = s + 1 := by omega
      rw [e, ih (s + 1) (by omega)]

theorem BlockList_exact (I : FLASH_INSTANCE) (hLast : I.Media.LastBlock + 1 < 2 ^ 64) :
    ∀ Args : List (Nat × Nat),
      (∀ r ∈ Args, 1 ≤ r.2 ∧ r.2 < 2 ^ 32 ∧ I.StartLba + r.1 + r.2 ≤ I.Media.LastBlock + 1) →
      BlockList Args = SpecBlocks Args ∧ EraseArgsValid I Args = true ∧
        ∀ b ∈ SpecBlocks Args, I.StartLba + b ≤ I.Media.LastBlock := by
  intro Args
  induction Args with
  | nil => intro _; exact ⟨rfl, rfl, by intro b hb; cases hb⟩
  | cons x Args ih =>
    intro h
    obtain ⟨s, n⟩ := x
    obtain ⟨h1, h2, h3⟩ := h (s, n) (List.mem_cons_self _ _)
    obtain ⟨i1, i2, i3⟩ := ih (fun r hr => h r (List.mem_cons_of_mem _ hr))
    simp only at h1 h2 h3
    have hT : s ≠ EFI_LBA_LIST_TERMINATOR := by
      unfold EFI_LBA_LIST_TERMINATOR; omega
    have hn : n % 2 ^ 32 = n := by omega
    refine ⟨?_, ?_, ?_⟩
    · rw [BlockList, if_neg hT, hn, RangeBlocks_exact n s (by omega), i1, SpecBlocks]
    · rw [EraseArgsValid, if_neg hT]
      simp only [hn]
      rw [if_neg (by omega)]
      exact i2
    · intro b hb
      rw [SpecBlocks, List.mem_append] at hb
      rcases hb with hb | hb
      · rw [List.mem_range'_1] at hb
        omega
      · exact i3 b hb

theorem EraseEvent_exact (I : FLASH_INSTANCE) (Lba : Nat)
    (hin : I.StartLba + Lba ≤ I.Media.LastBlock)
    (hLast : I.Media.LastBlock + 1 < 2 ^ 64)
    (hdev : I.DeviceBaseAddress ≤ I.RegionBaseAddress)
    (h64 : I.RegionBaseAddress + I.Media.LastBlock * I.Media.BlockSize < 2 ^ 64)
    (h32 : I.RegionBaseAddress + I.Media.LastBlock * I.Media.BlockSize <
      I.DeviceBaseAddress + 2 ^ 32) :
    EraseEvent I Lba = SpecEraseEvent I Lba := by
  have hm : (I.StartLba + Lba) * I.Media.BlockSize ≤ I.Media.LastBlock * I.Media.BlockSize :=
    Nat.mul_le_mul_right _ hin
  have e : (I.StartLba + Lba) % 2 ^ 64 = I.StartLba + Lba := by omega
  unfold EraseEvent SpecEraseEvent BlockEraseOffset EraseBlockAddress GET_BLOCK_ADDRESS
  rw [e]
  generalize (I.StartLba + Lba) * I.Media.BlockSize = m at *
  generalize I.Media.LastBlock * I.Media.BlockSize = M at *
  congr 1
  omega

theorem EraseEvents_exact (I : FLASH_INSTANCE) (Args : List (Nat × Nat))
    (hLast : I.Media.LastBlock + 1 < 2 ^ 64)
    (hdev : I.DeviceBaseAddress ≤ I.RegionBaseAddress)
    (h64 : I.RegionBaseAddress + I.Media.LastBlock * I.Media.BlockSize < 2 ^ 64)
    (h32 : I.RegionBaseAddress + I.Media.LastBlock * I.Media.BlockSize <
      I.DeviceBaseAddress + 2 ^ 32)
    (hin : ∀ r ∈ Args, 1 ≤ r.2 ∧ r.2 < 2 ^ 32 ∧
      I.StartLba + r.1 + r.2 ≤ I.Media.LastBlock + 1) :
    EraseArgsValid I Args = true ∧
      (BlockList Args).map (EraseEvent I) = (SpecBlocks Args).map (SpecEraseEvent I) := by
  obtain ⟨h1, h2, h3⟩ := BlockList_exact I hLast Args hin
  refine ⟨h2, ?_⟩
  rw [h1]
  exact List.map_congr_left fun b hb => EraseEvent_exact I b (h3 b hb) hLast hdev h64 h32

theorem SpecBlocks_length : ∀ Args : List (Nat × Nat),
    (SpecBlocks Args).length = (Args.map Prod.snd).sum := by
  intro Args
  induction Args with
  | nil => rfl
  | cons x Args ih =>
    obtain ⟨s, n⟩ := x
    simp only [SpecBlocks, List.length_append, List.length_range', ih, List.map_cons,
      List.sum_cons]

theorem DeviceErases_append_erases (t : List Event) (I : FLASH_INSTANCE) (l : List Nat) :
    DeviceErases (t ++ l.map (SpecEraseEvent I)) = DeviceErases t + l.length := by
  unfold DeviceErases
  rw [List.countP_append]
  congr 1
  induction l with
  | nil => rfl
  | cons b l ih =>
    rw [List.map_cons, List.countP_cons_of_pos, ih, List.length_cons]
    rfl

theorem DeviceErases_append_map (t : List Event) (f : Nat → Event)
    (hf : ∀ b, IsErase (f b) = true) (l : List Nat) :
    DeviceErases (t ++ l.map f) = DeviceErases t + l.length := by
  unfold DeviceErases
  rw [List.countP_append]
  congr 1
  induction l with
  | nil => rfl
  | cons b l ih => rw [List.map_cons, List.countP_cons_of_pos _ _ (hf b), ih, List.length_cons]

theorem DeviceWrites_append_map (t : List Event) (f : Nat → Event)
    (hf : ∀ b, IsErase (f b) = true) (l : List Nat) :
    DeviceWrites (t ++ l.map f) = DeviceWrites t := by
  unfold DeviceWrites
  rw [List.countP_append]
  have : List.countP IsWrite (l.map f) = 0 := by
    induction l with
    | nil => rfl
    | cons b l ih =>
      rw [List.map_cons, List.countP_cons_of_neg, ih]
      have := hf b
      cases h : f b <;> simp_all [IsErase, IsWrite]
  omega

theorem FvbInitializeFlat_invalid (P : Platform σ) (D : Driver σ)
    (hrw : D.Instance.Media.ReadOnly = false)
    (hB : 100 ≤ D.Instance.Media.BlockSize) (hB32 : D.Instance.Media.BlockSize < 2 ^ 32)
    (hLast : D.Instance.Media.LastBlock < 2 ^ 64)
    (hbase : D.Instance.RegionBaseAddress ≤ P.Pcd.PcdFlashNvStorageVariableBase64)
    (h64 : P.Pcd.PcdFlashNvStorageVariableBase64 < 2 ^ 64)
    (hinvalid : ValidateFvHeader P.Pcd D.Instance (P.mFlash.Mapped D.Flash) ≠ EFI_SUCCESS)
    (hN : 1 ≤ ConfiguredFvLength P.Pcd / D.Instance.Media.BlockSize)
    (hcover : (P.Pcd.PcdFlashNvStorageVariableBase64 - D.Instance.RegionBaseAddress) /
        D.Instance.Media.BlockSize + ConfiguredFvLength P.Pcd / D.Instance.Media.BlockSize ≤
      D.Instance.Media.LastBlock + 1)
    (herase : ∀ s o l, (P.mFlash.Erase s o l).1 = EFI_SUCCESS)
    (hwrite : ∀ s o b l, (P.mFlash.Write s o b l).1 = EFI_SUCCESS) :
    ∃ D', FvbInitializeFlat P D = (EFI_SUCCESS, D') ∧
      D'.Instance = (InitPrologue P D).Instance ∧
      D'.Trace = D.Trace ++ [Event.Validate] ++
        (List.range' 0 (ConfiguredFvLength P.Pcd / D.Instance.Media.BlockSize)).map
          (EraseEvent (InitPrologue P D).Instance) ++
        [Event.Install, Event.Write (TransferAddress (InitPrologue P D).Instance 0 0)
          (BuildHeaders P.Pcd (InitPrologue P D).Instance) 100] := by
  have hnf : ValidateFvHeader P.Pcd (InitPrologue P D).Instance
      (P.mFlash.Mapped (InitPrologue P D).Flash) = EFI_NOT_FOUND := by
    rcases ValidateFvHeader_cases P.Pcd D.Instance (P.mFlash.Mapped D.Flash) with h | h
    · exact absurd h hinvalid
    · rw [← h]; exact ValidateFvHeader_congr _ _ _ _ rfl
  have hs : (InitPrologue P D).Instance.StartLba =
      (P.Pcd.PcdFlashNvStorageVariableBase64 - D.Instance.RegionBaseAddress) /
        D.Instance.Media.BlockSize := by
    have e : (PcdGet64 P.Pcd.PcdFlashNvStorageVariableBase64 +
        (2 ^ 64 - D.Instance.RegionBaseAddress % 2 ^ 64)) % 2 ^ 64 =
        P.Pcd.PcdFlashNvStorageVariableBase64 - D.Instance.RegionBaseAddress := by
      unfold PcdGet64; omega
    simp only [InitPrologue, e]
  have hlt : ConfiguredFvLength P.Pcd < 2 ^ 32 := by unfold ConfiguredFvLength; omega
  have hNle : ConfiguredFvLength P.Pcd / D.Instance.Media.BlockSize ≤ ConfiguredFvLength P.Pcd :=
    Nat.div_le_self _ _
  generalize hNdef : ConfiguredFvLength P.Pcd / D.Instance.Media.BlockSize = N at *
  have hN32 : N % 2 ^ 32 = N := by omega
  have hLB : (InitPrologue P D).Instance.Media.LastBlock = D.Instance.Media.LastBlock := rfl
  have hvalidArgs : EraseArgsValid (InitPrologue P D).Instance [(0, N)] = true := by
    rw [EraseArgsValid, if_neg (by decide)]
    simp only [hN32]
    rw [if_neg (by rw [hs, hLB]; omega)]
    rfl
  obtain ⟨D1, he, hc, ht⟩ := FvbEraseBlocks_success P (InitPrologue P D) [(0, N)] hrw
    hvalidArgs herase
  have hbl : BlockList [(0, N)] = List.range' 0 N := by
    rw [BlockList, if_neg (by decide), hN32, RangeBlocks_exact N 0 (by omega)]
    simp [BlockList]
  rw [hbl, InitPrologue_trace] at ht
  have he2 : FvbEraseBlocks P (InitPrologue P D)
      [(0, (PcdGet32 P.Pcd.PcdFlashNvStorageVariableSize +
        PcdGet32 P.Pcd.PcdFlashNvStorageFtwWorkingSize +
        PcdGet32 P.Pcd.PcdFlashNvStorageFtwSpareSize) % 2 ^ 32 /
          (InitPrologue P D).Instance.Media.BlockSize)] = (EFI_SUCCESS, D1) := by
    rw [← he, ← hNdef]; rfl
  have hrw1 : (D1.log Event.Install).Instance.Media.ReadOnly = false := by
    show D1.Instance.Media.ReadOnly = false
    rw [hc.1]; exact hrw
  have hB1 : (D1.log Event.Install).Instance.Media.BlockSize = D.Instance.Media.BlockSize := by
    show D1.Instance.Media.BlockSize = _
    rw [hc.1]; rfl
  refine ⟨(DeviceWrite P (D1.log Event.Install)
      (TransferAddress (InitPrologue P D).Instance 0 0)
      (BuildHeaders P.Pcd (InitPrologue P D).Instance) 100).2, ?_, ?_, ?_⟩
  · unfold FvbInitializeFlat
    simp only [hnf, EFI_ERROR_NOT_FOUND, if_true, he2, EFI_ERROR_SUCCESS, Bool.false_eq_true,
      if_false]
    rw [FvbWriteBody_eq P _ 0 0 100 _ hrw1 (by rw [hB1]; exact hB32) (by decide) (by decide),
      if_pos ⟨by decide, by rw [hB1]; omega⟩]
    have hi : (D1.log Event.Install).Instance = (InitPrologue P D).Instance := hc.1
    rw [hi, hc.1]
    exact Prod.ext (hwrite _ _ _ _) rfl
  · exact hc.1
  · simp only [DeviceWrite, Driver.log, ht, List.append_assoc, List.singleton_append,
      List.cons_append, List.nil_append]

/-! ## Claims C11 to C20 -/

/-- C11 (evaluation at the failing input). The device write returns write-protected on an
initialized writable instance: FvbWrite makes the one device write at the expected
offset and returns write-protected, not device error; FvbRead on the same device maps
the failure to device error. -/
theorem FvbWrite_returns_device_status :
    (FvbWrite (StatusPlatform EFI_WRITE_PROTECTED) 1 ReadyDriver 1 0x10 4 [1, 2, 3, 4]).trace =
      [Event.Write 0x11010 [1, 2, 3, 4] 4] ∧
    (FvbWrite (StatusPlatform EFI_WRITE_PROTECTED) 1 ReadyDriver 1 0x10 4 [1, 2, 3, 4]).status =
      some EFI_WRITE_PROTECTED ∧
    EFI_WRITE_PROTECTED ≠ EFI_DEVICE_ERROR ∧
    (FvbRead (StatusPlatform EFI_WRITE_PROTECTED) 1 ReadyDriver 1 0x10 4 []).status =
      some EFI_DEVICE_ERROR := by
  decide

/-- C12. Bounded erase retry and abort, for a retry constant between 1 and 2^64 - 1.
First part: for every state and block address FlashUnlockAndEraseSingleBlock makes `n`
device erase calls with 1 <= n <= FLASH_ERASE_RETRY, all for the same offset and the
block size; every attempt before the last reported write-protected, the status returned
is that of the last attempt, and when fewer than FLASH_ERASE_RETRY attempts were made
that status is not write-protected. Second part: when the blocks `Pre` of a validated
request on a writable instance were erased without error, leaving state `D1`, and the
erase of the next block `Lba` reports an error, FvbEraseBlocks returns device error and
its trace is that of `D1` followed by the attempts for `Lba` only: nothing is issued
for the blocks `Post`, and the calls already made stand. -/
theorem bounded_erase_retry_and_abort (P : Platform σ) (hR0 : 0 < P.FLASH_ERASE_RETRY)
    (hR : P.FLASH_ERASE_RETRY < 2 ^ 64) :
    (∀ (D : Driver σ) (BlockAddress : Nat),
      ∃ n, 1 ≤ n ∧ n ≤ P.FLASH_ERASE_RETRY ∧
        FlashUnlockAndEraseSingleBlock P D BlockAddress =
          (EraseAttemptStatus P (BlockEraseOffset D.Instance BlockAddress)
              D.Instance.Media.BlockSize (n - 1) D.Flash,
            { D with
              Flash := FlashAfterErases P (BlockEraseOffset D.Instance BlockAddress)
                D.Instance.Media.BlockSize n D.Flash
              Trace := D.Trace ++ List.replicate n
                (Event.Erase (BlockEraseOffset D.Instance BlockAddress)
                  D.Instance.Media.BlockSize) }) ∧
        (∀ k, k + 1 < n → EraseAttemptStatus P (BlockEraseOffset D.Instance BlockAddress)
          D.Instance.Media.BlockSize k D.Flash = EFI_WRITE_PROTECTED) ∧
        (n < P.FLASH_ERASE_RETRY →
          EraseAttemptStatus P (BlockEraseOffset D.Instance BlockAddress)
            D.Instance.Media.BlockSize (n - 1) D.Flash ≠ EFI_WRITE_PROTECTED)) ∧
    (∀ (D D1 : Driver σ) (Args : List (Nat × Nat)) (Pre Post : List Nat) (Lba : Nat)
        (st1 : EFI_STATUS),
      D.Instance.Media.ReadOnly = false → EraseArgsValid D.Instance Args = true →
      BlockList Args = Pre ++ Lba :: Post →
      EraseSeq P Pre EFI_SUCCESS D = (st1, false, D1) →
      EFI_ERROR (FlashUnlockAndEraseSingleBlock P D1
        (EraseBlockAddress D1.Instance Lba)).1 = true →
      ∃ n, 1 ≤ n ∧ n ≤ P.FLASH_ERASE_RETRY ∧
        (FvbEraseBlocks P D Args).1 = EFI_DEVICE_ERROR ∧
        (FvbEraseBlocks P D Args).2.Trace =
          D1.Trace ++ List.replicate n (EraseEvent D.Instance Lba) ∧
        D.Trace <+: D1.Trace) := by
  refine ⟨fun D BlockAddress => FlashUnlockAndEraseSingleBlock_bounded P D BlockAddress hR0 hR,
    ?_⟩
  intro D D1 Args Pre Post Lba st1 hrw hv hsplit hpre hfail
  obtain ⟨n, h1, h2, h3, -, -⟩ := FlashUnlockAndEraseSingleBlock_bounded P D1
    (EraseBlockAddress D1.Instance Lba) hR0 hR
  have hI : D1.Instance = D.Instance := by
    have := (EraseSeq_config P Pre EFI_SUCCESS D).1
    rw [hpre] at this
    exact this
  have hp : D.Trace <+: D1.Trace := by
    have := EraseSeq_trace_extends P Pre EFI_SUCCESS D
    rw [hpre] at this
    exact this
  have hab := EraseSeq_abort P Pre Post Lba EFI_SUCCESS st1 D D1 hpre hfail
  rw [FvbEraseBlocks_eq_EraseSeq P D Args hrw hv, hsplit, hab, h3]
  refine ⟨n, h1, h2, rfl, ?_, hp⟩
  simp only [EraseEvent, hI]

/-- C12 (witness). The device erases twice and then reports write-protected, the retry
constant is 3: of the request for blocks 0, 1 and 2 the first two are erased once, the
third is tried at most three times, and FvbEraseBlocks returns device error. -/
theorem bounded_erase_retry_and_abort_witness :
    ∃ n, 1 ≤ n ∧ n ≤ 3 ∧
      (FvbEraseBlocks CountingPlatform CountingDriver [(0, 2), (2, 1)]).1 = EFI_DEVICE_ERROR ∧
      (FvbEraseBlocks CountingPlatform CountingDriver [(0, 2), (2, 1)]).2.Trace =
        [Event.Erase 0x1000 0x10000, Event.Erase 0x11000 0x10000] ++
          List.replicate n (Event.Erase 0x21000 0x10000) := by
  obtain ⟨n, h1, h2, h3, h4, -⟩ :=
    (bounded_erase_retry_and_abort CountingPlatform (by decide) (by decide)).2
      CountingDriver
      ⟨ReadyInstance, 0, 2, [Event.Erase 0x1000 0x10000, Event.Erase 0x11000 0x10000]⟩
      [(0, 2), (2, 1)] [0, 1] [] 2 EFI_SUCCESS (by decide) (by decide) (by decide) rfl
      (by decide)
  exact ⟨n, h1, h2, h3, h4⟩

/-- C13 (counterexamples). Two range lists that pass validation on a writable instance
with a device that always succeeds, and for which the device erase calls are not the
ones of the claim. On the instance of 0x10001 blocks, block 0x10000 is erased at device
offset 0x1000, the physical offset 0x100001000 cut to 32 bits. On the instance of three
blocks, the range of 3 blocks from 0xFFFFFFFFFFFFFFFE wraps around in the 64-bit sum of
the range check and is erased at 0xFFFE1000, 0xFFFF1000, 0x1000. -/
theorem FvbEraseBlocks_addresses_wrap :
    EraseArgsValid LargeInstance [(0x10000, 1)] = true ∧
    (FvbEraseBlocks GoodPlatform LargeDriver [(0x10000, 1)]).1 = EFI_SUCCESS ∧
    (FvbEraseBlocks GoodPlatform LargeDriver [(0x10000, 1)]).2.Trace =
      [Event.Erase 0x1000 0x10000] ∧
    (SpecBlocks [(0x10000, 1)]).map (SpecEraseEvent LargeInstance) =
      [Event.Erase 0x100001000 0x10000] ∧
    EraseArgsValid ReadyInstance [(0xFFFFFFFFFFFFFFFE, 3)] = true ∧
    (FvbEraseBlocks GoodPlatform ReadyDriver [(0xFFFFFFFFFFFFFFFE, 3)]).1 = EFI_SUCCESS ∧
    (FvbEraseBlocks GoodPlatform ReadyDriver [(0xFFFFFFFFFFFFFFFE, 3)]).2.Trace =
      [Event.Erase 0xFFFE1000 0x10000, Event.Erase 0xFFFF1000 0x10000,
        Event.Erase 0x1000 0x10000] ∧
    (FvbEraseBlocks GoodPlatform ReadyDriver [(0xFFFFFFFFFFFFFFFE, 3)]).2.Trace ≠
      (SpecBlocks [(0xFFFFFFFFFFFFFFFE, 3)]).map (SpecEraseEvent ReadyInstance) := by
  decide

/-- C13 (amended). Erase order and addresses: on a writable instance whose last block
lies in the 64-bit address space and within the 32-bit offset range of the device, with
a device whose erase always succeeds, for every list of non-empty ranges that lie
within the volume (startLba + lba + numBlocks <= lastBlock + 1), FvbEraseBlocks returns
success and appends to the trace exactly, range by range in list order and by ascending
LBA within each range, one erase call per block at regionBase + (startLba + lba) *
blockSize - deviceBase with length blockSize; the number of calls is the sum of the
numBlocks fields, and the instance is unchanged. -/
theorem FvbEraseBlocks_order_and_addresses (P : Platform σ) (D : Driver σ)
    (Args : List (Nat × Nat))
    (hrw : D.Instance.Media.ReadOnly = false)
    (herase : ∀ s o l, (P.mFlash.Erase s o l).1 = EFI_SUCCESS)
    (hLast : D.Instance.Media.LastBlock + 1 < 2 ^ 64)
    (hdev : D.Instance.DeviceBaseAddress ≤ D.Instance.RegionBaseAddress)
    (h64 : D.Instance.RegionBaseAddress +
      D.Instance.Media.LastBlock * D.Instance.Media.BlockSize < 2 ^ 64)
    (h32 : D.Instance.RegionBaseAddress +
      D.Instance.Media.LastBlock * D.Instance.Media.BlockSize <
        D.Instance.DeviceBaseAddress + 2 ^ 32)
    (hin : ∀ r ∈ Args, 1 ≤ r.2 ∧ r.2 < 2 ^ 32 ∧
      D.Instance.StartLba + r.1 + r.2 ≤ D.Instance.Media.LastBlock + 1) :
    ∃ D', FvbEraseBlocks P D Args = (EFI_SUCCESS, D') ∧
      D'.Trace = D.Trace ++ (SpecBlocks Args).map (SpecEraseEvent D.Instance) ∧
      DeviceErases D'.Trace = DeviceErases D.Trace + (Args.map Prod.snd).sum ∧
      D'.Instance = D.Instance := by
  obtain ⟨hv, hmap⟩ := EraseEvents_exact D.Instance Args hLast hdev h64 h32 hin
  obtain ⟨D', h1, h2, h3⟩ := FvbEraseBlocks_success P D Args hrw hv herase
  rw [hmap] at h3
  refine ⟨D', h1, h3, ?_, h2.1⟩
  rw [h3, DeviceErases_append_erases, SpecBlocks_length]

/-- C13 (witness). Blocks 0 and 1, then block 2, of the sample instance. -/
theorem FvbEraseBlocks_order_and_addresses_witness :
    ∃ D', FvbEraseBlocks GoodPlatform ReadyDriver [(0, 2), (2, 1)] = (EFI_SUCCESS, D') ∧
      D'.Trace = [Event.Erase 0x1000 0x10000, Event.Erase 0x11000 0x10000,
        Event.Erase 0x21000 0x10000] ∧
      DeviceErases D'.Trace = 3 ∧ D'.Instance = ReadyInstance :=
  FvbEraseBlocks_order_and_addresses GoodPlatform ReadyDriver [(0, 2), (2, 1)] (by decide)
    (fun _ _ _ => rfl) (by decide) (by decide) (by decide) (by decide) (by decide)

/-- C14. FvbGetBlockSize: for an instance whose block count LastBlock + 1 is a 64-bit
number and every 64-bit lba, the result is success with (BlockSize, LastBlock - lba + 1)
when lba <= LastBlock, so that lba + NumberOfBlocks = LastBlock + 1, and invalid
parameter with both outputs unwritten when lba > LastBlock; the state is unchanged. -/
theorem FvbGetBlockSize_spec (D : Driver σ) (Lba : Nat) (hL : Lba < 2 ^ 64)
    (hB : D.Instance.Media.BlockSize < 2 ^ 32) (hLast : D.Instance.Media.LastBlock + 1 < 2 ^ 64) :
    (Lba ≤ D.Instance.Media.LastBlock →
      FvbGetBlockSize D Lba =
        (EFI_SUCCESS, some (D.Instance.Media.BlockSize, D.Instance.Media.LastBlock - Lba + 1), D) ∧
      Lba + (D.Instance.Media.LastBlock - Lba + 1) = D.Instance.Media.LastBlock + 1) ∧
    (D.Instance.Media.LastBlock < Lba →
      FvbGetBlockSize D Lba = (EFI_INVALID_PARAMETER, none, D)) := by
  constructor
  · intro h
    have h1 : D.Instance.Media.BlockSize % 2 ^ 64 = D.Instance.Media.BlockSize := by omega
    have h2 : ((D.Instance.Media.LastBlock + (2 ^ 64 - Lba % 2 ^ 64)) % 2 ^ 64 + 1) % 2 ^ 64 =
        D.Instance.Media.LastBlock - Lba + 1 := by omega
    refine ⟨?_, by omega⟩
    rw [FvbGetBlockSize, if_neg (by omega), h1, h2]
  · intro h
    rw [FvbGetBlockSize, if_pos h]

/-- C14 (witness). Block 1 of the sample instance: two blocks of 0x10000 bytes remain. -/
theorem FvbGetBlockSize_spec_witness :
    FvbGetBlockSize ReadyDriver 1 = (EFI_SUCCESS, some (0x10000, 2), ReadyDriver) ∧
    FvbGetBlockSize ReadyDriver 3 = (EFI_INVALID_PARAMETER, none, ReadyDriver) := by
  have h := FvbGetBlockSize_spec ReadyDriver 1 (by decide) (by decide) (by decide)
  have h' := FvbGetBlockSize_spec ReadyDriver 3 (by decide) (by decide) (by decide)
  exact ⟨(h.1 (by decide)).1, h'.2 (by decide)⟩

/-- C15. FvbGetAttributes returns success, leaves the state unchanged, and its mask holds
read-enabled-capability, read-status, sticky-write, memory-mapped and erase-polarity in
every case, write-status and write-enabled-capability exactly when Media.ReadOnly is
false, and no other bit. -/
theorem FvbGetAttributes_spec (D : Driver σ) :
    (FvbGetAttributes D).1 = EFI_SUCCESS ∧ (FvbGetAttributes D).2.2 = D ∧
    (FvbGetAttributes D).2.1 &&& EFI_FVB2_READ_ENABLED_CAP = EFI_FVB2_READ_ENABLED_CAP ∧
    (FvbGetAttributes D).2.1 &&& EFI_FVB2_READ_STATUS = EFI_FVB2_READ_STATUS ∧
    (FvbGetAttributes D).2.1 &&& EFI_FVB2_STICKY_WRITE = EFI_FVB2_STICKY_WRITE ∧
    (FvbGetAttributes D).2.1 &&& EFI_FVB2_MEMORY_MAPPED = EFI_FVB2_MEMORY_MAPPED ∧
    (FvbGetAttributes D).2.1 &&& EFI_FVB2_ERASE_POLARITY = EFI_FVB2_ERASE_POLARITY ∧
    ((FvbGetAttributes D).2.1 &&& EFI_FVB2_WRITE_STATUS = EFI_FVB2_WRITE_STATUS ↔
      D.Instance.Media.ReadOnly = false) ∧
    ((FvbGetAttributes D).2.1 &&& EFI_FVB2_WRITE_ENABLED_CAP = EFI_FVB2_WRITE_ENABLED_CAP ↔
      D.Instance.Media.ReadOnly = false) ∧
    (FvbGetAttributes D).2.1 =
      if D.Instance.Media.ReadOnly = true then
        EFI_FVB2_READ_ENABLED_CAP + EFI_FVB2_READ_STATUS + EFI_FVB2_STICKY_WRITE +
          EFI_FVB2_MEMORY_MAPPED + EFI_FVB2_ERASE_POLARITY
      else
        EFI_FVB2_READ_ENABLED_CAP + EFI_FVB2_READ_STATUS + EFI_FVB2_STICKY_WRITE +
          EFI_FVB2_MEMORY_MAPPED + EFI_FVB2_ERASE_POLARITY + EFI_FVB2_WRITE_STATUS +
          EFI_FVB2_WRITE_ENABLED_CAP := by
  cases hro : D.Instance.Media.ReadOnly
  · simp only [FvbGetAttributes, hro]
    decide
  · simp only [FvbGetAttributes, hro]
    decide

/-- C16 (evaluation at the failing input). On the sample instance before any FvbRead or
FvbWrite, with PcdFlashNvStorageVariableBase64 = 0x2000, FvbGetPhysicalAddress returns
success and stores 0, the initial value of mFlashNvStorageVariableBase; once
FvbInitialize has run it stores 0x2000. -/
theorem FvbGetPhysicalAddress_before_initialization :
    GoodPlatform.Pcd.PcdFlashNvStorageVariableBase64 = 0x2000 ∧
    (FvbGetPhysicalAddress FreshDriver (some 0xFFFF)).1 = EFI_SUCCESS ∧
    (FvbGetPhysicalAddress FreshDriver (some 0xFFFF)).2.1 = some 0 ∧
    (FvbGetPhysicalAddress FreshDriver none).1 = EFI_UNSUPPORTED ∧
    ((FvbInitialize GoodPlatform 3 FreshDriver).driver.map
      fun D => (FvbGetPhysicalAddress D (some 0xFFFF)).2.1) = some (some 0x2000) := by
  decide

/-- C17. No initialization at runtime: on an instance that is not initialized and has the
hook, an FvbRead or FvbWrite made after the system has left boot-time context returns
unsupported and leaves buffer, instance, device and trace as they were. -/
theorem no_initialization_at_runtime (P : Platform σ) (fuel : Nat) (D : Driver σ)
    (Lba Offset NumBytes : Nat) (Buffer : List Nat)
    (hU : D.Instance.Initialized = false) (hH : D.Instance.Initialize = true)
    (hrt : P.EfiAtRuntime = true) :
    FvbRead P fuel D Lba Offset NumBytes Buffer = .ok (EFI_UNSUPPORTED, Buffer, D) ∧
    FvbWrite P (fuel + 1) D Lba Offset NumBytes Buffer = .ok (EFI_UNSUPPORTED, D) := by
  constructor
  · rw [FvbRead, hU, hH, hrt]
    rfl
  · rw [FvbWrite, hU, hH, hrt]
    rfl

/-- C17 (witness). The sample instance at runtime. -/
theorem no_initialization_at_runtime_witness :
    (FvbRead RuntimePlatform 4 FreshDriver 0 0 4 []).status = some EFI_UNSUPPORTED ∧
    (FvbWrite RuntimePlatform 4 FreshDriver 0 0 4 [1, 2, 3, 4]).trace = [] := by
  have h := no_initialization_at_runtime RuntimePlatform 3 FreshDriver 0 0 4 [1, 2, 3, 4]
    (by decide) (by decide) (by decide)
  have h' := no_initialization_at_runtime RuntimePlatform 4 FreshDriver 0 0 4 []
    (by decide) (by decide) (by decide)
  rw [h.2, h'.1]
  exact ⟨rfl, rfl⟩

/-- C18 (counterexample). With a variable area of 64 bytes the headers the driver itself
installs are accepted by ValidateFvHeader, although HeaderLength = 72 exceeds the size of
the variable area: the size field holds 0xFFFFFFF8, which is 64 - 72 reduced modulo
2^32 and not the difference of the two numbers. -/
theorem ValidateFvHeader_accepts_wrapped_size :
    ValidateFvHeader SmallPcd SmallInstance SmallMemory = EFI_SUCCESS ∧
    PcdGet32 SmallPcd.PcdFlashNvStorageVariableSize = 64 ∧
    ReadUint16 SmallMemory (SmallInstance.RegionBaseAddress + FvHeaderLength) = 72 ∧
    ReadUint32 SmallMemory (SmallInstance.RegionBaseAddress + 72 + VsSize) = 0xFFFFFFF8 ∧
    (ReadUint32 SmallMemory (SmallInstance.RegionBaseAddress + 72 + VsSize) : Int) ≠
      (64 : Int) - 72 := by
  decide

/-- C18 (amended). ValidateFvHeader is a total predicate on the region contents: it
returns success if and only if the revision and the signature equal the expected
constants, FvLength equals the sum of the three configured sizes reduced modulo 2^32,
the file-system GUID is the NV-data GUID, the 16-bit sum of the HeaderLength / 2 words
of the header is zero, the 16 bytes at offset HeaderLength are the variable GUID, and
the size field after them equals variableSize - HeaderLength reduced modulo 2^32; in
every other case it returns not-found. It is a function of the configuration, the
region base and the memory contents and returns nothing but the status. -/
theorem ValidateFvHeader_characterisation (Pcd : PCD) (I : FLASH_INSTANCE) (Mem : Memory) :
    (ValidateFvHeader Pcd I Mem = EFI_SUCCESS ↔
      ReadUint8 Mem (I.RegionBaseAddress + FvRevision) = EFI_FVH_REVISION ∧
      ReadUint32 Mem (I.RegionBaseAddress + FvSignature) = EFI_FVH_SIGNATURE ∧
      ReadUint64 Mem (I.RegionBaseAddress + FvFvLength) =
        (PcdGet32 Pcd.PcdFlashNvStorageVariableSize +
          PcdGet32 Pcd.PcdFlashNvStorageFtwWorkingSize +
          PcdGet32 Pcd.PcdFlashNvStorageFtwSpareSize) % 2 ^ 32 ∧
      CompareGuid Mem (I.RegionBaseAddress + FvFileSystemGuid) gEfiSystemNvDataFvGuid = true ∧
      CalculateSum16 Mem I.RegionBaseAddress
        (ReadUint16 Mem (I.RegionBaseAddress + FvHeaderLength)) = 0 ∧
      CompareGuid Mem
        (I.RegionBaseAddress + ReadUint16 Mem (I.RegionBaseAddress + FvHeaderLength) +
          VsSignature) gEfiVariableGuid = true ∧
      ReadUint32 Mem
        (I.RegionBaseAddress + ReadUint16 Mem (I.RegionBaseAddress + FvHeaderLength) + VsSize) =
        (PcdGet32 Pcd.PcdFlashNvStorageVariableSize + 2 ^ 32 -
          ReadUint16 Mem (I.RegionBaseAddress + FvHeaderLength)) % 2 ^ 32) ∧
    (ValidateFvHeader Pcd I Mem ≠ EFI_SUCCESS → ValidateFvHeader Pcd I Mem = EFI_NOT_FOUND) := by
  have hne : EFI_NOT_FOUND ≠ EFI_SUCCESS := by decide
  constructor
  · unfold ValidateFvHeader
    simp only []
    split_ifs with h1 h2 h3 h4 h5
    · simp only [hne, false_iff]
      rintro ⟨a, b, c, -⟩
      rcases h1 with h | h | h
      · exact h a
      · exact h b
      · exact h c
    · simp only [hne, false_iff]
      rintro ⟨-, -, -, d, -⟩
      rw [h2] at d
      exact absurd d (by decide)
    · simp only [hne, false_iff]
      rintro ⟨-, -, -, -, e, -⟩
      exact h3 e
    · simp only [hne, false_iff]
      rintro ⟨-, -, -, -, -, f, -⟩
      rw [h4] at f
      exact absurd f (by decide)
    · simp only [hne, false_iff]
      rintro ⟨-, -, -, -, -, -, g⟩
      exact h5 g
    · simp only [true_iff]
      push_neg at h1
      exact ⟨h1.1, h1.2.1, h1.2.2, by simpa using h2, not_not.mp h3, by simpa using h4,
        not_not.mp h5⟩
  · intro h
    rcases ValidateFvHeader_cases Pcd I Mem with h1 | h1
    · exact absurd h1 h
    · exact h1

/-- C19. Valid header means no media mutation: on an instance with a non-zero block size
whose region base is not above the configured NV-storage base and whose region holds a
header ValidateFvHeader accepts, FvbInitialize returns success, sets Initialized, sets
StartLba = (nvStorageBase - regionBase) / blockSize and calls the device neither for an
erase nor for a write. -/
theorem FvbInitialize_valid_header (P : Platform σ) (fuel : Nat) (D : Driver σ)
    (hB0 : D.Instance.Media.BlockSize ≠ 0)
    (hbase : D.Instance.RegionBaseAddress ≤ P.Pcd.PcdFlashNvStorageVariableBase64)
    (h64 : P.Pcd.PcdFlashNvStorageVariableBase64 < 2 ^ 64)
    (hvalid : ValidateFvHeader P.Pcd D.Instance (P.mFlash.Mapped D.Flash) = EFI_SUCCESS) :
    ∃ D', FvbInitialize P (fuel + 1) D = .ok (EFI_SUCCESS, D') ∧
      D'.Instance = { D.Instance with
        Initialized := true
        StartLba := (P.Pcd.PcdFlashNvStorageVariableBase64 - D.Instance.RegionBaseAddress) /
          D.Instance.Media.BlockSize } ∧
      D'.Flash = D.Flash ∧
      DeviceErases D'.Trace = DeviceErases D.Trace ∧
      DeviceWrites D'.Trace = DeviceWrites D.Trace := by
  have hv : ValidateFvHeader P.Pcd (InitPrologue P D).Instance
      (P.mFlash.Mapped (InitPrologue P D).Flash) = EFI_SUCCESS := by
    rw [← hvalid]; exact ValidateFvHeader_congr _ _ _ _ rfl
  have hs : (PcdGet64 P.Pcd.PcdFlashNvStorageVariableBase64 +
      (2 ^ 64 - D.Instance.RegionBaseAddress % 2 ^ 64)) % 2 ^ 64 =
      P.Pcd.PcdFlashNvStorageVariableBase64 - D.Instance.RegionBaseAddress := by
    unfold PcdGet64; omega
  refine ⟨InitPrologue P D, ?_, ?_, rfl, ?_, ?_⟩
  · rw [FvbInitialize, if_neg hB0]
    simp only [hv, EFI_ERROR_SUCCESS, Bool.false_eq_true, if_false]
  · simp only [InitPrologue, hs]
  · simp [InitPrologue, DeviceErases, List.countP_append, IsErase]
  · simp [InitPrologue, DeviceWrites, List.countP_append, IsWrite]

/-- C19 (witness). The sample instance on the store that holds valid headers. -/
theorem FvbInitialize_valid_header_witness :
    ∃ D', FvbInitialize FormattedPlatform 1 FreshDriver = .ok (EFI_SUCCESS, D') ∧
      D'.Instance.Initialized = true ∧ D'.Instance.StartLba = 0 ∧ D'.Trace = [Event.Validate] := by
  obtain ⟨D', h, hI, -, -, -⟩ := FvbInitialize_valid_header FormattedPlatform 0 FreshDriver
    (by decide) (by decide) (by decide) (by decide)
  refine ⟨D', h, by rw [hI], by rw [hI]; decide, ?_⟩
  have h2 : FvbInitialize FormattedPlatform 1 FreshDriver =
      .ok (EFI_SUCCESS, InitPrologue FormattedPlatform FreshDriver) := by
    rw [FvbInitialize, if_neg (by decide)]
    rfl
  rw [h2] at h
  injection h with h
  rw [← (Prod.mk.inj h).2]
  rfl

/-- C20 (counterexamples). Two writable uninitialized instances without a valid header
on a device whose operations all succeed, the region covering the reserved area. With
three blocks of 64 bytes and three areas of 64 bytes FvbInitialize erases the three
blocks and returns bad buffer size without any write: the headers are 100 bytes and
FvbWrite refuses more than one block. With blocks of 0x10000 bytes and three areas of
0x4000 bytes the block count is 0 and FvbInitialize returns invalid parameter without
any erase or write. -/
theorem FvbInitialize_install_refused :
    (FvbInitialize SmallPlatform 3 SmallDriver).status = some EFI_BAD_BUFFER_SIZE ∧
    (FvbInitialize SmallPlatform 3 SmallDriver).trace =
      [Event.Validate, Event.Erase 0x1000 64, Event.Erase 0x1040 64, Event.Erase 0x1080 64,
        Event.Install] ∧
    (FvbInitialize TinyPlatform 3 FreshDriver).status = some EFI_INVALID_PARAMETER ∧
    (FvbInitialize TinyPlatform 3 FreshDriver).trace = [Event.Validate] := by
  decide

/-- C20 (amended). Erase-then-install on an invalid header: for every writable instance
with a block size of at least 100 bytes whose header fails validation, whose reserved
area is at least one block and lies within the region, and whose device erases and
writes all succeed, FvbInitialize returns success, leaves the instance initialized, and
makes exactly these device calls after the validation: (variableSize + workingSize +
spareSize) / blockSize erase calls for consecutive blocks from LBA 0 of the volume, then
the single write of the 100 header bytes at offset 0 of LBA 0. -/
theorem FvbInitialize_erase_then_install (P : Platform σ) (fuel : Nat) (D : Driver σ)
    (hrw : D.Instance.Media.ReadOnly = false)
    (hB : 100 ≤ D.Instance.Media.BlockSize) (hB32 : D.Instance.Media.BlockSize < 2 ^ 32)
    (hLast : D.Instance.Media.LastBlock < 2 ^ 64)
    (hbase : D.Instance.RegionBaseAddress ≤ P.Pcd.PcdFlashNvStorageVariableBase64)
    (h64 : P.Pcd.PcdFlashNvStorageVariableBase64 < 2 ^ 64)
    (hinvalid : ValidateFvHeader P.Pcd D.Instance (P.mFlash.Mapped D.Flash) ≠ EFI_SUCCESS)
    (hN : 1 ≤ ConfiguredFvLength P.Pcd / D.Instance.Media.BlockSize)
    (hcover : (P.Pcd.PcdFlashNvStorageVariableBase64 - D.Instance.RegionBaseAddress) /
        D.Instance.Media.BlockSize + ConfiguredFvLength P.Pcd / D.Instance.Media.BlockSize ≤
      D.Instance.Media.LastBlock + 1)
    (herase : ∀ s o l, (P.mFlash.Erase s o l).1 = EFI_SUCCESS)
    (hwrite : ∀ s o b l, (P.mFlash.Write s o b l).1 = EFI_SUCCESS) :
    ∃ D', FvbInitialize P (fuel + 3) D = .ok (EFI_SUCCESS, D') ∧
      D'.Instance = (InitPrologue P D).Instance ∧ D'.Instance.Initialized = true ∧
      D'.Trace = D.Trace ++ [Event.Validate] ++
        (List.range' 0 (ConfiguredFvLength P.Pcd / D.Instance.Media.BlockSize)).map
          (EraseEvent (InitPrologue P D).Instance) ++
        [Event.Install, Event.Write (TransferAddress (InitPrologue P D).Instance 0 0)
          (BuildHeaders P.Pcd (InitPrologue P D).Instance) 100] ∧
      DeviceErases D'.Trace =
        DeviceErases D.Trace + ConfiguredFvLength P.Pcd / D.Instance.Media.BlockSize ∧
      DeviceWrites D'.Trace = DeviceWrites D.Trace + 1 := by
  obtain ⟨D', h1, h2, h3⟩ := FvbInitializeFlat_invalid P D hrw hB hB32 hLast hbase h64 hinvalid
    hN hcover herase hwrite
  refine ⟨D', ?_, h2, by rw [h2]; rfl, h3, ?_, ?_⟩
  · rw [FvbInitialize_flat P fuel D (by omega), h1]
  · rw [h3]
    unfold DeviceErases
    simp only [List.countP_append, List.countP_cons, List.countP_nil, IsErase]
    have := DeviceErases_append_map [] (EraseEvent (InitPrologue P D).Instance) (fun _ => rfl)
      (List.range' 0 (ConfiguredFvLength P.Pcd / D.Instance.Media.BlockSize))
    unfold DeviceErases at this
    simp only [List.nil_append, List.countP_nil, List.length_range', Nat.zero_add] at this
    rw [this]
    simp
  · rw [h3]
    unfold DeviceWrites
    simp only [List.countP_append, List.countP_cons, List.countP_nil, IsWrite]
    have := DeviceWrites_append_map [] (EraseEvent (InitPrologue P D).Instance) (fun _ => rfl)
      (List.range' 0 (ConfiguredFvLength P.Pcd / D.Instance.Media.BlockSize))
    unfold DeviceWrites at this
    simp only [List.nil_append, List.countP_nil] at this
    rw [this]
    simp

/-- C20 (witness). The sample instance on erased flash: three blocks are erased, then
the headers are written at device offset 0x1000. -/
theorem FvbInitialize_erase_then_install_witness :
    ∃ D', FvbInitialize GoodPlatform 3 FreshDriver = .ok (EFI_SUCCESS, D') ∧
      D'.Instance.Initialized = true ∧
      DeviceErases D'.Trace = 3 ∧ DeviceWrites D'.Trace = 1 := by
  obtain ⟨D', h1, -, h3, -, h5, h6⟩ := FvbInitialize_erase_then_install GoodPlatform 0
    FreshDriver (by decide) (by decide) (by decide) (by decide) (by decide) (by decide)
    (by decide) (by decide) (by decide) (fun _ _ _ => rfl) (fun _ _ _ _ => rfl)
  exact ⟨D', h1, h3, h5, h6⟩

/-! ## Lemmas: what the operations leave unchanged -/

theorem HookCalls_append_erases (t l : List Event) (h : ∀ e ∈ l, IsErase e = true) :
    HookCalls (t ++ l) = HookCalls t := by
  unfold HookCalls
  rw [List.count_append]
  have : List.count Event.Hook l = 0 := by
    rw [List.count_eq_zero]
    intro hm
    exact absurd (h _ hm) (by decide)
  omega

theorem UnlockAndEraseLoop_erases (P : Platform σ) (a : Nat) :
    ∀ (B i : Nat) (D : Driver σ),
      ∃ l, (UnlockAndEraseLoop P a B i D).2.Trace = D.Trace ++ l ∧ ∀ e ∈ l, IsErase e = true := by
  intro B
  induction B with
  | zero =>
    intro i D
    rw [UnlockAndEraseLoop]
    simp only [erase_attempt_eq, DeviceErase]
    exact ⟨_, rfl, by simp [IsErase]⟩
  | succ B ih =>
    intro i D
    rw [UnlockAndEraseLoop]
    simp only [erase_attempt_eq]
    split
    · obtain ⟨l, h1, h2⟩ := ih ((i + 1) % 2 ^ 64)
        (DeviceErase P D (BlockEraseOffset D.Instance a) D.Instance.Media.BlockSize).2
      refine ⟨Event.Erase (BlockEraseOffset D.Instance a) D.Instance.Media.BlockSize :: l,
        ?_, ?_⟩
      · rw [h1]
        simp only [DeviceErase, List.append_assoc, List.singleton_append]
      · intro e he
        rcases List.mem_cons.mp he with rfl | he
        · rfl
        · exact h2 e he
    · exact ⟨_, rfl, by simp [IsErase]⟩

theorem EraseRange_erases (P : Platform σ) :
    ∀ (n s : Nat) (st : EFI_STATUS) (D : Driver σ),
      ∃ l, (EraseRange P n s st D).2.2.Trace = D.Trace ++ l ∧ ∀ e ∈ l, IsErase e = true := by
  intro n
  induction n with
  | zero => intro s st D; exact ⟨[], (List.append_nil _).symm, by simp⟩
  | succ n ih =>
    intro s st D
    obtain ⟨l1, h1, h2⟩ := UnlockAndEraseLoop_erases P
      (GET_BLOCK_ADDRESS D.Instance.RegionBaseAddress ((D.Instance.StartLba + s) % 2 ^ 64)
        D.Instance.Media.BlockSize) P.FLASH_ERASE_RETRY 0 D
    rw [EraseRange]
    simp only [FlashUnlockAndEraseSingleBlock]
    split
    · exact ⟨l1, h1, h2⟩
    · obtain ⟨l2, h3, h4⟩ := ih ((s + 1) % 2 ^ 64)
        (UnlockAndEraseLoop P (GET_BLOCK_ADDRESS D.Instance.RegionBaseAddress
          ((D.Instance.StartLba + s) % 2 ^ 64) D.Instance.Media.BlockSize)
          P.FLASH_ERASE_RETRY 0 D).1
        (UnlockAndEraseLoop P (GET_BLOCK_ADDRESS D.Instance.RegionBaseAddress
          ((D.Instance.StartLba + s) % 2 ^ 64) D.Instance.Media.BlockSize)
          P.FLASH_ERASE_RETRY 0 D).2
      refine ⟨l1 ++ l2, ?_, ?_⟩
      · rw [h3, h1, List.append_assoc]
      · intro e he
        rcases List.mem_append.mp he with he | he
        · exact h2 e he
        · exact h4 e he

theorem EraseArgs_erases (P : Platform σ) :
    ∀ (Args : List (Nat × Nat)) (st : EFI_STATUS) (D : Driver σ),
      ∃ l, (EraseArgs P Args st D).2.Trace = D.Trace ++ l ∧ ∀ e ∈ l, IsErase e = true := by
  intro Args
  induction Args with
  | nil => intro st D; exact ⟨[], (List.append_nil _).symm, by simp⟩
  | cons x Args ih =>
    intro st D
    obtain ⟨s, n⟩ := x
    rw [EraseArgs]
    split
    · exact ⟨[], (List.append_nil _).symm, by simp⟩
    · obtain ⟨l1, h1, h2⟩ := EraseRange_erases P (n % 2 ^ 32) s st D
      simp only []
      split
      · exact ⟨l1, h1, h2⟩
      · obtain ⟨l2, h3, h4⟩ := ih (EraseRange P (n % 2 ^ 32) s st D).1
          (EraseRange P (n % 2 ^ 32) s st D).2.2
        refine ⟨l1 ++ l2, ?_, ?_⟩
        · rw [h3, h1, List.append_assoc]
        · intro e he
          rcases List.mem_append.mp he with he | he
          · exact h2 e he
          · exact h4 e he

theorem FvbEraseBlocks_hooks (P : Platform σ) (D : Driver σ) (Args : List (Nat × Nat)) :
    HookCalls (FvbEraseBlocks P D Args).2.Trace = HookCalls D.Trace := by
  unfold FvbEraseBlocks
  split_ifs
  · rfl
  · rfl
  · obtain ⟨l, h1, h2⟩ := EraseArgs_erases P Args EFI_SUCCESS D
    rw [h1]
    exact HookCalls_append_erases _ _ h2

theorem HookCalls_log (D : Driver σ) (e : Event) (h : e ≠ Event.Hook) :
    HookCalls (D.log e).Trace = HookCalls D.Trace := by
  unfold HookCalls Driver.log
  rw [List.count_append, List.count_singleton]
  simp [h]

theorem HookCalls_log_Hook (D : Driver σ) :
    HookCalls (D.log Event.Hook).Trace = HookCalls D.Trace + 1 := by
  unfold HookCalls Driver.log
  rw [List.count_append, List.count_singleton]
  simp

theorem FvbInitializeFlat_hooks (P : Platform σ) (D : Driver σ) :
    HookCalls (FvbInitializeFlat P D).2.Trace = HookCalls D.Trace := by
  have hp : HookCalls (InitPrologue P D).Trace = HookCalls D.Trace := by
    rw [InitPrologue_trace]
    exact HookCalls_log D Event.Validate (by decide)
  unfold FvbInitializeFlat
  simp only []
  split_ifs
  · rw [FvbEraseBlocks_hooks, hp]
  · rw [(FvbWriteBody_markers _ _ _ _ _ _).2.2.2, HookCalls_log _ _ (by decide),
      FvbEraseBlocks_hooks, hp]
  · exact hp

theorem SameGeometry_refl (I : FLASH_INSTANCE) : SameGeometry I I := ⟨rfl, rfl, rfl⟩

theorem SameGeometry_of_eq {I I' : FLASH_INSTANCE} (h : I' = I) : SameGeometry I I' := by
  rw [h]; exact SameGeometry_refl I

theorem FvbInitializeFlat_geometry (P : Platform σ) (D : Driver σ) :
    SameGeometry D.Instance (FvbInitializeFlat P D).2.Instance ∧
      (FvbInitializeFlat P D).2.Instance.Initialized = true := by
  rw [FvbInitializeFlat_initialized]
  exact ⟨⟨rfl, rfl, rfl⟩, rfl⟩

theorem SameGeometry_of_config {D D' : Driver σ} (h : SameConfig D D') :
    SameGeometry D.Instance D'.Instance := SameGeometry_of_eq h.1

theorem Access_run_spec (P : Platform σ) (fuel : Nat) (D : Driver σ) (a : Access)
    (hB0 : D.Instance.Media.BlockSize ≠ 0) :
    ∃ st D', a.run P (fuel + 4) D = .ok (st, D') ∧ SameGeometry D.Instance D'.Instance ∧
      (D.Instance.Initialized = true → D'.Instance.Initialized = true) ∧
      HookCalls D.Trace ≤ HookCalls D'.Trace ∧ HookCalls D'.Trace ≤ HookCalls D.Trace + 1 := by
  cases hg : GuardFires D.Instance
  · obtain ⟨st, D', h1, h2, -, -, -, h3⟩ := Access_run_guard_off P (fuel + 3) D a hg
    refine ⟨st, D', h1, SameGeometry_of_config h2, ?_, by omega, by omega⟩
    intro hi
    rw [h2.1]; exact hi
  · cases hrt : P.EfiAtRuntime
    · obtain ⟨st, D', h1, h2, -, -, -, h3⟩ := Access_run_guard_on P fuel D a hg hrt hB0
      have hgeo := FvbInitializeFlat_geometry P (D.log Event.Hook)
      have hh := FvbInitializeFlat_hooks P (D.log Event.Hook)
      rw [HookCalls_log_Hook] at hh
      refine ⟨st, D', h1, ?_, ?_, by omega, by omega⟩
      · rw [h2.1]; exact hgeo.1
      · intro _
        rw [h2.1]; exact hgeo.2
    · have hg' : (!D.Instance.Initialized && D.Instance.Initialize) = true := hg
      have hni : D.Instance.Initialized = false := by
        cases h : D.Instance.Initialized
        · rfl
        · rw [h] at hg'; exact absurd hg' (by simp)
      cases a with
      | Read Lba Offset NumBytes Buffer =>
        refine ⟨EFI_UNSUPPORTED, D, ?_, SameGeometry_refl _, fun h => h, le_refl _, by omega⟩
        rw [Access.run, FvbRead, hg', if_pos rfl, hrt, if_pos rfl]
        rfl
      | Write Lba Offset NumBytes Buffer =>
        refine ⟨EFI_UNSUPPORTED, D, ?_, SameGeometry_refl _, fun h => h, le_refl _, by omega⟩
        rw [Access.run, FvbWrite, hg', if_pos rfl, hrt, if_pos rfl]

theorem InitializeFv_run_spec (P : Platform σ) (fuel : Nat) (D : Driver σ)
    (hB0 : D.Instance.Media.BlockSize ≠ 0) :
    ∃ st D', InitializeFvAndVariableStoreHeaders P (fuel + 4) D = .ok (st, D') ∧
      SameGeometry D.Instance D'.Instance ∧
      (D.Instance.Initialized = true → D'.Instance.Initialized = true) ∧
      HookCalls D.Trace ≤ HookCalls D'.Trace ∧ HookCalls D'.Trace ≤ HookCalls D.Trace + 1 := by
  cases hg : GuardFires D.Instance
  · refine ⟨(FvbWriteBody P (D.log Event.Install) 0 0 100 (BuildHeaders P.Pcd D.Instance)).1,
      (FvbWriteBody P (D.log Event.Install) 0 0 100 (BuildHeaders P.Pcd D.Instance)).2,
      InitializeFv_of_guard_off P (fuel + 2) D hg, ?_, ?_, ?_, ?_⟩
    · exact SameGeometry_of_config
        (SameConfig.trans (show SameConfig D (D.log Event.Install) from ⟨rfl, rfl⟩)
          (FvbWriteBody_config _ _ _ _ _ _))
    · intro hi
      rw [(FvbWriteBody_config P (D.log Event.Install) 0 0 100 _).1]
      exact hi
    · rw [(FvbWriteBody_markers _ _ _ _ _ _).2.2.2, HookCalls_log _ _ (by decide)]
    · rw [(FvbWriteBody_markers _ _ _ _ _ _).2.2.2, HookCalls_log _ _ (by decide)]
      omega
  · have hg' : (!(D.log Event.Install).Instance.Initialized &&
        (D.log Event.Install).Instance.Initialize) = true := hg
    have hlog : ((D.log Event.Install).log Event.Hook).Instance.Media.BlockSize ≠ 0 := hB0
    have hgeo := FvbInitializeFlat_geometry P ((D.log Event.Install).log Event.Hook)
    have hh := FvbInitializeFlat_hooks P ((D.log Event.Install).log Event.Hook)
    rw [HookCalls_log_Hook, HookCalls_log _ _ (by decide)] at hh
    have hoff : GuardFires (FvbInitializeFlat P
        ((D.log Event.Install).log Event.Hook)).2.Instance = false :=
      GuardFires_of_initialized _ hgeo.2
    refine ⟨(FvbWriteBody P (FvbInitializeFlat P ((D.log Event.Install).log Event.Hook)).2 0 0
        100 (BuildHeaders P.Pcd
          (FvbInitializeFlat P ((D.log Event.Install).log Event.Hook)).2.Instance)).1,
      (FvbWriteBody P (FvbInitializeFlat P ((D.log Event.Install).log Event.Hook)).2 0 0
        100 (BuildHeaders P.Pcd
          (FvbInitializeFlat P ((D.log Event.Install).log Event.Hook)).2.Instance)).2,
      ?_, ?_, ?_, ?_, ?_⟩
    · rw [InitializeFvAndVariableStoreHeaders]
      simp only [hg', if_true]
      rw [FvbInitialize_flat P fuel _ hlog, Run.bind_ok,
        FvbWrite_of_guard_off P (fuel + 2) _ _ _ _ _ hoff]
      rfl
    · rw [(FvbWriteBody_config _ _ _ _ _ _).1]; exact hgeo.1
    · intro _
      rw [(FvbWriteBody_config _ _ _ _ _ _).1]; exact hgeo.2
    · rw [(FvbWriteBody_markers _ _ _ _ _ _).2.2.2, hh]; omega
    · rw [(FvbWriteBody_markers _ _ _ _ _ _).2.2.2, hh]

theorem FvbCall_run_spec (P : Platform σ) (fuel : Nat) (D : Driver σ) (c : FvbCall)
    (hB0 : D.Instance.Media.BlockSize ≠ 0) :
    ∃ st D', c.run P (fuel + 4) D = .ok (st, D') ∧ SameGeometry D.Instance D'.Instance ∧
      (D.Instance.Initialized = true → D'.Instance.Initialized = true) ∧
      HookCalls D.Trace ≤ HookCalls D'.Trace ∧ HookCalls D'.Trace ≤ HookCalls D.Trace + 1 := by
  cases c with
  | GetAttributes =>
    exact ⟨_, _, rfl, SameGeometry_refl _, fun h => h, le_refl _, Nat.le_succ _⟩
  | SetAttributes Attributes =>
    exact ⟨_, _, rfl, SameGeometry_refl _, fun h => h, le_refl _, Nat.le_succ _⟩
  | GetPhysicalAddress Address =>
    cases Address with
    | none => exact ⟨_, _, rfl, SameGeometry_refl _, fun h => h, le_refl _, Nat.le_succ _⟩
    | some a => exact ⟨_, _, rfl, SameGeometry_refl _, fun h => h, le_refl _, Nat.le_succ _⟩
  | GetBlockSize Lba =>
    have e : (FvbGetBlockSize D Lba).2.2 = D := by
      unfold FvbGetBlockSize
      split <;> rfl
    refine ⟨(FvbGetBlockSize D Lba).1, (FvbGetBlockSize D Lba).2.2, rfl, ?_⟩
    rw [e]
    exact ⟨SameGeometry_refl _, fun h => h, le_refl _, Nat.le_succ _⟩
  | Read Lba Offset NumBytes Buffer =>
    exact Access_run_spec P fuel D (Access.Read Lba Offset NumBytes Buffer) hB0
  | Write Lba Offset NumBytes Buffer =>
    exact Access_run_spec P fuel D (Access.Write Lba Offset NumBytes Buffer) hB0
  | EraseBlocks Args =>
    refine ⟨(FvbEraseBlocks P D Args).1, (FvbEraseBlocks P D Args).2, rfl,
      SameGeometry_of_config (FvbEraseBlocks_config P D Args), ?_, ?_, ?_⟩
    · intro hi
      rw [(FvbEraseBlocks_config P D Args).1]; exact hi
    · rw [FvbEraseBlocks_hooks]
    · rw [FvbEraseBlocks_hooks]; omega
  | Initialize =>
    have hgeo := FvbInitializeFlat_geometry P D
    have hh := FvbInitializeFlat_hooks P D
    refine ⟨(FvbInitializeFlat P D).1, (FvbInitializeFlat P D).2,
      FvbInitialize_flat P (fuel + 1) D hB0, hgeo.1, fun _ => hgeo.2, ?_, ?_⟩
    · rw [hh]
    · rw [hh]; omega
  | InstallHeaders => exact InitializeFv_run_spec P fuel D hB0

theorem FlashCreateInstance_ok (FlashDeviceBase FlashRegionBase FlashSize MediaId BlockSize : Nat)
    (SupportFvb : Bool) (InstallStatus : EFI_STATUS) (hB0 : BlockSize ≠ 0)
    (hok : EFI_ERROR InstallStatus = false) :
    FlashCreateInstance FlashDeviceBase FlashRegionBase FlashSize MediaId BlockSize SupportFvb
        false false InstallStatus =
      .ok (InstallStatus, some ⟨!SupportFvb, SupportFvb, FlashDeviceBase, FlashRegionBase,
        FlashSize, 0,
        ⟨MediaId, false, BlockSize, (FlashSize / BlockSize + (2 ^ 64 - 1)) % 2 ^ 64⟩,
        SupportFvb⟩) := by
  cases SupportFvb
  · simp only [FlashCreateInstance, Bool.false_eq_true, if_false, if_neg hB0, hok]
    rfl
  · simp only [FlashCreateInstance, Bool.false_eq_true, if_false, if_neg hB0, hok, if_true]
    rfl

/-! ## Lemmas: the fields of the installed headers -/

section InstalledFields

variable (Mem : Memory) (Base v nb bs c sz : Nat)

theorem installed_NumBlocks (hnb : nb < 2 ^ 32) :
    ReadUint32 (PlaceAt Mem Base (HeaderBytes v nb bs c sz)) (Base + FvBlockMap) = nb := by
  simp only [ReadUint32, ReadUint16, Nat.add_assoc, Nat.reduceAdd, FvBlockMap]
  repeat rw [ReadUint8_PlaceAt _ _ _ _ (by rw [HeaderBytes_length]; norm_num)]
  simp [HeaderBytes]
  omega

theorem installed_Length (hbs : bs < 2 ^ 32) :
    ReadUint32 (PlaceAt Mem Base (HeaderBytes v nb bs c sz)) (Base + FvBlockMap + 4) = bs := by
  simp only [ReadUint32, ReadUint16, Nat.add_assoc, Nat.reduceAdd, FvBlockMap]
  repeat rw [ReadUint8_PlaceAt _ _ _ _ (by rw [HeaderBytes_length]; norm_num)]
  simp [HeaderBytes]
  omega

theorem installed_Terminator :
    ReadUint32 (PlaceAt Mem Base (HeaderBytes v nb bs c sz))
        (Base + FvBlockMap + SizeofBlockMapEntry) = 0 ∧
      ReadUint32 (PlaceAt Mem Base (HeaderBytes v nb bs c sz))
        (Base + FvBlockMap + SizeofBlockMapEntry + 4) = 0 := by
  constructor
  · simp only [ReadUint32, ReadUint16, Nat.add_assoc, Nat.reduceAdd, FvBlockMap,
      SizeofBlockMapEntry]
    repeat rw [ReadUint8_PlaceAt _ _ _ _ (by rw [HeaderBytes_length]; norm_num)]
    simp [HeaderBytes]
  · simp only [ReadUint32, ReadUint16, Nat.add_assoc, Nat.reduceAdd, FvBlockMap,
      SizeofBlockMapEntry]
    repeat rw [ReadUint8_PlaceAt _ _ _ _ (by rw [HeaderBytes_length]; norm_num)]
    simp [HeaderBytes]

theorem installed_Format_State :
    ReadUint8 (PlaceAt Mem Base (HeaderBytes v nb bs c sz)) (Base + 72 + VsFormat) =
        VARIABLE_STORE_FORMATTED ∧
      ReadUint8 (PlaceAt Mem Base (HeaderBytes v nb bs c sz)) (Base + 72 + VsState) =
        VARIABLE_STORE_HEALTHY := by
  constructor
  · simp only [Nat.add_assoc, Nat.reduceAdd, VsFormat]
    rw [ReadUint8_PlaceAt _ _ _ _ (by rw [HeaderBytes_length]; norm_num)]
    simp [HeaderBytes]
  · simp only [Nat.add_assoc, Nat.reduceAdd, VsState]
    rw [ReadUint8_PlaceAt _ _ _ _ (by rw [HeaderBytes_length]; norm_num)]
    simp [HeaderBytes]

end InstalledFields


/-! ## Lemmas: the instances of the descriptor table and StartLba -/

theorem Access_run_instance (P : Platform σ) (fuel : Nat) (D : Driver σ) (a : Access)
    (hB0 : D.Instance.Media.BlockSize ≠ 0) :
    ∃ st D', a.run P (fuel + 4) D = .ok (st, D') ∧
      (D'.Instance = D.Instance ∨ D'.Instance = (InitPrologue P D).Instance) := by
  cases hg : GuardFires D.Instance
  · obtain ⟨st, D', h1, h2, -⟩ := Access_run_guard_off P (fuel + 3) D a hg
    exact ⟨st, D', h1, Or.inl h2.1⟩
  · cases hrt : P.EfiAtRuntime
    · obtain ⟨st, D', h1, h2, -⟩ := Access_run_guard_on P fuel D a hg hrt hB0
      refine ⟨st, D', h1, Or.inr ?_⟩
      rw [h2.1, FvbInitializeFlat_initialized]
      rfl
    · have hg' : (!D.Instance.Initialized && D.Instance.Initialize) = true := hg
      cases a with
      | Read Lba Offset NumBytes Buffer =>
        refine ⟨EFI_UNSUPPORTED, D, ?_, Or.inl rfl⟩
        rw [Access.run, FvbRead, hg', if_pos rfl, hrt, if_pos rfl]
        rfl
      | Write Lba Offset NumBytes Buffer =>
        refine ⟨EFI_UNSUPPORTED, D, ?_, Or.inl rfl⟩
        rw [Access.run, FvbWrite, hg', if_pos rfl, hrt, if_pos rfl]

theorem InitializeFv_run_instance (P : Platform σ) (fuel : Nat) (D : Driver σ)
    (hB0 : D.Instance.Media.BlockSize ≠ 0) :
    ∃ st D', InitializeFvAndVariableStoreHeaders P (fuel + 4) D = .ok (st, D') ∧
      (D'.Instance = D.Instance ∨ D'.Instance = (InitPrologue P D).Instance) := by
  cases hg : GuardFires D.Instance
  · refine ⟨(FvbWriteBody P (D.log Event.Install) 0 0 100 (BuildHeaders P.Pcd D.Instance)).1,
      (FvbWriteBody P (D.log Event.Install) 0 0 100 (BuildHeaders P.Pcd D.Instance)).2,
      InitializeFv_of_guard_off P (fuel + 2) D hg, Or.inl ?_⟩
    rw [(FvbWriteBody_config P (D.log Event.Install) 0 0 100 _).1]
    rfl
  · have hg' : (!(D.log Event.Install).Instance.Initialized &&
        (D.log Event.Install).Instance.Initialize) = true := hg
    have hlog : ((D.log Event.Install).log Event.Hook).Instance.Media.BlockSize ≠ 0 := hB0
    have hgeo := FvbInitializeFlat_geometry P ((D.log Event.Install).log Event.Hook)
    have hoff : GuardFires (FvbInitializeFlat P
        ((D.log Event.Install).log Event.Hook)).2.Instance = false :=
      GuardFires_of_initialized _ hgeo.2
    refine ⟨(FvbWriteBody P (FvbInitializeFlat P ((D.log Event.Install).log Event.Hook)).2 0 0
        100 (BuildHeaders P.Pcd
          (FvbInitializeFlat P ((D.log Event.Install).log Event.Hook)).2.Instance)).1,
      (FvbWriteBody P (FvbInitializeFlat P ((D.log Event.Install).log Event.Hook)).2 0 0
        100 (BuildHeaders P.Pcd
          (FvbInitializeFlat P ((D.log Event.Install).log Event.Hook)).2.Instance)).2,
      ?_, Or.inr ?_⟩
    · rw [InitializeFvAndVariableStoreHeaders]
      simp only [hg', if_true]
      rw [FvbInitialize_flat P fuel _ hlog, Run.bind_ok,
        FvbWrite_of_guard_off P (fuel + 2) _ _ _ _ _ hoff]
      rfl
    · rw [(FvbWriteBody_config _ _ _ _ _ _).1, FvbInitializeFlat_initialized]
      rfl

/-- Every operation returns, and leaves the instance as it was or as the first
statements of FvbInitialize (lines 851-855) set it. -/
theorem FvbCall_run_instance (P : Platform σ) (fuel : Nat) (D : Driver σ) (c : FvbCall)
    (hB0 : D.Instance.Media.BlockSize ≠ 0) :
    ∃ st D', c.run P (fuel + 4) D = .ok (st, D') ∧
      (D'.Instance = D.Instance ∨ D'.Instance = (InitPrologue P D).Instance) := by
  cases c with
  | GetAttributes => exact ⟨_, _, rfl, Or.inl rfl⟩
  | SetAttributes Attributes => exact ⟨_, _, rfl, Or.inl rfl⟩
  | GetPhysicalAddress Address =>
    cases Address with
    | none => exact ⟨_, _, rfl, Or.inl rfl⟩
    | some a => exact ⟨_, _, rfl, Or.inl rfl⟩
  | GetBlockSize Lba =>
    have e : (FvbGetBlockSize D Lba).2.2 = D := by
      unfold FvbGetBlockSize
      split <;> rfl
    refine ⟨(FvbGetBlockSize D Lba).1, (FvbGetBlockSize D Lba).2.2, rfl, Or.inl ?_⟩
    rw [e]
  | Read Lba Offset NumBytes Buffer =>
    exact Access_run_instance P fuel D (Access.Read Lba Offset NumBytes Buffer) hB0
  | Write Lba Offset NumBytes Buffer =>
    exact Access_run_instance P fuel D (Access.Write Lba Offset NumBytes Buffer) hB0
  | EraseBlocks Args =>
    exact ⟨(FvbEraseBlocks P D Args).1, (FvbEraseBlocks P D Args).2, rfl,
      Or.inl (FvbEraseBlocks_config P D Args).1⟩
  | Initialize =>
    exact ⟨(FvbInitializeFlat P D).1, (FvbInitializeFlat P D).2,
      FvbInitialize_flat P (fuel + 1) D hB0, Or.inr (FvbInitializeFlat_initialized P D)⟩
  | InstallHeaders => exact InitializeFv_run_instance P fuel D hB0

/-- Line 855 gives StartLba = 0 on an instance whose region base is the base of the
variable storage, as it is for the entry of mFlashDevices. -/
theorem InitPrologue_StartLba (P : Platform σ) (D : Driver σ)
    (hreg : D.Instance.RegionBaseAddress = PcdGet64 P.Pcd.PcdFlashNvStorageVariableBase64) :
    (InitPrologue P D).Instance.StartLba = 0 ∧
      (InitPrologue P D).Instance.RegionBaseAddress = D.Instance.RegionBaseAddress ∧
      (InitPrologue P D).Instance.DeviceBaseAddress = D.Instance.DeviceBaseAddress ∧
      (InitPrologue P D).Instance.Media = D.Instance.Media ∧
      (InitPrologue P D).Instance.Initialized = true := by
  refine ⟨?_, rfl, rfl, rfl, rfl⟩
  have e : (PcdGet64 P.Pcd.PcdFlashNvStorageVariableBase64 +
      (2 ^ 64 - D.Instance.RegionBaseAddress % 2 ^ 64)) % 2 ^ 64 = 0 := by
    rw [hreg]
    unfold PcdGet64
    omega
  show (PcdGet64 P.Pcd.PcdFlashNvStorageVariableBase64 +
    (2 ^ 64 - D.Instance.RegionBaseAddress % 2 ^ 64)) % 2 ^ 64 / D.Instance.Media.BlockSize = 0
  rw [e, Nat.zero_div]

/-- With StartLba = 0 the device offset of the erase of a block is the device offset of
a transfer at offset 0 of that block. -/
theorem BlockEraseOffset_eq_TransferAddress (I : FLASH_INSTANCE) (Lba : Nat)
    (hS : I.StartLba = 0) (hL : Lba < 2 ^ 64) :
    BlockEraseOffset I (EraseBlockAddress I Lba) = TransferAddress I Lba 0 := by
  unfold BlockEraseOffset EraseBlockAddress TransferAddress
  rw [hS, Nat.zero_add, Nat.mod_eq_of_lt hL, Nat.add_zero]

/-- FvbEraseBlocks of one block that passes the validation: between one and
FLASH_ERASE_RETRY erase calls, all at the device offset of that block. -/
theorem FvbEraseBlocks_single (P : Platform σ) (D : Driver σ) (Lba : Nat)
    (hR0 : 0 < P.FLASH_ERASE_RETRY) (hR : P.FLASH_ERASE_RETRY < 2 ^ 64)
    (hrw : D.Instance.Media.ReadOnly = false)
    (hv : EraseArgsValid D.Instance [(Lba, 1)] = true)
    (hT : Lba ≠ EFI_LBA_LIST_TERMINATOR) :
    ∃ n, 1 ≤ n ∧ n ≤ P.FLASH_ERASE_RETRY ∧
      (FvbEraseBlocks P D [(Lba, 1)]).2.Trace = D.Trace ++ List.replicate n
        (Event.Erase (BlockEraseOffset D.Instance (EraseBlockAddress D.Instance Lba))
          D.Instance.Media.BlockSize) := by
  obtain ⟨n, h1, h2, h3, -, -⟩ :=
    FlashUnlockAndEraseSingleBlock_bounded P D (EraseBlockAddress D.Instance Lba) hR0 hR
  refine ⟨n, h1, h2, ?_⟩
  have hb : BlockList [(Lba, 1)] = [Lba] := by
    simp only [BlockList, if_neg hT]
    rfl
  have hs : (EraseSeq P [Lba] EFI_SUCCESS D).2.2 =
      (FlashUnlockAndEraseSingleBlock P D (EraseBlockAddress D.Instance Lba)).2 := by
    simp only [EraseSeq]
    split <;> rfl
  rw [FvbEraseBlocks_eq_EraseSeq P D _ hrw hv, hb]
  show (EraseSeq P [Lba] EFI_SUCCESS D).2.2.Trace = _
  rw [hs, h3]
/-! ## Claims C21 to C30 -/

/-- C21. Installed header contents. For every configuration and instance whose values fit
the fields of the headers (block count lastBlock + 1 and block size below 2^32, sum of
the three configured sizes below 2^32, variable size at least the header length), the
100 bytes InitializeFvAndVariableStoreHeaders builds and hands to FvbWrite, read back
wherever they are placed, hold: the block map entry (lastBlock + 1, blockSize) followed
by the all-zero entry, which ends the header at HeaderLength; FvLength equal to the sum
of the three sizes; HeaderLength = 72, the size of the header with both block-map
entries; a 16-bit sum of zero over the HeaderLength bytes; and at offset HeaderLength
the variable GUID, size = variableSize - HeaderLength, format formatted, state healthy. -/
theorem installed_header_contents (Pcd : PCD) (I : FLASH_INSTANCE) (Mem : Memory) (Base : Nat)
    (hnb : I.Media.LastBlock + 1 < 2 ^ 32) (hbs : I.Media.BlockSize < 2 ^ 32)
    (hsum : Pcd.PcdFlashNvStorageVariableSize + Pcd.PcdFlashNvStorageFtwWorkingSize +
      Pcd.PcdFlashNvStorageFtwSpareSize < 2 ^ 32)
    (hvar : SizeofFvHeader + SizeofBlockMapEntry ≤ Pcd.PcdFlashNvStorageVariableSize) :
    (BuildHeaders Pcd I).length =
      SizeofFvHeader + SizeofBlockMapEntry + SizeofVariableStoreHeader ∧
    ReadUint32 (PlaceAt Mem Base (BuildHeaders Pcd I)) (Base + FvBlockMap) =
      I.Media.LastBlock + 1 ∧
    ReadUint32 (PlaceAt Mem Base (BuildHeaders Pcd I)) (Base + FvBlockMap + 4) =
      I.Media.BlockSize ∧
    ReadUint32 (PlaceAt Mem Base (BuildHeaders Pcd I))
      (Base + FvBlockMap + SizeofBlockMapEntry) = 0 ∧
    ReadUint32 (PlaceAt Mem Base (BuildHeaders Pcd I))
      (Base + FvBlockMap + SizeofBlockMapEntry + 4) = 0 ∧
    FvBlockMap + 2 * SizeofBlockMapEntry = SizeofFvHeader + SizeofBlockMapEntry ∧
    ReadUint64 (PlaceAt Mem Base (BuildHeaders Pcd I)) (Base + FvFvLength) =
      Pcd.PcdFlashNvStorageVariableSize + Pcd.PcdFlashNvStorageFtwWorkingSize +
        Pcd.PcdFlashNvStorageFtwSpareSize ∧
    ReadUint16 (PlaceAt Mem Base (BuildHeaders Pcd I)) (Base + FvHeaderLength) =
      SizeofFvHeader + SizeofBlockMapEntry ∧
    CalculateSum16 (PlaceAt Mem Base (BuildHeaders Pcd I)) Base
      (SizeofFvHeader + SizeofBlockMapEntry) = 0 ∧
    CompareGuid (PlaceAt Mem Base (BuildHeaders Pcd I))
      (Base + (SizeofFvHeader + SizeofBlockMapEntry) + VsSignature) gEfiVariableGuid = true ∧
    ReadUint32 (PlaceAt Mem Base (BuildHeaders Pcd I))
      (Base + (SizeofFvHeader + SizeofBlockMapEntry) + VsSize) =
      Pcd.PcdFlashNvStorageVariableSize - (SizeofFvHeader + SizeofBlockMapEntry) ∧
    ReadUint8 (PlaceAt Mem Base (BuildHeaders Pcd I))
      (Base + (SizeofFvHeader + SizeofBlockMapEntry) + VsFormat) = VARIABLE_STORE_FORMATTED ∧
    ReadUint8 (PlaceAt Mem Base (BuildHeaders Pcd I))
      (Base + (SizeofFvHeader + SizeofBlockMapEntry) + VsState) = VARIABLE_STORE_HEALTHY := by
  have h72 : SizeofFvHeader + SizeofBlockMapEntry = 72 := rfl
  rw [h72] at hvar ⊢
  have hv : ConfiguredFvLength Pcd = Pcd.PcdFlashNvStorageVariableSize +
      Pcd.PcdFlashNvStorageFtwWorkingSize + Pcd.PcdFlashNvStorageFtwSpareSize := by
    unfold ConfiguredFvLength PcdGet32; omega
  have hn : (I.Media.LastBlock + 1) % 2 ^ 32 = I.Media.LastBlock + 1 := by omega
  have hs : (PcdGet32 Pcd.PcdFlashNvStorageVariableSize + 2 ^ 32 - 72) % 2 ^ 32 =
      Pcd.PcdFlashNvStorageVariableSize - 72 := by
    unfold PcdGet32; omega
  rw [BuildHeaders_eq, hn, hs, hv, InstalledChecksum_eq, hn, hv]
  refine ⟨rfl, installed_NumBlocks _ _ _ _ _ _ _ hnb, installed_Length _ _ _ _ _ _ _ hbs,
    (installed_Terminator _ _ _ _ _ _ _).1, (installed_Terminator _ _ _ _ _ _ _).2, rfl,
    installed_FvLength _ _ _ _ _ _ _ (by omega), installed_HeaderLength _ _ _ _ _ _ _,
    installed_Sum16 _ _ _ _ _ _ _ (by omega) rfl, installed_VariableGuid _ _ _ _ _ _ _,
    installed_Size _ _ _ _ _ _ _ (by omega), (installed_Format_State _ _ _ _ _ _ _).1,
    (installed_Format_State _ _ _ _ _ _ _).2⟩

/-- C21 (witness). The headers of the sample instance (three blocks of 0x10000 bytes,
three areas of 0x10000 bytes) at the region base 0x2000. -/
theorem installed_header_contents_witness :
    ReadUint32 FormattedMemory (0x2000 + FvBlockMap) = 3 ∧
    ReadUint32 FormattedMemory (0x2000 + FvBlockMap + 4) = 0x10000 ∧
    ReadUint64 FormattedMemory (0x2000 + FvFvLength) = 0x30000 ∧
    ReadUint32 FormattedMemory (0x2000 + (SizeofFvHeader + SizeofBlockMapEntry) + VsSize) =
      0x10000 - 72 := by
  have h := installed_header_contents SamplePcd FreshInstance (fun _ => 0xFF) 0x2000 (by decide)
    (by decide) (by decide) (by decide)
  exact ⟨h.2.1, h.2.2.1, h.2.2.2.2.2.2.1, h.2.2.2.2.2.2.2.2.2.2.1⟩

/-- C22. Geometry invariant. First part: for every FlashSize and non-zero BlockSize with
BlockSize <= FlashSize < 2^64, a call of FlashCreateInstance whose allocation and
protocol installation succeed stores an instance with Media.LastBlock = FlashSize /
BlockSize - 1, Media.BlockSize = BlockSize and the given region and device bases. Second
part: on an instance with a non-zero block size every member of the firmware volume
block protocol and the lazy initialization return, with four levels of call depth at
most, and leave the media (last block, block size, read-only flag), the region base and
the device base as they were. -/
theorem geometry_invariant (P : Platform σ) :
    (∀ (FlashDeviceBase FlashRegionBase FlashSize MediaId BlockSize : Nat) (SupportFvb : Bool)
        (InstallStatus : EFI_STATUS),
      BlockSize ≠ 0 → BlockSize ≤ FlashSize → FlashSize < 2 ^ 64 →
      EFI_ERROR InstallStatus = false →
      ∃ I, FlashCreateInstance FlashDeviceBase FlashRegionBase FlashSize MediaId BlockSize
          SupportFvb false false InstallStatus = .ok (InstallStatus, some I) ∧
        I.Media.LastBlock = FlashSize / BlockSize - 1 ∧ I.Media.BlockSize = BlockSize ∧
        I.RegionBaseAddress = FlashRegionBase ∧ I.DeviceBaseAddress = FlashDeviceBase) ∧
    (∀ (c : FvbCall) (fuel : Nat) (D : Driver σ),
      c.IsProtocolOrInitialize = true → D.Instance.Media.BlockSize ≠ 0 →
      ∃ st D', c.run P (fuel + 4) D = .ok (st, D') ∧
        D'.Instance.Media.LastBlock = D.Instance.Media.LastBlock ∧
        D'.Instance.Media.BlockSize = D.Instance.Media.BlockSize ∧
        D'.Instance.RegionBaseAddress = D.Instance.RegionBaseAddress ∧
        D'.Instance.DeviceBaseAddress = D.Instance.DeviceBaseAddress ∧
        D'.Instance.Media.ReadOnly = D.Instance.Media.ReadOnly) := by
  constructor
  · intro FlashDeviceBase FlashRegionBase FlashSize MediaId BlockSize SupportFvb InstallStatus
      hB0 hle h64 hok
    have hq : 1 ≤ FlashSize / BlockSize := (Nat.one_le_div_iff (by omega)).mpr hle
    have hq2 : FlashSize / BlockSize ≤ FlashSize := Nat.div_le_self _ _
    have hlast : (FlashSize / BlockSize + (2 ^ 64 - 1)) % 2 ^ 64 = FlashSize / BlockSize - 1 := by
      omega
    exact ⟨_, FlashCreateInstance_ok FlashDeviceBase FlashRegionBase FlashSize MediaId BlockSize
      SupportFvb InstallStatus hB0 hok, hlast, rfl, rfl, rfl⟩
  · intro c fuel D _ hB0
    obtain ⟨st, D', h1, ⟨hm, hr, hd⟩, -, -, -⟩ := FvbCall_run_spec P fuel D c hB0
    exact ⟨st, D', h1, by rw [hm], by rw [hm], hr, hd, by rw [hm]⟩

/-- C22 (witness). The instance of three blocks of 0x10000 bytes, and an FvbWrite on it
that runs the lazy initialization. -/
theorem geometry_invariant_witness :
    (∃ I, FlashCreateInstance 0x1000 0x2000 0x30000 0 0x10000 true false false EFI_SUCCESS =
        .ok (EFI_SUCCESS, some I) ∧ I.Media.LastBlock = 2 ∧ I.Media.BlockSize = 0x10000) ∧
    (∃ st D', (FvbCall.Write 0 0 4 [1, 2, 3, 4]).run GoodPlatform 4 FreshDriver = .ok (st, D') ∧
      D'.Instance.Media.LastBlock = 2 ∧ D'.Instance.Media.BlockSize = 0x10000) := by
  constructor
  · obtain ⟨I, h1, h2, h3, -, -⟩ := (geometry_invariant GoodPlatform).1 0x1000 0x2000 0x30000 0
      0x10000 true EFI_SUCCESS (by decide) (by decide) (by decide) (by decide)
    exact ⟨I, h1, h2, h3⟩
  · obtain ⟨st, D', h1, h2, h3, -, -, -⟩ := (geometry_invariant GoodPlatform).2
      (FvbCall.Write 0 0 4 [1, 2, 3, 4]) 0 FreshDriver rfl (by decide)
    exact ⟨st, D', h1, h2, h3⟩

/-- C23. Initialized is monotone. First part: on an instance with a non-zero block size
and Initialized = TRUE, each of FvbRead, FvbWrite, FvbEraseBlocks, FvbGetBlockSize,
FvbGetAttributes, FvbSetAttributes, FvbGetPhysicalAddress, FvbInitialize and
InitializeFvAndVariableStoreHeaders returns and leaves Initialized = TRUE. Second part:
the instance FlashCreateInstance stores when it is called without FVB support has
Initialized = TRUE and no hook. -/
theorem Initialized_is_monotone (P : Platform σ) :
    (∀ (c : FvbCall) (fuel : Nat) (D : Driver σ),
      D.Instance.Media.BlockSize ≠ 0 → D.Instance.Initialized = true →
      ∃ st D', c.run P (fuel + 4) D = .ok (st, D') ∧ D'.Instance.Initialized = true) ∧
    (∀ (FlashDeviceBase FlashRegionBase FlashSize MediaId BlockSize : Nat)
        (InstallStatus : EFI_STATUS),
      BlockSize ≠ 0 → EFI_ERROR InstallStatus = false →
      ∃ I, FlashCreateInstance FlashDeviceBase FlashRegionBase FlashSize MediaId BlockSize
          false false false InstallStatus = .ok (InstallStatus, some I) ∧
        I.Initialized = true ∧ I.Initialize = false) := by
  constructor
  · intro c fuel D hB0 hi
    obtain ⟨st, D', h1, -, h2, -, -⟩ := FvbCall_run_spec P fuel D c hB0
    exact ⟨st, D', h1, h2 hi⟩
  · intro FlashDeviceBase FlashRegionBase FlashSize MediaId BlockSize InstallStatus hB0 hok
    exact ⟨_, FlashCreateInstance_ok FlashDeviceBase FlashRegionBase FlashSize MediaId BlockSize
      false InstallStatus hB0 hok, rfl, rfl⟩

/-- C23 (witness). An erase on the initialized sample instance, and the creation of
an instance without FVB support. -/
theorem Initialized_is_monotone_witness :
    (∃ st D', (FvbCall.EraseBlocks [(0, 1)]).run GoodPlatform 4 ReadyDriver = .ok (st, D') ∧
      D'.Instance.Initialized = true) ∧
    (∃ I, FlashCreateInstance 0x1000 0x2000 0x30000 0 0x10000 false false false EFI_SUCCESS =
      .ok (EFI_SUCCESS, some I) ∧ I.Initialized = true ∧ I.Initialize = false) :=
  ⟨(Initialized_is_monotone GoodPlatform).1 (FvbCall.EraseBlocks [(0, 1)]) 0 ReadyDriver
      (by decide) rfl,
    (Initialized_is_monotone GoodPlatform).2 0x1000 0x2000 0x30000 0 0x10000 EFI_SUCCESS
      (by decide) (by decide)⟩

/-- C26. One LBA space for erase and write, on the instances the driver has. First part:
the instance FlashFvbInitialize creates for an entry of mFlashDevices has the base of
the variable storage as its region base, StartLba = 0 and blocks of 64 KiB. Second
part: on an instance with that region base, StartLba = 0 and a non-zero block size,
every operation of the driver returns and leaves region base, StartLba, media and
device base as they are. Third part: on such an instance FvbInitialize returns and the
StartLba it computes is 0, whatever StartLba was before. Fourth part: on an initialized
writable instance with StartLba = 0, for every lba for which FvbEraseBlocks (lba, 1) and
a transfer of NumBytes bytes at offset 0 are accepted, FvbEraseBlocks makes between one
and FLASH_ERASE_RETRY erase calls, all at the device offset at which FvbWrite (lba, 0)
makes its one write call and FvbRead (lba, 0) its one read call, and this offset is
regionBase + lba * blockSize - deviceBase when that value is not negative and fits 32
bits. -/
theorem one_lba_space (P : Platform σ) (PcdSFCMEM0BaseAddress : Nat)
    (hR0 : 0 < P.FLASH_ERASE_RETRY) (hR : P.FLASH_ERASE_RETRY < 2 ^ 64) :
    (∀ Dev ∈ mFlashDevices P.Pcd PcdSFCMEM0BaseAddress,
      ∀ (Index : Nat) (InstallStatus : EFI_STATUS), EFI_ERROR InstallStatus = false →
      ∃ I, FlashFvbInitializeEntry P.Pcd Dev Index false false InstallStatus =
          .ok (InstallStatus, some I) ∧
        I.RegionBaseAddress = PcdGet64 P.Pcd.PcdFlashNvStorageVariableBase64 ∧
        I.StartLba = 0 ∧ I.Media.BlockSize = SIZE_64KB) ∧
    (∀ (c : FvbCall) (fuel : Nat) (D : Driver σ),
      D.Instance.RegionBaseAddress = PcdGet64 P.Pcd.PcdFlashNvStorageVariableBase64 →
      D.Instance.StartLba = 0 → D.Instance.Media.BlockSize ≠ 0 →
      ∃ st D', c.run P (fuel + 4) D = .ok (st, D') ∧
        D'.Instance.RegionBaseAddress = D.Instance.RegionBaseAddress ∧
        D'.Instance.StartLba = 0 ∧ D'.Instance.Media = D.Instance.Media ∧
        D'.Instance.DeviceBaseAddress = D.Instance.DeviceBaseAddress) ∧
    (∀ (fuel : Nat) (D : Driver σ),
      D.Instance.RegionBaseAddress = PcdGet64 P.Pcd.PcdFlashNvStorageVariableBase64 →
      D.Instance.Media.BlockSize ≠ 0 →
      ∃ st D', FvbInitialize P (fuel + 3) D = .ok (st, D') ∧ D'.Instance.StartLba = 0 ∧
        D'.Instance.Initialized = true ∧
        D'.Instance.RegionBaseAddress = D.Instance.RegionBaseAddress) ∧
    (∀ (fuel : Nat) (D : Driver σ) (Lba NumBytes : Nat) (Buffer : List Nat),
      D.Instance.StartLba = 0 → D.Instance.Initialized = true →
      D.Instance.Media.ReadOnly = false → D.Instance.Media.BlockSize < 2 ^ 32 →
      Lba < 2 ^ 64 → NumBytes < 2 ^ 64 →
      EraseArgsValid D.Instance [(Lba, 1)] = true → Lba ≠ EFI_LBA_LIST_TERMINATOR →
      0 < NumBytes → NumBytes ≤ D.Instance.Media.BlockSize →
      (∃ n, 1 ≤ n ∧ n ≤ P.FLASH_ERASE_RETRY ∧
        (FvbEraseBlocks P D [(Lba, 1)]).2.Trace = D.Trace ++ List.replicate n
          (Event.Erase (TransferAddress D.Instance Lba 0) D.Instance.Media.BlockSize)) ∧
      (∃ st D', FvbWrite P (fuel + 1) D Lba 0 NumBytes Buffer = .ok (st, D') ∧
        D'.Trace = D.Trace ++ [Event.Write (TransferAddress D.Instance Lba 0) Buffer NumBytes]) ∧
      (∃ st Data D', FvbRead P fuel D Lba 0 NumBytes Buffer = .ok (st, Data, D') ∧
        D'.Trace = D.Trace ++ [Event.Read (TransferAddress D.Instance Lba 0) NumBytes]) ∧
      (D.Instance.DeviceBaseAddress ≤
          D.Instance.RegionBaseAddress + Lba * D.Instance.Media.BlockSize →
        D.Instance.RegionBaseAddress + Lba * D.Instance.Media.BlockSize -
          D.Instance.DeviceBaseAddress < 2 ^ 32 →
        TransferAddress D.Instance Lba 0 =
          D.Instance.RegionBaseAddress + Lba * D.Instance.Media.BlockSize -
            D.Instance.DeviceBaseAddress)) := by
  refine ⟨?_, ?_, ?_, ?_⟩
  · intro Dev hDev Index InstallStatus hok
    rw [mFlashDevices, List.mem_singleton] at hDev
    subst hDev
    exact ⟨_, FlashCreateInstance_ok _ _ _ _ _ _ InstallStatus
      (show SIZE_64KB % 2 ^ 32 ≠ 0 by decide) hok, rfl, rfl,
      (show SIZE_64KB % 2 ^ 32 = SIZE_64KB by decide)⟩
  · intro c fuel D hreg hS hB0
    obtain ⟨st, D', h1, h2⟩ := FvbCall_run_instance P fuel D c hB0
    obtain ⟨p1, p2, p3, p4, -⟩ := InitPrologue_StartLba P D hreg
    rcases h2 with h2 | h2
    · exact ⟨st, D', h1, by rw [h2], by rw [h2]; exact hS, by rw [h2], by rw [h2]⟩
    · exact ⟨st, D', h1, by rw [h2]; exact p2, by rw [h2]; exact p1, by rw [h2]; exact p4,
        by rw [h2]; exact p3⟩
  · intro fuel D hreg hB0
    obtain ⟨p1, p2, -, -, p5⟩ := InitPrologue_StartLba P D hreg
    have e := FvbInitializeFlat_initialized P D
    exact ⟨(FvbInitializeFlat P D).1, (FvbInitializeFlat P D).2, FvbInitialize_flat P fuel D hB0,
      by rw [e]; exact p1, by rw [e]; exact p5, by rw [e]; exact p2⟩
  · intro fuel D Lba NumBytes Buffer hS hi hrw hB hL hN hv hT hN0 hNB
    have hg : GuardFires D.Instance = false := GuardFires_of_initialized _ hi
    have hc : 0 < NumBytes ∧ 0 + NumBytes ≤ D.Instance.Media.BlockSize := ⟨hN0, by omega⟩
    refine ⟨?_, ?_, ?_, ?_⟩
    · obtain ⟨n, h1, h2, h3⟩ := FvbEraseBlocks_single P D Lba hR0 hR hrw hv hT
      rw [BlockEraseOffset_eq_TransferAddress D.Instance Lba hS hL] at h3
      exact ⟨n, h1, h2, h3⟩
    · refine ⟨(FvbWriteBody P D Lba 0 NumBytes Buffer).1,
        (FvbWriteBody P D Lba 0 NumBytes Buffer).2,
        FvbWrite_of_guard_off P fuel D Lba 0 NumBytes Buffer hg, ?_⟩
      rw [FvbWriteBody_eq P D Lba 0 NumBytes Buffer hrw hB (by omega) hN, if_pos hc]
      rfl
    · refine ⟨(FvbReadBody P D Lba 0 NumBytes Buffer).1,
        (FvbReadBody P D Lba 0 NumBytes Buffer).2.1,
        (FvbReadBody P D Lba 0 NumBytes Buffer).2.2,
        FvbRead_of_guard_off P fuel D Lba 0 NumBytes Buffer hg, ?_⟩
      rw [FvbReadBody_eq P D Lba 0 NumBytes Buffer hB (by omega) hN, if_pos hc]
      rfl
    · intro hge h32
      have := TransferAddress_exact D.Instance Lba 0 (by omega) (by omega)
      omega

/-- C26 (witness). The sample configuration with the device at 0x1000: the instance
created for the entry of the table, the StartLba FvbInitialize computes on it, and block
1 of the initialized instance, which is erased, written and read at device offset
0x11000. -/
theorem one_lba_space_witness :
    (∃ I, FlashFvbInitializeEntry SamplePcd ⟨0x1000, 0x2000, 0x20000, 0x10000⟩ 0 false false
        EFI_SUCCESS = .ok (EFI_SUCCESS, some I) ∧
      I.RegionBaseAddress = 0x2000 ∧ I.StartLba = 0 ∧ I.Media.BlockSize = 0x10000) ∧
    (∃ st D', FvbInitialize GoodPlatform 3 TableDriver = .ok (st, D') ∧
      D'.Instance.StartLba = 0 ∧ D'.Instance.Initialized = true) ∧
    (∃ n, 1 ≤ n ∧ n ≤ 10 ∧ (FvbEraseBlocks GoodPlatform TableReadyDriver [(1, 1)]).2.Trace =
      List.replicate n (Event.Erase 0x11000 0x10000)) ∧
    (∃ st D', FvbWrite GoodPlatform 1 TableReadyDriver 1 0 4 [1, 2, 3, 4] = .ok (st, D') ∧
      D'.Trace = [Event.Write 0x11000 [1, 2, 3, 4] 4]) ∧
    (∃ st Data D', FvbRead GoodPlatform 0 TableReadyDriver 1 0 4 [] = .ok (st, Data, D') ∧
      D'.Trace = [Event.Read 0x11000 4]) := by
  have h := one_lba_space GoodPlatform 0x1000 (by decide) (by decide)
  obtain ⟨I, a1, a2, a3, a4⟩ := h.1 ⟨0x1000, 0x2000, 0x20000, 0x10000⟩ (by decide) 0 EFI_SUCCESS
    (by decide)
  obtain ⟨st, D', b1, b2, b3, -⟩ := h.2.2.1 0 TableDriver rfl (by decide)
  obtain ⟨c1, c2, c3, -⟩ := h.2.2.2 0 TableReadyDriver 1 4 [1, 2, 3, 4] rfl rfl rfl (by decide)
    (by decide) (by decide) (by decide) (by decide) (by decide) (by decide)
  obtain ⟨-, -, d3, -⟩ := h.2.2.2 0 TableReadyDriver 1 4 [] rfl rfl rfl (by decide)
    (by decide) (by decide) (by decide) (by decide) (by decide) (by decide)
  exact ⟨⟨I, a1, a2, a3, a4⟩, ⟨st, D', b1, b2, b3⟩, c1, c2, d3⟩
/-- C27. Lazy initialization never re-enters itself: on every instance with a non-zero
block size, whatever the device does, FvbInitialize returns with three levels of call
depth and the hook is not invoked during it; every FvbRead and FvbWrite returns with
four levels and invokes the hook at most once; InitializeFvAndVariableStoreHeaders
returns with four levels and invokes it at most once. -/
theorem lazy_initialization_does_not_reenter (P : Platform σ) (fuel : Nat) (D : Driver σ)
    (hB0 : D.Instance.Media.BlockSize ≠ 0) :
    (∃ st D', FvbInitialize P (fuel + 3) D = .ok (st, D') ∧
      HookCalls D'.Trace = HookCalls D.Trace) ∧
    (∀ a : Access, ∃ st D', a.run P (fuel + 4) D = .ok (st, D') ∧
      HookCalls D'.Trace ≤ HookCalls D.Trace + 1) ∧
    (∃ st D', InitializeFvAndVariableStoreHeaders P (fuel + 4) D = .ok (st, D') ∧
      HookCalls D'.Trace ≤ HookCalls D.Trace + 1) := by
  refine ⟨⟨(FvbInitializeFlat P D).1, (FvbInitializeFlat P D).2, FvbInitialize_flat P fuel D hB0,
    FvbInitializeFlat_hooks P D⟩, ?_, ?_⟩
  · intro a
    obtain ⟨st, D', h1, -, -, -, h2⟩ := Access_run_spec P fuel D a hB0
    exact ⟨st, D', h1, h2⟩
  · obtain ⟨st, D', h1, -, -, -, h2⟩ := InitializeFv_run_spec P fuel D hB0
    exact ⟨st, D', h1, h2⟩

/-- C27 (witness). The sample instance on erased flash: FvbInitialize erases and
installs the headers without a hook call; an FvbWrite that finds the instance
uninitialized calls the hook once. -/
theorem lazy_initialization_does_not_reenter_witness :
    (∃ st D', FvbInitialize GoodPlatform 3 FreshDriver = .ok (st, D') ∧ HookCalls D'.Trace = 0) ∧
    (∃ st D', (Access.Write 0 0 4 [1, 2, 3, 4]).run GoodPlatform 4 FreshDriver = .ok (st, D') ∧
      HookCalls D'.Trace ≤ 1) :=
  ⟨(lazy_initialization_does_not_reenter GoodPlatform 0 FreshDriver (by decide)).1,
    (lazy_initialization_does_not_reenter GoodPlatform 0 FreshDriver (by decide)).2.1
      (Access.Write 0 0 4 [1, 2, 3, 4])⟩

/-- C28 (evaluation at the failing input). On the writable instance of three blocks of
0x10000 bytes, FlashWriteBlocks and FlashReadBlocks with Lba = 0 and BufferSizeInBytes =
0x100010000 issue a device transfer of 0x100010000 bytes: the byte count is cut to 32
bits before the division of lines 1080 and 1133, so NumBlocks is 1, although
BufferSizeInBytes / blockSize is 0x10001 and Lba + 0x10001 exceeds lastBlock + 1 = 3. -/
theorem FlashBlocks_transfer_beyond_region :
    ReadyInstance.Media.LastBlock + 1 = 3 ∧
    0 + 0x100010000 / ReadyInstance.Media.BlockSize = 0x10001 ∧
    (FlashWriteBlocks GoodPlatform ReadyDriver 0 0x100010000 (some [])).status =
      some EFI_SUCCESS ∧
    (FlashWriteBlocks GoodPlatform ReadyDriver 0 0x100010000 (some [])).trace =
      [Event.Write 0x1000 [] 0x100010000] ∧
    (FlashReadBlocks GoodPlatform ReadyDriver 0 0x100010000 false).status = some EFI_SUCCESS ∧
    ((FlashReadBlocks GoodPlatform ReadyDriver 0 0x100010000 false).bind
      fun r => .ok (r.1, r.2.2)).trace = [Event.Read 0x1000 0x100010000] := by
  decide


end FlashFvbDxe

namespace RpiFirmwareDxe

open FlashFvbDxe

variable {σ : Type}

/-! ## Lemmas: the polling loops -/

theorem StatusReads_append (a b : List MboxEvent) :
    StatusReads (a ++ b) = StatusReads a + StatusReads b := by
  unfold StatusReads; exact List.countP_append _ _ _

theorem MailboxWrites_append (a b : List MboxEvent) :
    MailboxWrites (a ++ b) = MailboxWrites a + MailboxWrites b := by
  unfold MailboxWrites; exact List.countP_append _ _ _

theorem StatusValues_append (a b : List MboxEvent) :
    StatusValues (a ++ b) = StatusValues a ++ StatusValues b := by
  induction a with
  | nil => rfl
  | cons e a ih => cases e <;> simp [StatusValues, ih]

theorem StatusReads_status (v : Nat) : StatusReads [MboxEvent.Status v] = 1 := rfl

theorem MailboxWrites_status (v : Nat) : MailboxWrites [MboxEvent.Status v] = 0 := rfl

theorem WaitLoop_spec (B : Board σ) (Mask : Nat) :
    ∀ (Budget Tries : Nat) (S : Rpi σ),
      Tries + Budget = B.C.RPI_MBOX_MAX_TRIES → 0 < Budget →
      ∃ l, (WaitLoop B Mask Budget Tries S).2.Trace = S.Trace ++ l ∧
        1 ≤ StatusReads l ∧ Tries + StatusReads l ≤ B.C.RPI_MBOX_MAX_TRIES ∧
        MailboxWrites l = 0 ∧
        (WaitLoop B Mask Budget Tries S).2.Dma = S.Dma ∧
        (WaitLoop B Mask Budget Tries S).2.mMailboxLock = S.mMailboxLock ∧
        ((WaitLoop B Mask Budget Tries S).1 = false →
          Tries + StatusReads l = B.C.RPI_MBOX_MAX_TRIES ∧
            ∀ v ∈ StatusValues l, v &&& Mask ≠ 0) ∧
        ((WaitLoop B Mask Budget Tries S).1 = true → ∃ v ∈ StatusValues l, v &&& Mask = 0) := by
  intro Budget
  induction Budget with
  | zero => intro Tries S _ h; omega
  | succ b ih =>
    intro Tries S hsum _
    rw [WaitLoop]
    simp only []
    by_cases hc : (MmioRead32Status B S).1 &&& Mask = 0
    · rw [if_pos hc]
      refine ⟨[MboxEvent.Status (MmioRead32Status B S).1], rfl,
        (StatusReads_status _).ge, ?_, MailboxWrites_status _, rfl, rfl, ?_, ?_⟩
      · rw [StatusReads_status]; omega
      · intro h; exact absurd h (by simp)
      · intro _; exact ⟨_, List.mem_singleton.mpr rfl, hc⟩
    · rw [if_neg hc]
      by_cases ht : Tries + 1 < B.C.RPI_MBOX_MAX_TRIES
      · rw [if_pos ht]
        obtain ⟨l, h1, h2, h3, h4, h5, h6, h7, h8⟩ :=
          ih (Tries + 1) (MmioRead32Status B S).2 (by omega) (by omega)
        refine ⟨MboxEvent.Status (MmioRead32Status B S).1 :: l, ?_, ?_, ?_, ?_, h5, h6, ?_, ?_⟩
        · rw [h1]
          simp only [MmioRead32Status, List.append_assoc, List.singleton_append]
        · simp only [StatusReads, IsStatus, List.countP_cons_of_pos]; omega
        · simp only [StatusReads, IsStatus, List.countP_cons_of_pos] at h3 ⊢; omega
        · simpa only [MailboxWrites, IsMboxWrite, List.countP_cons, Bool.false_eq_true,
            if_false, Nat.add_zero] using h4
        · intro hf
          obtain ⟨e1, e2⟩ := h7 hf
          refine ⟨?_, ?_⟩
          · simp only [StatusReads, IsStatus, List.countP_cons_of_pos] at e1 ⊢; omega
          · intro v hv
            rcases List.mem_cons.mp hv with rfl | hv
            · exact hc
            · exact e2 v hv
        · intro htrue
          obtain ⟨v, hv, hz⟩ := h8 htrue
          exact ⟨v, List.mem_cons_of_mem _ hv, hz⟩
      · rw [if_neg ht]
        refine ⟨[MboxEvent.Status (MmioRead32Status B S).1], rfl,
          (StatusReads_status _).ge, ?_, MailboxWrites_status _, rfl, rfl, ?_, ?_⟩
        · rw [StatusReads_status]; omega
        · intro _
          refine ⟨?_, ?_⟩
          · rw [StatusReads_status]; omega
          · intro v hv
            rw [List.mem_singleton.mp hv]
            exact hc
        · intro h; exact absurd h (by simp)

theorem DrainMailboxLoop_spec (B : Board σ) :
    ∀ (Budget Tries : Nat) (S : Rpi σ),
      Tries + Budget = B.C.RPI_MBOX_MAX_TRIES → 0 < Budget →
      ∃ l, (DrainMailboxLoop B Budget Tries S).2.Trace = S.Trace ++ l ∧
        1 ≤ StatusReads l ∧ Tries + StatusReads l ≤ B.C.RPI_MBOX_MAX_TRIES ∧
        MailboxWrites l = 0 ∧
        (DrainMailboxLoop B Budget Tries S).2.Dma = S.Dma ∧
        (DrainMailboxLoop B Budget Tries S).2.mMailboxLock = S.mMailboxLock ∧
        ((DrainMailboxLoop B Budget Tries S).1 = false →
          Tries + StatusReads l = B.C.RPI_MBOX_MAX_TRIES ∧
            ∀ v ∈ StatusValues l, v &&& StatusEmptyMask B = 0) ∧
        ((DrainMailboxLoop B Budget Tries S).1 = true →
          ∃ v ∈ StatusValues l, v &&& StatusEmptyMask B ≠ 0) := by
  intro Budget
  induction Budget with
  | zero => intro Tries S _ h; omega
  | succ b ih =>
    intro Tries S hsum _
    rw [DrainMailboxLoop]
    simp only []
    by_cases hc : (MmioRead32Status B S).1 &&& StatusEmptyMask B ≠ 0
    · rw [if_pos hc]
      refine ⟨[MboxEvent.Status (MmioRead32Status B S).1], rfl,
        (StatusReads_status _).ge, ?_, MailboxWrites_status _, rfl, rfl, ?_, ?_⟩
      · rw [StatusReads_status]; omega
      · intro h; exact absurd h (by simp)
      · intro _; exact ⟨_, List.mem_singleton.mpr rfl, hc⟩
    · rw [if_neg hc]
      have hz : (MmioRead32Status B S).1 &&& StatusEmptyMask B = 0 := not_not.mp hc
      have hr : StatusReads [MboxEvent.Status (MmioRead32Status B S).1,
          MboxEvent.Read (MmioRead32Read B (MmioRead32Status B S).2).1] = 1 := rfl
      have hw : MailboxWrites [MboxEvent.Status (MmioRead32Status B S).1,
          MboxEvent.Read (MmioRead32Read B (MmioRead32Status B S).2).1] = 0 := rfl
      have htr : (MmioRead32Read B (MmioRead32Status B S).2).2.Trace =
          S.Trace ++ [MboxEvent.Status (MmioRead32Status B S).1,
            MboxEvent.Read (MmioRead32Read B (MmioRead32Status B S).2).1] := by
        simp only [MmioRead32Read, MmioRead32Status, List.append_assoc, List.singleton_append]
      by_cases ht : Tries + 1 < B.C.RPI_MBOX_MAX_TRIES
      · rw [if_pos ht]
        obtain ⟨l, h1, h2, h3, h4, h5, h6, h7, h8⟩ :=
          ih (Tries + 1) (MmioRead32Read B (MmioRead32Status B S).2).2 (by omega) (by omega)
        refine ⟨[MboxEvent.Status (MmioRead32Status B S).1,
            MboxEvent.Read (MmioRead32Read B (MmioRead32Status B S).2).1] ++ l,
          ?_, ?_, ?_, ?_, h5, h6, ?_, ?_⟩
        · rw [h1, htr, List.append_assoc]
        · rw [StatusReads_append, hr]; omega
        · rw [StatusReads_append, hr]; omega
        · rw [MailboxWrites_append, hw, h4]
        · intro hf
          obtain ⟨e1, e2⟩ := h7 hf
          refine ⟨?_, ?_⟩
          · rw [StatusReads_append, hr]; omega
          · intro v hv
            rw [StatusValues_append] at hv
            rcases List.mem_append.mp hv with hv | hv
            · rw [List.mem_singleton.mp hv]
              exact hz
            · exact e2 v hv
        · intro htrue
          obtain ⟨v, hv, hnz⟩ := h8 htrue
          refine ⟨v, ?_, hnz⟩
          rw [StatusValues_append]
          exact List.mem_append_right _ hv
      · rw [if_neg ht]
        refine ⟨[MboxEvent.Status (MmioRead32Status B S).1,
            MboxEvent.Read (MmioRead32Read B (MmioRead32Status B S).2).1],
          htr, hr.ge, ?_, hw, rfl, rfl, ?_, ?_⟩
        · rw [hr]; omega
        · intro _
          refine ⟨by rw [hr]; omega, ?_⟩
          intro v hv
          rw [List.mem_singleton.mp hv]
          exact hz
        · intro h; exact absurd h (by simp)

theorem DrainMailbox_spec (B : Board σ) (hM : 1 ≤ B.C.RPI_MBOX_MAX_TRIES) (S : Rpi σ) :
    ∃ l, (DrainMailbox B S).2.Trace = S.Trace ++ l ∧
      1 ≤ StatusReads l ∧ StatusReads l ≤ B.C.RPI_MBOX_MAX_TRIES ∧ MailboxWrites l = 0 ∧
      (DrainMailbox B S).2.Dma = S.Dma ∧
      (DrainMailbox B S).2.mMailboxLock = S.mMailboxLock ∧
      ((DrainMailbox B S).1 = false →
        StatusReads l = B.C.RPI_MBOX_MAX_TRIES ∧
          ∀ v ∈ StatusValues l, v &&& StatusEmptyMask B = 0) ∧
      ((DrainMailbox B S).1 = true → ∃ v ∈ StatusValues l, v &&& StatusEmptyMask B ≠ 0) := by
  obtain ⟨l, h1, h2, h3, h4, h5, h6, h7, h8⟩ :=
    DrainMailboxLoop_spec B B.C.RPI_MBOX_MAX_TRIES 0 S (by omega) (by omega)
  refine ⟨l, h1, h2, by omega, h4, h5, h6, ?_, h8⟩
  intro hf
  obtain ⟨e1, e2⟩ := h7 hf
  exact ⟨by omega, e2⟩

theorem MailboxWaitForStatusCleared_spec (B : Board σ) (hM : 1 ≤ B.C.RPI_MBOX_MAX_TRIES)
    (S : Rpi σ) (Mask : Nat) :
    ∃ l, (MailboxWaitForStatusCleared B S Mask).2.Trace = S.Trace ++ l ∧
      1 ≤ StatusReads l ∧ StatusReads l ≤ B.C.RPI_MBOX_MAX_TRIES ∧ MailboxWrites l = 0 ∧
      (MailboxWaitForStatusCleared B S Mask).2.Dma = S.Dma ∧
      (MailboxWaitForStatusCleared B S Mask).2.mMailboxLock = S.mMailboxLock ∧
      ((MailboxWaitForStatusCleared B S Mask).1 = false →
        StatusReads l = B.C.RPI_MBOX_MAX_TRIES ∧ ∀ v ∈ StatusValues l, v &&& Mask ≠ 0) ∧
      ((MailboxWaitForStatusCleared B S Mask).1 = true →
        ∃ v ∈ StatusValues l, v &&& Mask = 0) := by
  obtain ⟨l, h1, h2, h3, h4, h5, h6, h7, h8⟩ :=
    WaitLoop_spec B Mask B.C.RPI_MBOX_MAX_TRIES 0 S (by omega) (by omega)
  refine ⟨l, h1, h2, by omega, h4, h5, h6, ?_, h8⟩
  intro hf
  obtain ⟨e1, e2⟩ := h7 hf
  exact ⟨by omega, e2⟩

/-! ## Lemmas: the transaction -/

theorem MailboxTransaction_eq (B : Board σ) (S : Rpi σ) (Length Channel : Nat)
    (hC : Channel < B.C.BCM2836_MBOX_NUM_CHANNELS) :
    MailboxTransaction B S Length Channel =
      if (DrainMailbox B S).1 = false then (EFI_TIMEOUT, none, (DrainMailbox B S).2)
      else if (OutboxWait B S).1 = false then (EFI_TIMEOUT, none, (OutboxWait B S).2)
      else if (InboxWait B S Channel).1 = false then
        (EFI_TIMEOUT, none, (InboxWait B S Channel).2)
      else
        (EFI_SUCCESS, some (MmioRead32Read B (InboxWait B S Channel).2).1,
          (MmioRead32Read B (InboxWait B S Channel).2).2) := by
  unfold MailboxTransaction InboxWait Started OutboxWait
  rw [if_neg (by omega)]
  simp only []
  cases (DrainMailbox B S).1
  · simp
  · cases (MailboxWaitForStatusCleared B (DrainMailbox B S).2 (StatusFullMask B)).1
    · simp
    · cases (MailboxWaitForStatusCleared B
        (MmioWrite32Write B
          (MailboxWaitForStatusCleared B (DrainMailbox B S).2 (StatusFullMask B)).2
          ((B.mDmaBufferBusAddress ||| Channel) % 2 ^ 32)) (StatusEmptyMask B)).1
      · simp
      · simp

theorem MailboxTransaction_polls (B : Board σ) (hM : 1 ≤ B.C.RPI_MBOX_MAX_TRIES) (S : Rpi σ)
    (Length Channel : Nat) (hC : Channel < B.C.BCM2836_MBOX_NUM_CHANNELS) :
    ∃ l, (MailboxTransaction B S Length Channel).2.2.Trace = S.Trace ++ l ∧
      StatusReads l ≤ 3 * B.C.RPI_MBOX_MAX_TRIES ∧ MailboxWrites l ≤ 1 ∧
      ((DrainMailbox B S).1 = false →
        (MailboxTransaction B S Length Channel).1 = EFI_TIMEOUT ∧ MailboxWrites l = 0) ∧
      ((DrainMailbox B S).1 = true → (OutboxWait B S).1 = false →
        (MailboxTransaction B S Length Channel).1 = EFI_TIMEOUT ∧ MailboxWrites l = 0) ∧
      ((DrainMailbox B S).1 = true → (OutboxWait B S).1 = true →
        MailboxWrites l = 1 ∧
        ((InboxWait B S Channel).1 = false →
          (MailboxTransaction B S Length Channel).1 = EFI_TIMEOUT) ∧
        ((InboxWait B S Channel).1 = true →
          (MailboxTransaction B S Length Channel).1 = EFI_SUCCESS)) := by
  rw [MailboxTransaction_eq B S Length Channel hC]
  obtain ⟨ld, d1, -, d3, d4, -, -, -, -⟩ := DrainMailbox_spec B hM S
  cases hd : (DrainMailbox B S).1
  · refine ⟨ld, ?_, by omega, by omega, ?_, ?_, ?_⟩
    · simp only [if_true]; exact d1
    · intro _; exact ⟨by simp, d4⟩
    · intro h; exact absurd h (by simp)
    · intro h; exact absurd h (by simp)
  · obtain ⟨lw, w1, -, w3, w4, -, -, -, -⟩ :=
      MailboxWaitForStatusCleared_spec B hM (DrainMailbox B S).2 (StatusFullMask B)
    have w1' : (OutboxWait B S).2.Trace = S.Trace ++ (ld ++ lw) := by
      rw [OutboxWait, w1, d1, List.append_assoc]
    cases hw : (OutboxWait B S).1
    · refine ⟨ld ++ lw, ?_, ?_, ?_, ?_, ?_, ?_⟩
      · simp only [Bool.true_eq_false, if_false, if_true]; exact w1'
      · rw [StatusReads_append]; omega
      · rw [MailboxWrites_append]; omega
      · intro h; exact absurd h (by simp)
      · intro _ _; exact ⟨by simp, by rw [MailboxWrites_append]; omega⟩
      · intro _ h; exact absurd h (by simp)
    · obtain ⟨le, e1, -, e3, e4, -, -, -, -⟩ :=
        MailboxWaitForStatusCleared_spec B hM (Started B S Channel) (StatusEmptyMask B)
      have hs : (Started B S Channel).Trace = S.Trace ++ (ld ++ lw ++
          [MboxEvent.Write ((B.mDmaBufferBusAddress ||| Channel) % 2 ^ 32)]) := by
        simp only [Started, MmioWrite32Write, w1', List.append_assoc]
      have e1' : (InboxWait B S Channel).2.Trace = S.Trace ++ (ld ++ lw ++
          [MboxEvent.Write ((B.mDmaBufferBusAddress ||| Channel) % 2 ^ 32)] ++ le) := by
        rw [InboxWait, e1, hs]
        simp only [List.append_assoc]
      have hwr : MailboxWrites
          [MboxEvent.Write ((B.mDmaBufferBusAddress ||| Channel) % 2 ^ 32)] = 1 := rfl
      have hsr : StatusReads
          [MboxEvent.Write ((B.mDmaBufferBusAddress ||| Channel) % 2 ^ 32)] = 0 := rfl
      cases he : (InboxWait B S Channel).1
      · refine ⟨ld ++ lw ++ [MboxEvent.Write ((B.mDmaBufferBusAddress ||| Channel) % 2 ^ 32)]
          ++ le, ?_, ?_, ?_, ?_, ?_, ?_⟩
        · simp only [Bool.true_eq_false, if_false, if_true]; exact e1'
        · simp only [StatusReads_append, hsr]; omega
        · simp only [MailboxWrites_append, hwr]; omega
        · intro h; exact absurd h (by simp)
        · intro _ h; exact absurd h (by simp)
        · intro _ _
          exact ⟨by simp only [MailboxWrites_append, hwr]; omega, fun _ => by simp,
            fun h => absurd h (by simp)⟩
      · refine ⟨ld ++ lw ++ [MboxEvent.Write ((B.mDmaBufferBusAddress ||| Channel) % 2 ^ 32)]
          ++ le ++ [MboxEvent.Read (MmioRead32Read B (InboxWait B S Channel).2).1],
          ?_, ?_, ?_, ?_, ?_, ?_⟩
        · simp only [Bool.true_eq_false, if_false]
          simp only [MmioRead32Read, e1', List.append_assoc]
        · have : StatusReads [MboxEvent.Read (MmioRead32Read B (InboxWait B S Channel).2).1]
            = 0 := rfl
          simp only [StatusReads_append, hsr, this]; omega
        · have : MailboxWrites [MboxEvent.Read (MmioRead32Read B (InboxWait B S Channel).2).1]
            = 0 := rfl
          simp only [MailboxWrites_append, hwr, this]; omega
        · intro h; exact absurd h (by simp)
        · intro _ h; exact absurd h (by simp)
        · intro _ _
          have : MailboxWrites [MboxEvent.Read (MmioRead32Read B (InboxWait B S Channel).2).1]
            = 0 := rfl
          exact ⟨by simp only [MailboxWrites_append, hwr, this]; omega,
            fun h => absurd h (by simp), fun _ => by simp⟩

/-! ## Lemmas: the lock -/

theorem AcquireSpinLockOrFail_held (S : Rpi σ) (h : S.mMailboxLock = true) :
    AcquireSpinLockOrFail S =
      (false, { S with Trace := S.Trace ++ [MboxEvent.Acquire false] }) := by
  simp only [AcquireSpinLockOrFail, h, if_true]

theorem AcquireSpinLockOrFail_free (S : Rpi σ) (h : S.mMailboxLock = false) :
    AcquireSpinLockOrFail S =
      (true, { S with mMailboxLock := true, Trace := S.Trace ++ [MboxEvent.Acquire true] }) := by
  simp only [AcquireSpinLockOrFail, h, Bool.false_eq_true, if_false]

theorem StoreFields_lock : ∀ (Fields : List (Nat × Nat)) (S : Rpi σ),
    (StoreFields S Fields).mMailboxLock = S.mMailboxLock := by
  intro Fields
  induction Fields with
  | nil => intro S; rfl
  | cons f Fields ih =>
    intro S
    obtain ⟨o, v⟩ := f
    rw [StoreFields, ih]
    rfl

theorem WaitLoop_lock (B : Board σ) (Mask : Nat) :
    ∀ (Budget Tries : Nat) (S : Rpi σ),
      (WaitLoop B Mask Budget Tries S).2.mMailboxLock = S.mMailboxLock := by
  intro Budget
  induction Budget with
  | zero =>
    intro Tries S
    rw [WaitLoop]
    split <;> rfl
  | succ b ih =>
    intro Tries S
    rw [WaitLoop]
    simp only []
    split
    · rfl
    · split
      · rw [ih]; rfl
      · rfl

theorem DrainMailboxLoop_lock (B : Board σ) :
    ∀ (Budget Tries : Nat) (S : Rpi σ),
      (DrainMailboxLoop B Budget Tries S).2.mMailboxLock = S.mMailboxLock := by
  intro Budget
  induction Budget with
  | zero =>
    intro Tries S
    rw [DrainMailboxLoop]
    split <;> rfl
  | succ b ih =>
    intro Tries S
    rw [DrainMailboxLoop]
    simp only []
    split
    · rfl
    · split
      · rw [ih]; rfl
      · rfl

theorem MailboxTransaction_lock (B : Board σ) (S : Rpi σ) (Length Channel : Nat) :
    (MailboxTransaction B S Length Channel).2.2.mMailboxLock = S.mMailboxLock := by
  have hd : (DrainMailbox B S).2.mMailboxLock = S.mMailboxLock := DrainMailboxLoop_lock B _ _ S
  have hw : (OutboxWait B S).2.mMailboxLock = S.mMailboxLock :=
    (WaitLoop_lock B _ _ _ _).trans hd
  have hs : (Started B S Channel).mMailboxLock = S.mMailboxLock := hw
  have he : (InboxWait B S Channel).2.mMailboxLock = S.mMailboxLock :=
    (WaitLoop_lock B _ _ _ _).trans hs
  by_cases hC : Channel < B.C.BCM2836_MBOX_NUM_CHANNELS
  · rw [MailboxTransaction_eq B S Length Channel hC]
    split_ifs
    · exact hd
    · exact hw
    · exact he
    · exact he
  · rw [MailboxTransaction, if_pos (by omega)]

theorem MailboxQuery_held (B : Board σ) (S : Rpi σ) (Length : Nat) (Fields : List (Nat × Nat))
    (Outputs : Memory → List Nat) (h : S.mMailboxLock = true) :
    MailboxQuery B S Length Fields Outputs =
      (EFI_DEVICE_ERROR, [], { S with Trace := S.Trace ++ [MboxEvent.Acquire false] }) := by
  simp only [MailboxQuery, AcquireSpinLockOrFail_held S h, Bool.not_false, if_true]

theorem MailboxQuery_free (B : Board σ) (S : Rpi σ) (Length : Nat) (Fields : List (Nat × Nat))
    (Outputs : Memory → List Nat) (h : S.mMailboxLock = false) :
    (MailboxQuery B S Length Fields Outputs).2.2.mMailboxLock = false := by
  simp only [MailboxQuery, AcquireSpinLockOrFail_free S h, Bool.not_true, Bool.false_eq_true,
    if_false]
  split <;> rfl

theorem RpiFirmwareSetGpio_free (B : Board σ) (S : Rpi σ) (Gpio : Nat) (State : Bool)
    (h : S.mMailboxLock = false) : (RpiFirmwareSetGpio B S Gpio State).mMailboxLock = false := by
  simp only [RpiFirmwareSetGpio, AcquireSpinLockOrFail_free S h, Bool.not_true,
    Bool.false_eq_true, if_false]
  rfl

theorem RpiFirmwareNotifyGpioGetCfg_free (B : Board σ) (S : Rpi σ) (Gpio : Nat)
    (h : S.mMailboxLock = false) :
    (RpiFirmwareNotifyGpioGetCfg B S Gpio).2.2.mMailboxLock = false := by
  simp only [RpiFirmwareNotifyGpioGetCfg, AcquireSpinLockOrFail_free S h, Bool.not_true,
    Bool.false_eq_true, if_false]
  rfl

theorem RpiFirmwareNotifyGpioGetCfg_held (B : Board σ) (S : Rpi σ) (Gpio : Nat)
    (h : S.mMailboxLock = true) :
    RpiFirmwareNotifyGpioGetCfg B S Gpio =
      (EFI_DEVICE_ERROR, [], { S with Trace := S.Trace ++ [MboxEvent.Acquire false] }) := by
  simp only [RpiFirmwareNotifyGpioGetCfg, AcquireSpinLockOrFail_held S h, Bool.not_false, if_true]

theorem RpiFirmwareNotifyGpioSetCfg_held (B : Board σ) (S : Rpi σ) (Gpio Direction State : Nat)
    (h : S.mMailboxLock = true) :
    RpiFirmwareNotifyGpioSetCfg B S Gpio Direction State =
      (EFI_DEVICE_ERROR, [],
        { S with Trace := S.Trace ++ List.replicate 2 (MboxEvent.Acquire false) }) := by
  have h2 : ({ S with Trace := S.Trace ++ [MboxEvent.Acquire false] } : Rpi σ).mMailboxLock =
      true := h
  simp only [RpiFirmwareNotifyGpioSetCfg, RpiFirmwareNotifyGpioGetCfg_held B S Gpio h,
    AcquireSpinLockOrFail_held _ h2, Bool.not_false, if_true, List.append_assoc,
    List.singleton_append, List.replicate]

theorem RpiFirmwareNotifyGpioSetCfg_free (B : Board σ) (S : Rpi σ) (Gpio Direction State : Nat)
    (h : S.mMailboxLock = false) :
    (RpiFirmwareNotifyGpioSetCfg B S Gpio Direction State).2.2.mMailboxLock = false := by
  have hg := RpiFirmwareNotifyGpioGetCfg_free B S Gpio h
  simp only [RpiFirmwareNotifyGpioSetCfg, AcquireSpinLockOrFail_free _ hg, Bool.not_true,
    Bool.false_eq_true, if_false]
  exact RpiFirmwareSetGpio_free B _ _ _ rfl

theorem RpiFirmwareGetSerial_free (B : Board σ) (S : Rpi σ) (h : S.mMailboxLock = false) :
    (RpiFirmwareGetSerial B S).2.2.mMailboxLock = false := by
  simp only [RpiFirmwareGetSerial, AcquireSpinLockOrFail_free S h, Bool.not_true,
    Bool.false_eq_true, if_false]
  split
  · rfl
  · split
    · exact MailboxQuery_free B _ _ _ _ rfl
    · rfl

theorem RpiFirmwareGetCommmandLine_free (B : Board σ) (S : Rpi σ) (BufferSize : Nat)
    (h : S.mMailboxLock = false) :
    (RpiFirmwareGetCommmandLine B S BufferSize).2.2.mMailboxLock = false := by
  unfold RpiFirmwareGetCommmandLine
  split
  · exact h
  · split
    · exact h
    · simp only [AcquireSpinLockOrFail_free S h, Bool.not_true, Bool.false_eq_true, if_false]
      split
      · rfl
      · split <;> rfl


/-! ## Lemmas: the polling loops against the device -/

theorem StatusReads_PollTrace (B : Board σ) : ∀ (n : Nat) (s : σ),
    StatusReads (PollTrace B n s) = n ∧ MailboxWrites (PollTrace B n s) = 0 ∧
      StatusValues (PollTrace B n s) = (List.range n).map fun k => PollValue B k s := by
  intro n
  induction n with
  | zero => intro s; exact ⟨rfl, rfl, rfl⟩
  | succ n ih =>
    intro s
    obtain ⟨h1, h2, h3⟩ := ih (B.MmioReadStatus s).2
    refine ⟨?_, ?_, ?_⟩
    · simp only [PollTrace, StatusReads, IsStatus, List.countP_cons_of_pos] at h1 ⊢
      omega
    · simpa only [PollTrace, MailboxWrites, IsMboxWrite, List.countP_cons, Bool.false_eq_true,
        if_false, Nat.add_zero] using h2
    · rw [List.range_succ_eq_map, List.map_cons, List.map_map, PollTrace, StatusValues, h3]
      rfl

theorem StatusReads_DrainTrace (B : Board σ) : ∀ (n : Nat) (s : σ),
    StatusReads (DrainTrace B n s) = n ∧ MailboxWrites (DrainTrace B n s) = 0 ∧
      StatusValues (DrainTrace B n s) = (List.range n).map fun k => DrainValue B k s := by
  intro n
  induction n with
  | zero => intro s; exact ⟨rfl, rfl, rfl⟩
  | succ n ih =>
    intro s
    obtain ⟨h1, h2, h3⟩ := ih (B.MmioReadRead (B.MmioReadStatus s).2).2
    refine ⟨?_, ?_, ?_⟩
    · simp only [DrainTrace, StatusReads, IsStatus, List.countP_cons_of_pos, List.countP_cons,
        Bool.false_eq_true, if_false, Nat.add_zero] at h1 ⊢
      omega
    · simpa only [DrainTrace, MailboxWrites, IsMboxWrite, List.countP_cons, Bool.false_eq_true,
        if_false, Nat.add_zero] using h2
    · have e : StatusValues (DrainTrace B (n + 1) s) = (B.MmioReadStatus s).1 % 2 ^ 32 ::
          StatusValues (DrainTrace B n (B.MmioReadRead (B.MmioReadStatus s).2).2) := rfl
      rw [e, h3, List.range_succ_eq_map, List.map_cons, List.map_map]
      rfl

/-- The loop of MailboxWaitForStatusCleared makes `m + 1` reads of the status register:
the first `m` had a bit of the mask set, and the loop reports success exactly when read
`m` has none set and failure only when `m + 1` reaches RPI_MBOX_MAX_TRIES. -/
theorem WaitLoop_device (B : Board σ) (Mask : Nat) :
    ∀ (Budget Tries : Nat) (S : Rpi σ),
      Tries + Budget = B.C.RPI_MBOX_MAX_TRIES → 0 < Budget →
      ∃ m, Tries + m + 1 ≤ B.C.RPI_MBOX_MAX_TRIES ∧
        (∀ k, k < m → PollValue B k S.Hw &&& Mask ≠ 0) ∧
        ((WaitLoop B Mask Budget Tries S).1 = true ↔ PollValue B m S.Hw &&& Mask = 0) ∧
        ((WaitLoop B Mask Budget Tries S).1 = false → Tries + m + 1 = B.C.RPI_MBOX_MAX_TRIES) ∧
        (WaitLoop B Mask Budget Tries S).2 =
          { S with Hw := AfterPolls B (m + 1) S.Hw
                   Trace := S.Trace ++ PollTrace B (m + 1) S.Hw } := by
  intro Budget
  induction Budget with
  | zero => intro Tries S _ h; omega
  | succ b ih =>
    intro Tries S hsum _
    rw [WaitLoop]
    simp only []
    have hv : (MmioRead32Status B S).1 = PollValue B 0 S.Hw := rfl
    by_cases hc : (MmioRead32Status B S).1 &&& Mask = 0
    · rw [if_pos hc]
      refine ⟨0, by omega, fun k hk => absurd hk (Nat.not_lt_zero k), ?_, ?_, rfl⟩
      · rw [← hv]; exact ⟨fun _ => hc, fun _ => rfl⟩
      · intro h; exact absurd h (by simp)
    · rw [if_neg hc]
      by_cases ht : Tries + 1 < B.C.RPI_MBOX_MAX_TRIES
      · rw [if_pos ht]
        obtain ⟨m, h1, h2, h3, h4, h5⟩ :=
          ih (Tries + 1) (MmioRead32Status B S).2 (by omega) (by omega)
        refine ⟨m + 1, by omega, ?_, h3, ?_, ?_⟩
        · intro k hk
          cases k with
          | zero => rw [← hv]; exact hc
          | succ j => exact h2 j (by omega)
        · intro hf
          have := h4 hf
          omega
        · rw [h5]
          simp only [MmioRead32Status, List.append_assoc, List.singleton_append]
          rfl
      · rw [if_neg ht]
        refine ⟨0, by omega, fun k hk => absurd hk (Nat.not_lt_zero k), ?_, ?_, rfl⟩
        · rw [← hv]
          exact ⟨fun h => absurd h (by simp), fun h => absurd h hc⟩
        · intro _; omega

/-- MailboxWaitForStatusCleared against the device: it fails exactly when each of the
RPI_MBOX_MAX_TRIES reads of the status register has a bit of the mask set. -/
theorem MailboxWaitForStatusCleared_device (B : Board σ) (hM : 1 ≤ B.C.RPI_MBOX_MAX_TRIES)
    (S : Rpi σ) (Mask : Nat) :
    ((MailboxWaitForStatusCleared B S Mask).1 = false ↔
      ∀ k, k < B.C.RPI_MBOX_MAX_TRIES → PollValue B k S.Hw &&& Mask ≠ 0) ∧
    ∃ m, m < B.C.RPI_MBOX_MAX_TRIES ∧
      (∀ k, k < m → PollValue B k S.Hw &&& Mask ≠ 0) ∧
      ((MailboxWaitForStatusCleared B S Mask).1 = true ↔ PollValue B m S.Hw &&& Mask = 0) ∧
      ((MailboxWaitForStatusCleared B S Mask).1 = false → m + 1 = B.C.RPI_MBOX_MAX_TRIES) ∧
      (MailboxWaitForStatusCleared B S Mask).2 =
        { S with Hw := AfterPolls B (m + 1) S.Hw
                 Trace := S.Trace ++ PollTrace B (m + 1) S.Hw } := by
  obtain ⟨m, h1, h2, h3, h4, h5⟩ :=
    WaitLoop_device B Mask B.C.RPI_MBOX_MAX_TRIES 0 S (by omega) (by omega)
  refine ⟨⟨?_, ?_⟩, m, by omega, h2, h3, fun hf => by have := h4 hf; omega, h5⟩
  · intro hf k hk
    have hm := h4 hf
    by_cases hkm : k < m
    · exact h2 k hkm
    · have e : k = m := by omega
      rw [e]
      intro hz
      have := h3.mpr hz
      rw [MailboxWaitForStatusCleared] at hf
      rw [hf] at this
      exact absurd this (by simp)
  · intro hall
    cases hr : (MailboxWaitForStatusCleared B S Mask).1
    · rfl
    · exact absurd (h3.mp hr) (hall m (by omega))

/-- The loop of DrainMailbox makes `m + 1` reads of the status register: the first `m`
had the empty bit clear and were each followed by a read of the read register; the
loop reports success exactly when read `m` has the empty bit set, and then makes no
further read; it reports failure only when `m + 1` reaches RPI_MBOX_MAX_TRIES. -/
theorem DrainMailboxLoop_device (B : Board σ) :
    ∀ (Budget Tries : Nat) (S : Rpi σ),
      Tries + Budget = B.C.RPI_MBOX_MAX_TRIES → 0 < Budget →
      ∃ m, Tries + m + 1 ≤ B.C.RPI_MBOX_MAX_TRIES ∧
        (∀ k, k < m → DrainValue B k S.Hw &&& StatusEmptyMask B = 0) ∧
        ((DrainMailboxLoop B Budget Tries S).1 = true ↔
          DrainValue B m S.Hw &&& StatusEmptyMask B ≠ 0) ∧
        ((DrainMailboxLoop B Budget Tries S).1 = false →
          Tries + m + 1 = B.C.RPI_MBOX_MAX_TRIES) ∧
        (DrainMailboxLoop B Budget Tries S).2 =
          (if (DrainMailboxLoop B Budget Tries S).1 then
            { S with Hw := (B.MmioReadStatus (AfterDrains B m S.Hw)).2
                     Trace := S.Trace ++ (DrainTrace B m S.Hw ++
                       [MboxEvent.Status (DrainValue B m S.Hw)]) }
          else
            { S with Hw := AfterDrains B (m + 1) S.Hw
                     Trace := S.Trace ++ DrainTrace B (m + 1) S.Hw }) := by
  intro Budget
  induction Budget with
  | zero => intro Tries S _ h; omega
  | succ b ih =>
    intro Tries S hsum _
    rw [DrainMailboxLoop]
    simp only []
    have hv : (MmioRead32Status B S).1 = DrainValue B 0 S.Hw := rfl
    by_cases hc : (MmioRead32Status B S).1 &&& StatusEmptyMask B ≠ 0
    · rw [if_pos hc]
      refine ⟨0, by omega, fun k hk => absurd hk (Nat.not_lt_zero k), ?_, ?_, ?_⟩
      · rw [← hv]; exact ⟨fun _ => hc, fun _ => rfl⟩
      · intro h; exact absurd h (by simp)
      · simp only [if_true]
        rfl
    · rw [if_neg hc]
      have hz : (MmioRead32Status B S).1 &&& StatusEmptyMask B = 0 := not_not.mp hc
      by_cases ht : Tries + 1 < B.C.RPI_MBOX_MAX_TRIES
      · rw [if_pos ht]
        obtain ⟨m, h1, h2, h3, h4, h5⟩ :=
          ih (Tries + 1) (MmioRead32Read B (MmioRead32Status B S).2).2 (by omega) (by omega)
        refine ⟨m + 1, by omega, ?_, h3, ?_, ?_⟩
        · intro k hk
          cases k with
          | zero => rw [← hv]; exact hz
          | succ j => exact h2 j (by omega)
        · intro hf
          have := h4 hf
          omega
        · rw [h5]
          cases (DrainMailboxLoop B b (Tries + 1) (MmioRead32Read B (MmioRead32Status B S).2).2).1
          · simp only [Bool.false_eq_true, if_false, MmioRead32Read, MmioRead32Status,
              List.append_assoc, List.singleton_append]
            rfl
          · simp only [if_true, MmioRead32Read, MmioRead32Status,
              List.append_assoc, List.singleton_append]
            rfl
      · rw [if_neg ht]
        refine ⟨0, by omega, fun k hk => absurd hk (Nat.not_lt_zero k), ?_, ?_, ?_⟩
        · rw [← hv]
          exact ⟨fun h => absurd h (by simp), fun h => absurd hz h⟩
        · intro _; omega
        · simp only [Bool.false_eq_true, if_false, MmioRead32Read, MmioRead32Status,
            List.append_assoc, List.singleton_append]
          rfl

/-- DrainMailbox against the device: it fails exactly when each of the
RPI_MBOX_MAX_TRIES reads of the status register has the empty bit clear. -/
theorem DrainMailbox_device (B : Board σ) (hM : 1 ≤ B.C.RPI_MBOX_MAX_TRIES) (S : Rpi σ) :
    ((DrainMailbox B S).1 = false ↔
      ∀ k, k < B.C.RPI_MBOX_MAX_TRIES → DrainValue B k S.Hw &&& StatusEmptyMask B = 0) ∧
    ∃ m, m < B.C.RPI_MBOX_MAX_TRIES ∧
      (∀ k, k < m → DrainValue B k S.Hw &&& StatusEmptyMask B = 0) ∧
      ((DrainMailbox B S).1 = true ↔ DrainValue B m S.Hw &&& StatusEmptyMask B ≠ 0) ∧
      ((DrainMailbox B S).1 = false → m + 1 = B.C.RPI_MBOX_MAX_TRIES) ∧
      (DrainMailbox B S).2 =
        (if (DrainMailbox B S).1 then
          { S with Hw := (B.MmioReadStatus (AfterDrains B m S.Hw)).2
                   Trace := S.Trace ++ (DrainTrace B m S.Hw ++
                     [MboxEvent.Status (DrainValue B m S.Hw)]) }
        else
          { S with Hw := AfterDrains B (m + 1) S.Hw
                   Trace := S.Trace ++ DrainTrace B (m + 1) S.Hw }) := by
  obtain ⟨m, h1, h2, h3, h4, h5⟩ :=
    DrainMailboxLoop_device B B.C.RPI_MBOX_MAX_TRIES 0 S (by omega) (by omega)
  refine ⟨⟨?_, ?_⟩, m, by omega, h2, h3, fun hf => by have := h4 hf; omega, h5⟩
  · intro hf k hk
    have hm := h4 hf
    by_cases hkm : k < m
    · exact h2 k hkm
    · have e : k = m := by omega
      rw [e]
      by_contra hnz
      have := h3.mpr hnz
      rw [DrainMailbox] at hf
      rw [hf] at this
      exact absurd this (by simp)
  · intro hall
    cases hr : (DrainMailbox B S).1
    · rfl
    · exact absurd (hall m (by omega)) (h3.mp hr)

/-- In a transaction whose first two waits succeed, the write of the write register comes
after the reads of those two waits and is the only one. -/
theorem MailboxTransaction_order (B : Board σ) (hM : 1 ≤ B.C.RPI_MBOX_MAX_TRIES) (S : Rpi σ)
    (Length Channel : Nat) (hC : Channel < B.C.BCM2836_MBOX_NUM_CHANNELS)
    (hd : (DrainMailbox B S).1 = true) (hw : (OutboxWait B S).1 = true) :
    ∃ l1 l2, (MailboxTransaction B S Length Channel).2.2.Trace =
        S.Trace ++ (l1 ++ MboxEvent.Write ((B.mDmaBufferBusAddress ||| Channel) % 2 ^ 32) :: l2) ∧
      (OutboxWait B S).2.Trace = S.Trace ++ l1 ∧ MailboxWrites l1 = 0 ∧ MailboxWrites l2 = 0 := by
  rw [MailboxTransaction_eq B S Length Channel hC]
  obtain ⟨ld, d1, -, -, d4, -, -, -, -⟩ := DrainMailbox_spec B hM S
  obtain ⟨lw, w1, -, -, w4, -, -, -, -⟩ :=
    MailboxWaitForStatusCleared_spec B hM (DrainMailbox B S).2 (StatusFullMask B)
  obtain ⟨le, e1, -, -, e4, -, -, -, -⟩ :=
    MailboxWaitForStatusCleared_spec B hM (Started B S Channel) (StatusEmptyMask B)
  have w1' : (OutboxWait B S).2.Trace = S.Trace ++ (ld ++ lw) := by
    rw [OutboxWait, w1, d1, List.append_assoc]
  have hs : (Started B S Channel).Trace = S.Trace ++ (ld ++ lw ++
      [MboxEvent.Write ((B.mDmaBufferBusAddress ||| Channel) % 2 ^ 32)]) := by
    simp only [Started, MmioWrite32Write, w1', List.append_assoc]
  have e1' : (InboxWait B S Channel).2.Trace = S.Trace ++ ((ld ++ lw) ++
      MboxEvent.Write ((B.mDmaBufferBusAddress ||| Channel) % 2 ^ 32) :: le) := by
    rw [InboxWait, e1, hs]
    simp only [List.append_assoc, List.singleton_append]
  have h0 : MailboxWrites (ld ++ lw) = 0 := by rw [MailboxWrites_append, d4, w4]
  rw [hd, hw]
  cases he : (InboxWait B S Channel).1
  · refine ⟨ld ++ lw, le, ?_, w1', h0, e4⟩
    simp only [Bool.true_eq_false, if_false, if_true]
    exact e1'
  · refine ⟨ld ++ lw, le ++ [MboxEvent.Read (MmioRead32Read B (InboxWait B S Channel).2).1],
      ?_, w1', h0, ?_⟩
    · simp only [Bool.true_eq_false, if_false]
      simp only [MmioRead32Read, e1', List.append_assoc, List.cons_append]
    · rw [MailboxWrites_append, e4]
      rfl
/-! ## Claims on RpiFirmwareDxe -/

/-- C24. Mailbox polling is bounded, for RPI_MBOX_MAX_TRIES >= 1 and whatever the device
returns. The timeouts are stated on the values the device returns to the reads of the
status register (DrainValue for DrainMailbox, where every failed read is followed by a
read of the read register, PollValue for MailboxWaitForStatusCleared).
With Channel >= BCM2836_MBOX_NUM_CHANNELS MailboxTransaction returns invalid parameter
and accesses no register. Otherwise it returns after at most 3 * RPI_MBOX_MAX_TRIES
reads of the status register and at most one write of the write register, and:
if RPI_MBOX_MAX_TRIES reads in a row have the empty bit clear, it returns timeout without
a write; if the mailbox drains but RPI_MBOX_MAX_TRIES reads in a row then have the full
bit set, it returns timeout without a write; if the full bit clears within
RPI_MBOX_MAX_TRIES reads, the write register is written exactly once, after all reads of
the first two waits, with the bus address of the buffer and the channel, and then it
returns timeout if RPI_MBOX_MAX_TRIES reads in a row have the empty bit set, and success
if the empty bit clears within RPI_MBOX_MAX_TRIES reads. DrainMailbox and MailboxWaitForStatusCleared, in every state, fail exactly when
all RPI_MBOX_MAX_TRIES reads show the bit in the wrong state, and otherwise stop at the
first read that does not. -/
theorem mailbox_polling_bounded (B : Board σ) (hM : 1 ≤ B.C.RPI_MBOX_MAX_TRIES) (S : Rpi σ)
    (Length Channel : Nat) :
    (B.C.BCM2836_MBOX_NUM_CHANNELS ≤ Channel →
      MailboxTransaction B S Length Channel = (EFI_INVALID_PARAMETER, none, S)) ∧
    (Channel < B.C.BCM2836_MBOX_NUM_CHANNELS →
      ∃ l, (MailboxTransaction B S Length Channel).2.2.Trace = S.Trace ++ l ∧
        StatusReads l ≤ 3 * B.C.RPI_MBOX_MAX_TRIES ∧ MailboxWrites l ≤ 1 ∧
        ((∀ k, k < B.C.RPI_MBOX_MAX_TRIES → DrainValue B k S.Hw &&& StatusEmptyMask B = 0) →
          (MailboxTransaction B S Length Channel).1 = EFI_TIMEOUT ∧ MailboxWrites l = 0) ∧
        ((∃ k, k < B.C.RPI_MBOX_MAX_TRIES ∧ DrainValue B k S.Hw &&& StatusEmptyMask B ≠ 0) →
          (∀ k, k < B.C.RPI_MBOX_MAX_TRIES →
            PollValue B k (DrainMailbox B S).2.Hw &&& StatusFullMask B ≠ 0) →
          (MailboxTransaction B S Length Channel).1 = EFI_TIMEOUT ∧ MailboxWrites l = 0) ∧
        ((∃ k, k < B.C.RPI_MBOX_MAX_TRIES ∧ DrainValue B k S.Hw &&& StatusEmptyMask B ≠ 0) →
          (∃ k, k < B.C.RPI_MBOX_MAX_TRIES ∧
            PollValue B k (DrainMailbox B S).2.Hw &&& StatusFullMask B = 0) →
          (∃ l1 l2, l = l1 ++
              MboxEvent.Write ((B.mDmaBufferBusAddress ||| Channel) % 2 ^ 32) :: l2 ∧
            (OutboxWait B S).2.Trace = S.Trace ++ l1 ∧
            MailboxWrites l1 = 0 ∧ MailboxWrites l2 = 0) ∧
          (Started B S Channel).Hw = (B.MmioWriteWrite (OutboxWait B S).2.Hw
            ((B.mDmaBufferBusAddress ||| Channel) % 2 ^ 32) S.Dma).1 ∧
          ((∀ k, k < B.C.RPI_MBOX_MAX_TRIES →
              PollValue B k (Started B S Channel).Hw &&& StatusEmptyMask B ≠ 0) →
            (MailboxTransaction B S Length Channel).1 = EFI_TIMEOUT) ∧
          ((∃ k, k < B.C.RPI_MBOX_MAX_TRIES ∧
              PollValue B k (Started B S Channel).Hw &&& StatusEmptyMask B = 0) →
            (MailboxTransaction B S Length Channel).1 = EFI_SUCCESS))) ∧
    (∀ S' : Rpi σ,
      ((DrainMailbox B S').1 = false ↔
        ∀ k, k < B.C.RPI_MBOX_MAX_TRIES → DrainValue B k S'.Hw &&& StatusEmptyMask B = 0) ∧
      ∃ m, m < B.C.RPI_MBOX_MAX_TRIES ∧
        (∀ k, k < m → DrainValue B k S'.Hw &&& StatusEmptyMask B = 0) ∧
        ((DrainMailbox B S').1 = true ↔ DrainValue B m S'.Hw &&& StatusEmptyMask B ≠ 0) ∧
        ((DrainMailbox B S').1 = false → m + 1 = B.C.RPI_MBOX_MAX_TRIES) ∧
        (DrainMailbox B S').2 =
          (if (DrainMailbox B S').1 then
            { S' with Hw := (B.MmioReadStatus (AfterDrains B m S'.Hw)).2
                      Trace := S'.Trace ++ (DrainTrace B m S'.Hw ++
                        [MboxEvent.Status (DrainValue B m S'.Hw)]) }
          else
            { S' with Hw := AfterDrains B (m + 1) S'.Hw
                      Trace := S'.Trace ++ DrainTrace B (m + 1) S'.Hw })) ∧
    (∀ (S' : Rpi σ) (Mask : Nat),
      ((MailboxWaitForStatusCleared B S' Mask).1 = false ↔
        ∀ k, k < B.C.RPI_MBOX_MAX_TRIES → PollValue B k S'.Hw &&& Mask ≠ 0) ∧
      ∃ m, m < B.C.RPI_MBOX_MAX_TRIES ∧
        (∀ k, k < m → PollValue B k S'.Hw &&& Mask ≠ 0) ∧
        ((MailboxWaitForStatusCleared B S' Mask).1 = true ↔
          PollValue B m S'.Hw &&& Mask = 0) ∧
        ((MailboxWaitForStatusCleared B S' Mask).1 = false →
          m + 1 = B.C.RPI_MBOX_MAX_TRIES) ∧
        (MailboxWaitForStatusCleared B S' Mask).2 =
          { S' with Hw := AfterPolls B (m + 1) S'.Hw
                    Trace := S'.Trace ++ PollTrace B (m + 1) S'.Hw }) := by
  have hdrain : (∃ k, k < B.C.RPI_MBOX_MAX_TRIES ∧
      DrainValue B k S.Hw &&& StatusEmptyMask B ≠ 0) → (DrainMailbox B S).1 = true := by
    rintro ⟨k, hk, hnz⟩
    cases hr : (DrainMailbox B S).1
    · exact absurd ((DrainMailbox_device B hM S).1.mp hr k hk) hnz
    · rfl
  have hwait : ∀ (S' : Rpi σ) (Mask : Nat), (∃ k, k < B.C.RPI_MBOX_MAX_TRIES ∧
      PollValue B k S'.Hw &&& Mask = 0) → (MailboxWaitForStatusCleared B S' Mask).1 = true := by
    rintro S' Mask ⟨k, hk, hz⟩
    cases hr : (MailboxWaitForStatusCleared B S' Mask).1
    · exact absurd hz ((MailboxWaitForStatusCleared_device B hM S' Mask).1.mp hr k hk)
    · rfl
  refine ⟨?_, ?_, fun S' => DrainMailbox_device B hM S',
    fun S' Mask => MailboxWaitForStatusCleared_device B hM S' Mask⟩
  · intro h
    rw [MailboxTransaction, if_pos h]
  · intro hC
    obtain ⟨l, t1, t2, t3, t4, t5, t6⟩ := MailboxTransaction_polls B hM S Length Channel hC
    refine ⟨l, t1, t2, t3, ?_, ?_, ?_⟩
    · intro hall
      exact t4 ((DrainMailbox_device B hM S).1.mpr hall)
    · intro hd hall
      exact t5 (hdrain hd)
        ((MailboxWaitForStatusCleared_device B hM (DrainMailbox B S).2 (StatusFullMask B)).1.mpr
          hall)
    · intro hd hw
      have hw' : (OutboxWait B S).1 = true := hwait (DrainMailbox B S).2 (StatusFullMask B) hw
      obtain ⟨-, t7, t8⟩ := t6 (hdrain hd) hw'
      obtain ⟨l1, l2, o1, o2, o3, o4⟩ :=
        MailboxTransaction_order B hM S Length Channel hC (hdrain hd) hw'
      refine ⟨⟨l1, l2, ?_, o2, o3, o4⟩, ?_, ?_, ?_⟩
      · rw [t1] at o1
        exact List.append_cancel_left o1
      · obtain ⟨-, -, -, -, -, d5, -⟩ := DrainMailbox_spec B hM S
        obtain ⟨-, -, -, -, -, w5, -⟩ :=
          MailboxWaitForStatusCleared_spec B hM (DrainMailbox B S).2 (StatusFullMask B)
        have hdma : (OutboxWait B S).2.Dma = S.Dma := by rw [OutboxWait, w5, d5]
        rw [← hdma]
        rfl
      · intro hall
        exact t7 ((MailboxWaitForStatusCleared_device B hM (Started B S Channel)
          (StatusEmptyMask B)).1.mpr hall)
      · intro he
        exact t8 (hwait (Started B S Channel) (StatusEmptyMask B) he)

/-- C24 (witness). The mailbox whose status always reads 0, with three polls: channel 16
is refused; on channel 8 the three reads have the empty bit clear, so the transaction
returns timeout without a write, after at most nine status reads. The mailbox that
answers: the transaction writes once and returns success. -/
theorem mailbox_polling_bounded_witness :
    MailboxTransaction SilentBoard SilentStart 32 16 = (EFI_INVALID_PARAMETER, none, SilentStart) ∧
    (∃ l, (MailboxTransaction SilentBoard SilentStart 32 8).2.2.Trace = SilentStart.Trace ++ l ∧
      StatusReads l ≤ 9 ∧ MailboxWrites l = 0 ∧
      (MailboxTransaction SilentBoard SilentStart 32 8).1 = EFI_TIMEOUT) ∧
    (∃ l, (MailboxTransaction AnsweringBoard AnsweringStart 32 8).2.2.Trace =
        AnsweringStart.Trace ++ l ∧
      (∃ l1 l2, l = l1 ++ MboxEvent.Write 0x1008 :: l2 ∧
        MailboxWrites l1 = 0 ∧ MailboxWrites l2 = 0) ∧
      (MailboxTransaction AnsweringBoard AnsweringStart 32 8).1 = EFI_SUCCESS) := by
  refine ⟨(mailbox_polling_bounded SilentBoard (by decide) SilentStart 32 16).1 (by decide),
    ?_, ?_⟩
  · obtain ⟨l, h1, h2, -, h4, -⟩ :=
      (mailbox_polling_bounded SilentBoard (by decide) SilentStart 32 8).2.1 (by decide)
    have h := h4 (by decide)
    exact ⟨l, h1, h2, h.2, h.1⟩
  · obtain ⟨l, h1, -, -, -, -, h6⟩ :=
      (mailbox_polling_bounded AnsweringBoard (by decide) AnsweringStart 32 8).2.1 (by decide)
    obtain ⟨⟨l1, l2, o1, -, o3, o4⟩, -, -, h8⟩ :=
      h6 ⟨0, by decide, by decide⟩ ⟨0, by decide, by decide⟩
    exact ⟨l, h1, ⟨l1, l2, o1, o3, o4⟩, h8 ⟨0, by decide, by decide⟩⟩
/-- C25. Mailbox try-acquire failure: when mMailboxLock is held at the call, every member
of the protocol that returns a status and whose arguments pass its own validation
returns device error, stores no output, and leaves the device, the DMA buffer and the
lock as they were; the trace gains only failed AcquireSpinLockOrFail calls, exactly two
for RpiFirmwareNotifyGpioSetCfg (one inside RpiFirmwareNotifyGpioGetCfg, one of its
own) and exactly one for every other member, so there is no ZeroMem, no register access
and no loop. -/
theorem try_acquire_failure (B : Board σ) (S : Rpi σ) (c : RpiCall)
    (hheld : S.mMailboxLock = true) (hs : c.ReturnsStatus = true)
    (hv : c.ArgumentsPass = true) :
    ∃ k, 1 ≤ k ∧ k ≤ 2 ∧
      (k = 2 ↔ ∃ Gpio Direction State, c = RpiCall.NotifyGpioSetCfg Gpio Direction State) ∧
      c.run B S = (some EFI_DEVICE_ERROR, [],
        { S with Trace := S.Trace ++ List.replicate k (MboxEvent.Acquire false) }) := by
  have q := fun (Length : Nat) (Fields : List (Nat × Nat)) (Outputs : Memory → List Nat) =>
    MailboxQuery_held B S Length Fields Outputs hheld
  cases c with
  | SetLed On => exact absurd hs (by simp [RpiCall.ReturnsStatus])
  | NotifyGpioSetCfg Gpio Direction State =>
    refine ⟨2, by omega, by omega, ⟨fun _ => ⟨Gpio, Direction, State, rfl⟩, fun _ => rfl⟩, ?_⟩
    simp only [RpiCall.run, RpiFirmwareNotifyGpioSetCfg_held B S Gpio Direction State hheld]
  | GetCommmandLine BufferSize =>
    refine ⟨1, by omega, by omega, by simp, ?_⟩
    simp only [RpiCall.ArgumentsPass, Bool.and_eq_true, decide_eq_true_eq] at hv
    simp only [RpiCall.run, RpiFirmwareGetCommmandLine, hv.1, ne_eq, not_true, if_false,
      if_neg (Nat.not_lt.mpr hv.2), AcquireSpinLockOrFail_held S hheld, Bool.not_false, if_true,
      List.replicate]
  | SetPowerState DeviceId PowerState Wait =>
    refine ⟨1, by omega, by omega, by simp, ?_⟩
    simp only [RpiCall.run, RpiFirmwareSetPowerState, AcquireSpinLockOrFail_held S hheld,
      Bool.not_false, if_true, List.replicate]
  | GetSerial =>
    refine ⟨1, by omega, by omega, by simp, ?_⟩
    simp only [RpiCall.run, RpiFirmwareGetSerial, AcquireSpinLockOrFail_held S hheld,
      Bool.not_false, if_true, List.replicate]
  | NotifyXhciReset BusNumber DeviceNumber FunctionNumber =>
    refine ⟨1, by omega, by omega, by simp, ?_⟩
    simp only [RpiCall.run, RpiFirmwareNotifyXhciReset, AcquireSpinLockOrFail_held S hheld,
      Bool.not_false, if_true, List.replicate]
  | GetRtc Register =>
    refine ⟨1, by omega, by omega, by simp, ?_⟩
    simp only [RpiCall.run, RpiFirmwareGetRtc, AcquireSpinLockOrFail_held S hheld,
      Bool.not_false, if_true, List.replicate]
  | SetRtc Register Value =>
    refine ⟨1, by omega, by omega, by simp, ?_⟩
    simp only [RpiCall.run, RpiFirmwareSetRtc, AcquireSpinLockOrFail_held S hheld,
      Bool.not_false, if_true, List.replicate]
  | GetMacAddress =>
    exact ⟨1, by omega, by omega, by simp, by simp only [RpiCall.run, RpiFirmwareGetMacAddress, q,
      List.replicate]⟩
  | GetCurrentClockRate ClockId =>
    exact ⟨1, by omega, by omega, by simp, by simp only [RpiCall.run, RpiFirmwareGetCurrentClockRate,
      RpiFirmwareGetClockRate, q, List.replicate]⟩
  | GetMaxClockRate ClockId =>
    exact ⟨1, by omega, by omega, by simp, by simp only [RpiCall.run, RpiFirmwareGetMaxClockRate,
      RpiFirmwareGetClockRate, q, List.replicate]⟩
  | GetMinClockRate ClockId =>
    exact ⟨1, by omega, by omega, by simp, by simp only [RpiCall.run, RpiFirmwareGetMinClockRate,
      RpiFirmwareGetClockRate, q, List.replicate]⟩
  | SetClockRate ClockId ClockRate SkipTurbo =>
    exact ⟨1, by omega, by omega, by simp, by simp only [RpiCall.run, RpiFirmwareSetClockRate, q,
      List.replicate]⟩
  | AllocFb Width Height Depth =>
    exact ⟨1, by omega, by omega, by simp, by simp only [RpiCall.run, RpiFirmwareAllocFb, q,
      List.replicate]⟩
  | FreeFb =>
    exact ⟨1, by omega, by omega, by simp, by simp only [RpiCall.run, RpiFirmwareFreeFb, q,
      List.replicate]⟩
  | GetFbSize =>
    exact ⟨1, by omega, by omega, by simp, by simp only [RpiCall.run, RpiFirmwareGetFbSize, q,
      List.replicate]⟩
  | GetModel =>
    exact ⟨1, by omega, by omega, by simp, by simp only [RpiCall.run, RpiFirmwareGetModel, q,
      List.replicate]⟩
  | GetModelRevision =>
    exact ⟨1, by omega, by omega, by simp, by simp only [RpiCall.run, RpiFirmwareGetModelRevision, q,
      List.replicate]⟩
  | GetFirmwareRevision =>
    exact ⟨1, by omega, by omega, by simp, by simp only [RpiCall.run, RpiFirmwareGetFirmwareRevision, q,
      List.replicate]⟩
  | GetArmMemory =>
    exact ⟨1, by omega, by omega, by simp, by simp only [RpiCall.run, RpiFirmwareGetArmMemory, q,
      List.replicate]⟩
  | GetCurrentClockState ClockId =>
    exact ⟨1, by omega, by omega, by simp, by simp only [RpiCall.run, RpiFirmwareGetCurrentClockState,
      RpiFirmwareGetClockRate, q, List.replicate]⟩
  | SetClockState ClockId ClockState =>
    exact ⟨1, by omega, by omega, by simp, by simp only [RpiCall.run, RpiFirmwareSetClockState, q,
      List.replicate]⟩

/-- C25 (witness). RpiFirmwareGetCommmandLine with a buffer of 64 bytes and
RpiFirmwareNotifyGpioSetCfg while the lock is held. -/
theorem try_acquire_failure_witness :
    (∃ k, 1 ≤ k ∧ k ≤ 2 ∧
      (k = 2 ↔ ∃ Gpio Direction State,
        RpiCall.GetCommmandLine 64 = RpiCall.NotifyGpioSetCfg Gpio Direction State) ∧
      (RpiCall.GetCommmandLine 64).run AnsweringBoard AnsweringLocked =
        (some EFI_DEVICE_ERROR, [], { AnsweringLocked with
          Trace := AnsweringLocked.Trace ++ List.replicate k (MboxEvent.Acquire false) })) ∧
    (∃ k, 1 ≤ k ∧ k ≤ 2 ∧
      (k = 2 ↔ ∃ Gpio Direction State,
        RpiCall.NotifyGpioSetCfg 4 1 0 = RpiCall.NotifyGpioSetCfg Gpio Direction State) ∧
      (RpiCall.NotifyGpioSetCfg 4 1 0).run AnsweringBoard AnsweringLocked =
        (some EFI_DEVICE_ERROR, [], { AnsweringLocked with
          Trace := AnsweringLocked.Trace ++ List.replicate k (MboxEvent.Acquire false) })) :=
  ⟨try_acquire_failure AnsweringBoard AnsweringLocked (RpiCall.GetCommmandLine 64) rfl rfl
      (by decide),
    try_acquire_failure AnsweringBoard AnsweringLocked (RpiCall.NotifyGpioSetCfg 4 1 0) rfl rfl
      rfl⟩

/-- C29. The mailbox lock is balanced: for every member of the protocol, every argument
and every behaviour of the mailbox and of the firmware (so for a transaction that
succeeds, times out or leaves a response code other than success), mMailboxLock is free
when the member returns if it was free at the call. -/
theorem mailbox_lock_balanced (B : Board σ) (S : Rpi σ) (c : RpiCall)
    (hfree : S.mMailboxLock = false) : (c.run B S).2.2.mMailboxLock = false := by
  have q := fun (Length : Nat) (Fields : List (Nat × Nat)) (Outputs : Memory → List Nat) =>
    MailboxQuery_free B S Length Fields Outputs hfree
  cases c with
  | SetLed On => exact RpiFirmwareSetGpio_free B S _ On hfree
  | NotifyGpioSetCfg Gpio Direction State =>
    exact RpiFirmwareNotifyGpioSetCfg_free B S Gpio Direction State hfree
  | GetCommmandLine BufferSize => exact RpiFirmwareGetCommmandLine_free B S BufferSize hfree
  | GetSerial => exact RpiFirmwareGetSerial_free B S hfree
  | SetPowerState DeviceId PowerState Wait =>
    simp only [RpiCall.run, RpiFirmwareSetPowerState, AcquireSpinLockOrFail_free S hfree,
      Bool.not_true, Bool.false_eq_true, if_false]
    rfl
  | NotifyXhciReset BusNumber DeviceNumber FunctionNumber =>
    simp only [RpiCall.run, RpiFirmwareNotifyXhciReset, AcquireSpinLockOrFail_free S hfree,
      Bool.not_true, Bool.false_eq_true, if_false]
    rfl
  | GetRtc Register =>
    simp only [RpiCall.run, RpiFirmwareGetRtc, AcquireSpinLockOrFail_free S hfree,
      Bool.not_true, Bool.false_eq_true, if_false]
    split <;> rfl
  | SetRtc Register Value =>
    simp only [RpiCall.run, RpiFirmwareSetRtc, AcquireSpinLockOrFail_free S hfree,
      Bool.not_true, Bool.false_eq_true, if_false]
    split <;> rfl
  | GetMacAddress => exact q _ _ _
  | GetCurrentClockRate ClockId => exact q _ _ _
  | GetMaxClockRate ClockId => exact q _ _ _
  | GetMinClockRate ClockId => exact q _ _ _
  | SetClockRate ClockId ClockRate SkipTurbo => exact q _ _ _
  | AllocFb Width Height Depth => exact q _ _ _
  | FreeFb => exact q _ _ _
  | GetFbSize => exact q _ _ _
  | GetModel => exact q _ _ _
  | GetModelRevision => exact q _ _ _
  | GetFirmwareRevision => exact q _ _ _
  | GetArmMemory => exact q _ _ _
  | GetCurrentClockState ClockId => exact q _ _ _
  | SetClockState ClockId ClockState => exact q _ _ _

/-- C29 (witness). RpiFirmwareGetSerial on the mailbox that answers and on the mailbox
that never drains. -/
theorem mailbox_lock_balanced_witness :
    (RpiCall.GetSerial.run AnsweringBoard AnsweringStart).2.2.mMailboxLock = false ∧
    (RpiCall.GetSerial.run SilentBoard SilentStart).2.2.mMailboxLock = false :=
  ⟨mailbox_lock_balanced AnsweringBoard AnsweringStart RpiCall.GetSerial rfl,
    mailbox_lock_balanced SilentBoard SilentStart RpiCall.GetSerial rfl⟩

/-- C30 (evaluation at the failing input). RpiFirmwareGetCommmandLine accepts BufferSize
= 4076, a multiple of 4 with 20 + 4076 = 4096 not above the size of the DMA buffer. It
then zeroes 20 + 4076 + 4 = 4100 bytes from mDmaBuffer and announces 4100 in
BufferHead.BufferSize: the four bytes behind the page of 4096 bytes, which held 0xFF,
are zero afterwards. The mailbox here never drains, so the call returns device error,
with the lock released. -/
theorem RpiFirmwareGetCommmandLine_exceeds_buffer :
    (RpiCall.GetCommmandLine 4076).ArgumentsPass = true ∧
    EFI_PAGES_TO_SIZE NUM_PAGES = 4096 ∧
    (RpiFirmwareGetCommmandLine SilentBoard SilentStart 4076).1 = EFI_DEVICE_ERROR ∧
    (RpiFirmwareGetCommmandLine SilentBoard SilentStart 4076).2.2.Trace =
      [MboxEvent.Acquire true, MboxEvent.Zero 4100, MboxEvent.Status 0, MboxEvent.Read 0,
        MboxEvent.Status 0, MboxEvent.Read 0, MboxEvent.Status 0, MboxEvent.Read 0,
        MboxEvent.Release] ∧
    ReadUint32 (RpiFirmwareGetCommmandLine SilentBoard SilentStart 4076).2.2.Dma
      CmdBufferSize = 4100 ∧
    SilentStart.Dma 4099 = 0xFF ∧
    (RpiFirmwareGetCommmandLine SilentBoard SilentStart 4076).2.2.Dma 4099 = 0 ∧
    (RpiFirmwareGetCommmandLine SilentBoard SilentStart 4073).1 = EFI_INVALID_PARAMETER ∧
    (RpiFirmwareGetCommmandLine SilentBoard SilentStart 4073).2.2.Trace = [] ∧
    (RpiFirmwareGetCommmandLine SilentBoard SilentStart 4080).1 = EFI_OUT_OF_RESOURCES ∧
    (RpiFirmwareGetCommmandLine SilentBoard SilentStart 4080).2.2.Trace = [] := by
  decide


end RpiFirmwareDxe
